import Mathlib

/-!
# IDA solver adapter of the OpenModelica simulation runtime

A shallow embedding of `SimulationRuntime/c/simulation/solver/ida_solver.c`.

* `double` values are rationals (exact arithmetic); C arrays (`double*`, `unsigned int*`) are
  functions from the index, as a pointer carries no length.
* A fatal model condition (`throwStreamPrint`, a `longjmp` to the active jump buffer) is the
  `fault` outcome; it carries the state the jump leaves behind.
* The state vector `yy` handed to the callbacks by the engine is the serial vector which
  `ida_solver_initial` and `ida_solver_step` create over `data->localData[0]->realVars`
  (`N_VMake_Serial`, `N_VSetArrayPointer`), so `states[i]` is `realVars[i]`; the vectors
  `yp`, `rr` and `gout` are the engine's own and are passed by value.
* `Sim.log` is a ghost trace of the calls made, with the time, error stage and phase each
  call found on entry; the C state has no such field.
* The engine (IDA of SUNDIALS) is a parameter: the flags it returns at session start, and
  its `IDAReInit`, `IDASolve` and statistics queries during a step. The do-while loop of
  `ida_solver_step` runs on fuel, since the engine decides when it ends.
-/

namespace IDA

/-! ## Data model -/

/-- A `double*` array. -/
abbrev Vec := Nat → ℚ

/-- Modelled from the spec: the evaluation phases of §3 (the enumeration is declared in a header
that is not among the sources). -/
inductive Context where
  | CONTEXT_ALGEBRAIC
  | CONTEXT_ODE
  | CONTEXT_EVENTS
  | CONTEXT_JACOBIAN
deriving DecidableEq, Repr

/-- Modelled from the spec: the error-stage tag of §3, "INTEGRATOR, EVENT-SEARCH, or none". -/
inductive ErrorStage where
  | ERROR_UNKNOWN
  | ERROR_INTEGRATOR
  | ERROR_EVENTSEARCH
deriving DecidableEq, Repr

export Context (CONTEXT_ALGEBRAIC CONTEXT_ODE CONTEXT_EVENTS CONTEXT_JACOBIAN)
export ErrorStage (ERROR_UNKNOWN ERROR_INTEGRATOR ERROR_EVENTSEARCH)

/-- One buffer `data->localData[k]`. -/
structure SIMULATION_DATA where
  timeValue : ℚ
  realVars : Vec

/-- The mutable simulation state reachable from `data` and `threadData`. -/
structure DATA where
  /-- The field `data->simulationInfo->currentContext`. -/
  currentContext : Context
  /-- The phase recorded by the last `setContext`. -/
  currentContextOld : Context
  /-- The nested evaluation counter of the JACOBIAN phase. -/
  currentJacobianEval : Nat
  /-- The buffer `data->localData[0]`. -/
  localData0 : SIMULATION_DATA
  /-- The buffer `data->localData[1]`. -/
  localData1 : SIMULATION_DATA
  /-- The field `threadData->currentErrorStage`. -/
  currentErrorStage : ErrorStage
  /-- The field `data->simulationInfo->sampleActivated`. -/
  sampleActivated : Int
  /-- The field `data->simulationInfo->nextSampleEvent`. -/
  nextSampleEvent : ℚ

/-- The struct `SPARSE_PATTERN`: compressed column storage and the coloring, all `unsigned int`. -/
structure SPARSE_PATTERN where
  leadindex : Nat → Nat
  index : Nat → Nat
  colorCols : Nat → Nat
  maxColors : Nat

/-- An entry `data->simulationInfo->analyticJacobians[index]`. -/
structure ANALYTIC_JACOBIAN where
  sizeCols : Nat
  sparsePattern : SPARSE_PATTERN

/-- The constants of the model: `data->modelData`, the tolerance and the Jacobian `A`.
The callbacks do not write them. -/
structure MODEL where
  nStates : Nat
  nZeroCrossings : Nat
  /-- The values `data->modelData->realVarsData[i].attribute.nominal`. -/
  nominal : Vec
  /-- The field `data->simulationInfo->tolerance`. -/
  tolerance : ℚ
  /-- The field `data->simulationInfo->startTime`. -/
  startTime : ℚ
  /-- The entry `data->simulationInfo->analyticJacobians[data->callback->INDEX_JAC_A]`. -/
  jacA : ANALYTIC_JACOBIAN

/-- The result of a call that may end in a `longjmp`: `ok` with the state and the value, or
`fault` with the state at the jump. -/
inductive Outcome (σ : Type) (α : Type) where
  | ok (s : σ) (a : α)
  | fault (s : σ)

/-- The state an outcome leaves. -/
def Outcome.state {σ α : Type} : Outcome σ α → σ
  | .ok s _ => s
  | .fault s => s

/-- The value of a call that returned. -/
def Outcome.value? {σ α : Type} : Outcome σ α → Option α
  | .ok _ a => some a
  | .fault _ => none

/-- Whether the call ended in a jump. -/
def Outcome.isFault {σ α : Type} : Outcome σ α → Bool
  | .ok _ _ => false
  | .fault _ => true

/-- The external functions: `externalInputUpdate` and the members of `data->callback`. -/
structure Callbacks where
  externalInputUpdate : DATA → Outcome DATA Unit
  input_function : DATA → Outcome DATA Unit
  functionODE : DATA → Outcome DATA Unit
  function_ZeroCrossingsEquations : DATA → Outcome DATA Unit
  /-- Writes the indicators to `gout`. -/
  function_ZeroCrossings : DATA → Vec → Outcome DATA Vec
  /-- Returns nonzero when the Jacobian or its sparsity pattern is not available. -/
  initialAnalyticJacobianA : DATA → Outcome DATA Int

/-- The functions whose calls the ghost trace records. -/
inductive Fn where
  | setContext (p : Context)
  | unsetContext
  | increaseJacContext
  | externalInputUpdate
  | input_function
  | functionODE
  | function_ZeroCrossingsEquations
  | function_ZeroCrossings
  | initialAnalyticJacobianA
  | residualFunctionIDA
  | rootsFunctionIDA
  /-- A call of `IDAReInit` for the time `t0`. -/
  | IDAReInit (t0 : ℚ)
  /-- A call of `IDASolve` for the target time `tout`. -/
  | IDASolve (tout : ℚ)
deriving DecidableEq

/-- A call, with what it found on entry. -/
structure Event where
  fn : Fn
  timeValue : ℚ
  errorStage : ErrorStage
  context : Context
deriving DecidableEq

/-- The simulation state with the ghost trace. -/
structure Sim where
  data : DATA
  log : List Event

/-- Record a call of `fn` in the trace. -/
def Sim.enter (s : Sim) (fn : Fn) : Sim :=
  { s with log := s.log ++ [⟨fn, s.data.localData0.timeValue, s.data.currentErrorStage,
      s.data.currentContext⟩] }

/-- Call an external function that returns nothing. -/
def Sim.call (s : Sim) (fn : Fn) (f : DATA → Outcome DATA Unit) : Outcome Sim Unit :=
  match f s.data with
  | .ok d _ => .ok { data := d, log := (s.enter fn).log } ()
  | .fault d => .fault { data := d, log := (s.enter fn).log }

/-! ## Evaluation context -/

/-- Modelled from the spec: `setContext` is defined outside the sources. §4.1: "`enterPhase(p)`
fails with `ContextError` if the current phase is not ALGEBRAIC and `p ≠ ALGEBRAIC`; on success
records the previous phase". `none` is the `ContextError`. -/
def enterPhase (d : DATA) (p : Context) : Option DATA :=
  if d.currentContext ≠ CONTEXT_ALGEBRAIC ∧ p ≠ CONTEXT_ALGEBRAIC then none
  else some { d with currentContextOld := d.currentContext, currentContext := p }

/-- Modelled from the spec: the statement `setContext(data, &time, p);` of ida_solver.c. The
call sites test no result, so a refused `enterPhase` leaves the context as it is. -/
def setContext (s : Sim) (p : Context) : Sim :=
  { data := (enterPhase s.data p).getD s.data, log := (s.enter (.setContext p)).log }

/-- Modelled from the spec: `unsetContext` is defined outside the sources. §4.1: "`exitPhase`
restores the phase recorded at entry". -/
def unsetContext (s : Sim) : Sim :=
  { data := { s.data with currentContext := s.data.currentContextOld },
    log := (s.enter .unsetContext).log }

/-- Modelled from the spec: `increaseJacContext` is defined outside the sources. §4.1:
"`bumpJacobianCounter()` is a no-op unless current phase is JACOBIAN, otherwise increments the
nested counter". -/
def increaseJacContext (s : Sim) : Sim :=
  { data := if s.data.currentContext = CONTEXT_JACOBIAN
      then { s.data with currentJacobianEval := s.data.currentJacobianEval + 1 }
      else s.data,
    log := (s.enter .increaseJacContext).log }

/-! ## Residual and root adapters -/

/-- The assignment `data->localData[0]->timeValue = t`. -/
def DATA.setTime (d : DATA) (t : ℚ) : DATA :=
  { d with localData0 := { d.localData0 with timeValue := t } }

/-- The assignment `threadData->currentErrorStage = e`. -/
def DATA.setStage (d : DATA) (e : ErrorStage) : DATA :=
  { d with currentErrorStage := e }

/-- The loop `for(i = 0; i < n; i++) body`. -/
def forLoop {σ : Type} (body : Nat → σ → σ) : Nat → σ → σ
  | 0, s => s
  | k + 1, s => body k (forLoop body k s)

/-- Lines 130-135 of `residualFunctionIDA`: the three calls inside the try block. -/
def evalODE (cb : Callbacks) (s : Sim) : Outcome Sim Unit :=
  match s.call .externalInputUpdate cb.externalInputUpdate with
  | .fault s1 => .fault s1
  | .ok s1 _ =>
    match s1.call .input_function cb.input_function with
    | .fault s2 => .fault s2
    | .ok s2 _ => s2.call .functionODE cb.functionODE

/-- Lines 139-143: `res[i] = realVars[nStates + i] - yp[i]` for `i < nStates`. -/
def residualLoop (m : MODEL) (d : DATA) (yp res : Vec) : Vec :=
  forLoop (fun i r => Function.update r i (d.localData0.realVars (m.nStates + i) - yp i))
    m.nStates res

/-- The result of `residualFunctionIDA`: the state, the vector `res` and the return value. -/
structure ResidualResult where
  sim : Sim
  res : Vec
  retVal : Int

/-- The function `residualFunctionIDA(time, yy, yp, res, userData)`. `MMC_TRY_INTERNAL` and
`MMC_CATCH_INTERNAL` (macros from a header outside the sources) are the try block of §4.2: a
fault inside is caught at the end of the block, leaving `success` at 0. -/
def residualFunctionIDA (m : MODEL) (cb : Callbacks) (time : ℚ) (_yy yp res : Vec) (s : Sim) :
    ResidualResult :=
  let s := s.enter .residualFunctionIDA
  let s := if s.data.currentContext = CONTEXT_ALGEBRAIC then setContext s CONTEXT_ODE else s
  let timeBackup := s.data.localData0.timeValue
  let s := { s with data := s.data.setTime time }
  let saveJumpState := s.data.currentErrorStage
  let s := { s with data := s.data.setStage ERROR_INTEGRATOR }
  let tried : Sim × Vec × Int :=
    match evalODE cb s with
    | .ok s1 _ => (s1, residualLoop m s1.data yp res, 1)
    | .fault s1 => (s1, res, 0)
  let s := tried.1
  let success := tried.2.2
  let retVal : Int := if success = 0 then -1 else 0
  let s := { s with data := s.data.setStage saveJumpState }
  let s := { s with data := s.data.setTime timeBackup }
  let s := if s.data.currentContext = CONTEXT_ODE then unsetContext s else s
  { sim := s, res := tried.2.1, retVal := retVal }

/-- Lines 186-192 of `rootsFunctionIDA`: the four calls, none of them inside a try block. -/
def evalZeroCrossings (cb : Callbacks) (gout : Vec) (s : Sim) : Outcome Sim Vec :=
  match s.call .externalInputUpdate cb.externalInputUpdate with
  | .fault s1 => .fault s1
  | .ok s1 _ =>
    match s1.call .input_function cb.input_function with
    | .fault s2 => .fault s2
    | .ok s2 _ =>
      match s2.call .function_ZeroCrossingsEquations cb.function_ZeroCrossingsEquations with
      | .fault s3 => .fault s3
      | .ok s3 _ =>
        match cb.function_ZeroCrossings s3.data gout with
        | .ok d g => .ok { data := d, log := (s3.enter .function_ZeroCrossings).log } g
        | .fault d => .fault { data := d, log := (s3.enter .function_ZeroCrossings).log }

/-- The function `rootsFunctionIDA(time, yy, yp, gout, userData)`: the value is `gout` and the
return value. There is no try block: a fault of a callback leaves the function at the call. -/
def rootsFunctionIDA (_m : MODEL) (cb : Callbacks) (time : ℚ) (_yy _yp gout : Vec) (s : Sim) :
    Outcome Sim (Vec × Int) :=
  let s := s.enter .rootsFunctionIDA
  let s := if s.data.currentContext = CONTEXT_ALGEBRAIC then setContext s CONTEXT_EVENTS else s
  let saveJumpState := s.data.currentErrorStage
  let s := { s with data := s.data.setStage ERROR_EVENTSEARCH }
  let timeBackup := s.data.localData0.timeValue
  let s := { s with data := s.data.setTime time }
  match evalZeroCrossings cb gout s with
  | .fault s1 => .fault s1
  | .ok s1 g =>
    let s1 := { s1 with data := s1.data.setStage saveJumpState }
    let s1 := { s1 with data := s1.data.setTime timeBackup }
    let s1 := if s1.data.currentContext = CONTEXT_EVENTS then unsetContext s1 else s1
    .ok s1 (g, 0)

/-! ## Finite-difference Jacobians -/

/-- A dense matrix `DlsMat`: `DENSE_ELEM(A, i, j)` is `A i j`, row `i` and column `j`. -/
abbrev DlsMat := Nat → Nat → ℚ

/-- The assignment `DENSE_ELEM(A, i, j) = v`. -/
def DlsMat.set (A : DlsMat) (i j : Nat) (v : ℚ) : DlsMat :=
  fun a b => if a = i ∧ b = j then v else A a b

/-- The Jacobian functions that can be registered at the engine. -/
inductive JacFn where
  | jacobianOwnNumColoredIDA
  | jacobianOwnNumIDA
deriving DecidableEq, Repr

/-- The part of the engine's memory `ida_mem` which the adapter sets or reads. -/
structure IDA_MEM where
  /-- The current internal step size, read by `IDAGetCurrentStep`. -/
  hh : ℚ
  /-- The error weights, read by `IDAGetErrWeights`. -/
  ewt : Vec
  /-- The relative tolerance given to `IDASVtolerances`. -/
  rtol : ℚ
  /-- The absolute tolerances given to `IDASVtolerances`. -/
  avtol : Vec
  /-- The size given to `IDADense`. -/
  denseSize : Nat
  /-- The number of root functions given to `IDARootInit`. -/
  nrtfn : Nat
  /-- The function given to `IDADlsSetDenseJacFn`; `none` is the engine's own difference
  quotient. -/
  djac : Option JacFn
  /-- The time of the last `IDAInit` or `IDAReInit`. -/
  t0 : ℚ

/-- The struct `IDA_SOLVER`, the session record. -/
structure IDA_SOLVER where
  setInitialSolution : Int
  jacobianMethod : Int
  sqrteps : ℚ
  ysave : Vec
  delta_hh : Vec
  errwgt : Vec
  newdelta : Vec
  ida_mem : IDA_MEM

/-- The state of a Jacobian evaluation: the simulation state (whose `realVars` hold the vector
`yy`), the session record and the matrix `Jac`. -/
structure JacState where
  sim : Sim
  ida : IDA_SOLVER
  Jac : DlsMat

/-- The vector `yy` of a Jacobian evaluation: `states[i]` is `realVars[i]`. -/
def JacState.states (w : JacState) : Vec := w.sim.data.localData0.realVars

/-- The assignment `states[i] = v`, on the vector `yy` over `localData[0]->realVars`. -/
def Sim.setState (s : Sim) (i : Nat) (v : ℚ) : Sim :=
  { s with data := { s.data with localData0 := { s.data.localData0 with
      realVars := Function.update s.data.localData0.realVars i v } } }

/-- Lines 605-608 and 716-719: the increment of column `ii`. -/
def perturbation (delta_h currentStep : ℚ) (states yprime errwgt : Vec) (ii : Nat) : ℚ :=
  let delta_hhh := currentStep * yprime ii
  let delta_hh := delta_h * max (max |states ii| |delta_hhh|) |1 / errwgt ii|
  let delta_hh := if delta_hhh ≥ 0 then delta_hh else -delta_hh
  (states ii + delta_hh) - states ii

/-- The test `colorCols[ii]-1 == i` of lines 603 and 623, in `unsigned int` arithmetic. -/
def colorIs (sp : SPARSE_PATTERN) (ii i : Nat) : Bool :=
  (sp.colorCols ii + 4294967295) % 4294967296 == i

/-- Lines 605-613: perturb column `ii`, saving its value and the reciprocal of the increment. -/
def perturbColumn (currentStep : ℚ) (yprime : Vec) (ii : Nat) (w : JacState) : JacState :=
  let states := w.sim.data.localData0.realVars
  let d := perturbation w.ida.sqrteps currentStep states yprime w.ida.errwgt ii
  { w with
    sim := w.sim.setState ii (states ii + d)
    ida := { w.ida with
      ysave := Function.update w.ida.ysave ii (states ii)
      delta_hh := Function.update w.ida.delta_hh ii (1 / d) } }

/-- Lines 625-628: the first position of column `ii` in `index`. -/
def colStart (sp : SPARSE_PATTERN) (ii : Nat) : Nat :=
  if ii = 0 then 0 else sp.leadindex (ii - 1)

/-- Lines 629-635: the while loop over the rows of column `ii`, then `states[ii] = ysave[ii]`. -/
def fillColumn (sp : SPARSE_PATTERN) (delta : Vec) (ii : Nat) (w : JacState) : JacState :=
  let Jac := forLoop (fun t J =>
      let l := sp.index (colStart sp ii + t)
      DlsMat.set J l ii ((w.ida.newdelta l - delta l) * w.ida.delta_hh ii))
    (sp.leadindex ii - colStart sp ii) w.Jac
  { w with Jac := Jac, sim := w.sim.setState ii (w.ida.ysave ii) }

/-- Lines 617-619 and 726-728: the residual at the perturbed state, into `idaData->newdelta`
(the return value is not looked at), then `increaseJacContext`. -/
def evalPerturbed (m : MODEL) (cb : Callbacks) (tt : ℚ) (yp : Vec) (w : JacState) : JacState :=
  let r := residualFunctionIDA m cb tt w.sim.data.localData0.realVars yp w.ida.newdelta w.sim
  { w with sim := increaseJacContext r.sim, ida := { w.ida with newdelta := r.res } }

/-- Lines 600-637: the body of the loop over the colors. -/
def colorStep (m : MODEL) (cb : Callbacks) (tt currentStep : ℚ) (yp rr : Vec) (i : Nat)
    (w : JacState) : JacState :=
  let sp := m.jacA.sparsePattern
  let w := forLoop (fun ii w => if colorIs sp ii i then perturbColumn currentStep yp ii w else w)
    m.jacA.sizeCols w
  let w := evalPerturbed m cb tt yp w
  forLoop (fun ii w => if colorIs sp ii i then fillColumn sp rr ii w else w) m.jacA.sizeCols w

/-- Lines 595-597 and 710-712: `IDAGetErrWeights(ida_mem, idaData->errwgt)` and
`setContext(data, &tt, CONTEXT_JACOBIAN)`. -/
def jacEntry (w : JacState) : JacState :=
  let w := { w with ida := { w.ida with errwgt := w.ida.ida_mem.ewt } }
  { w with sim := setContext w.sim CONTEXT_JACOBIAN }

/-- The function `jacOwnNumColoredIDA(tt, yy, yp, rr, Jac, userData)`; `yy` is `realVars`. -/
def jacOwnNumColoredIDA (m : MODEL) (cb : Callbacks) (tt : ℚ) (yp rr : Vec) (w : JacState) :
    JacState × Int :=
  let currentStep := w.ida.ida_mem.hh
  let w := jacEntry w
  let w := forLoop (colorStep m cb tt currentStep yp rr) m.jacA.sparsePattern.maxColors w
  let w := { w with sim := unsetContext w.sim }
  (w, 0)

/-- Lines 670-673 and 767-770: `DENSE_ELEM(Jac, i, i) -= cj` for `i < Neq`. -/
def subtractCj (Neq : Int) (cj : ℚ) (Jac : DlsMat) : DlsMat :=
  forLoop (fun i J => DlsMat.set J i i (J i i - cj)) Neq.toNat Jac

/-- The function `jacobianOwnNumColoredIDA(Neq, tt, cj, yy, yp, rr, Jac, user_data, ...)`. -/
def jacobianOwnNumColoredIDA (m : MODEL) (cb : Callbacks) (Neq : Int) (tt cj : ℚ) (yp rr : Vec)
    (w : JacState) : Outcome JacState Int :=
  let r := jacOwnNumColoredIDA m cb tt yp rr w
  if r.2 ≠ 0 then .fault r.1
  else .ok { r.1 with Jac := subtractCj Neq cj r.1.Jac } 0

/-- Lines 715-734: the body of the loop over the columns. -/
def denseStep (m : MODEL) (cb : Callbacks) (tt currentStep : ℚ) (yp rr : Vec) (i : Nat)
    (w : JacState) : JacState :=
  let states := w.sim.data.localData0.realVars
  let delta_hh := perturbation w.ida.sqrteps currentStep states yp w.ida.errwgt i
  let ysave := states i
  let w := { w with sim := w.sim.setState i (states i + delta_hh) }
  let deltaInv := 1 / delta_hh
  let w := evalPerturbed m cb tt yp w
  let Jac := forLoop (fun j J => DlsMat.set J j i ((w.ida.newdelta j - rr j) * deltaInv))
    m.nStates w.Jac
  { w with Jac := Jac, sim := w.sim.setState i ysave }

/-- The function `jacOwnNumIDA(tt, yy, yp, rr, Jac, userData)`; `yy` is `realVars`. -/
def jacOwnNumIDA (m : MODEL) (cb : Callbacks) (tt : ℚ) (yp rr : Vec) (w : JacState) :
    JacState × Int :=
  let currentStep := w.ida.ida_mem.hh
  let w := jacEntry w
  let w := forLoop (denseStep m cb tt currentStep yp rr) m.nStates w
  let w := { w with sim := unsetContext w.sim }
  (w, 0)

/-- The function `jacobianOwnNumIDA(Neq, tt, cj, yy, yp, rr, Jac, user_data, ...)`. -/
def jacobianOwnNumIDA (m : MODEL) (cb : Callbacks) (Neq : Int) (tt cj : ℚ) (yp rr : Vec)
    (w : JacState) : Outcome JacState Int :=
  let r := jacOwnNumIDA m cb tt yp rr w
  if r.2 ≠ 0 then .fault r.1
  else .ok { r.1 with Jac := subtractCj Neq cj r.1.Jac } 0

/-! ## Session start -/

/-- The engine's flag `IDA_SUCCESS` (header `ida.h` of the engine). -/
def IDA_SUCCESS : Int := 0

/-- The engine's flag `IDA_ROOT_RETURN` (header `ida.h` of the engine). -/
def IDA_ROOT_RETURN : Int := 2

/-- The function `checkIDAflag(flag)`. -/
def checkIDAflag (flag : Int) : Int :=
  if flag = IDA_SUCCESS then 0 else 1

/-- Modelled from the spec: the Jacobian methods, an enumeration declared outside the sources,
numbered in the order of the supported set of §4.3 "{colored-numeric, numeric,
colored-symbolic, symbolic, engine-internal-numeric}", after `JAC_UNKNOWN = 0`. -/
def JAC_UNKNOWN : Int := 0

/-- Modelled from the spec: the colored numeric method, see `JAC_UNKNOWN`. -/
def COLOREDNUMJAC : Int := 1

/-- Modelled from the spec: the dense numeric method, see `JAC_UNKNOWN`. -/
def NUMJAC : Int := 2

/-- Modelled from the spec: the colored symbolic method, see `JAC_UNKNOWN`. -/
def COLOREDSYMJAC : Int := 3

/-- Modelled from the spec: the symbolic method, see `JAC_UNKNOWN`. -/
def SYMJAC : Int := 4

/-- Modelled from the spec: the engine-internal numeric method, see `JAC_UNKNOWN`. -/
def INTERNALNUMJAC : Int := 5

/-- Modelled from the spec: the end of the enumeration, see `JAC_UNKNOWN`. -/
def JAC_MAX : Nat := 6

/-- The configuration read at session start. -/
structure OMC_FLAGS where
  /-- The entry `omc_flag[FLAG_JACOBIAN]`: whether a method is configured. -/
  flagJacobian : Bool
  /-- The entry `omc_flagValue[FLAG_JACOBIAN]`: the configured name. -/
  flagValueJacobian : String
  /-- The table `JACOBIAN_METHOD` of the method names, defined outside the sources. -/
  JACOBIAN_METHOD : Nat → String

/-- What the engine answers to the calls of `ida_solver_initial`: the memory from `IDACreate`
(`none` for `NULL`) and the flag of each other call. -/
structure ENGINE_INIT where
  IDACreate : Option IDA_MEM
  IDAInit : Int
  IDASetUserData : Int
  IDASetErrHandlerFn : Int
  IDASVtolerances : Int
  IDADense : Int
  IDARootInit : Int
  IDADlsSetDenseJacFn : Int

/-- The value `sqrt(DBL_EPSILON)`: `DBL_EPSILON` is `2^-52`, its square root `2^-26`. -/
def sqrtDblEpsilon : ℚ := 1 / 67108864

/-- Lines 264-269: `tmp[i] = tolerance * fmax(fabs(nominal[i]), 1e-32)` for `i < nStates`. -/
def absTolerances (m : MODEL) : Vec :=
  forLoop (fun i tmp => Function.update tmp i
    (m.tolerance * max |m.nominal i| (1 / 100000000000000000000000000000000))) m.nStates
    (fun _ => 0)

/-- Lines 218-288 of `ida_solver_initial`: the engine is created and set up. Each
`throwStreamPrint` is a fault. -/
def initEngine (m : MODEL) (eng : ENGINE_INIT) (idaData : IDA_SOLVER) (s : Sim) :
    Outcome (Sim × IDA_SOLVER) Unit :=
  let idaData := { idaData with setInitialSolution := 0 }
  match eng.IDACreate with
  | none => .fault (s, idaData)
  | some mem =>
    let idaData := { idaData with ida_mem := { mem with t0 := m.startTime } }
    let flag := eng.IDAInit
    let idaData := { idaData with sqrteps := sqrtDblEpsilon }
    if checkIDAflag flag ≠ 0 then .fault (s, idaData)
    else if checkIDAflag eng.IDASetUserData ≠ 0 then .fault (s, idaData)
    else if checkIDAflag eng.IDASetErrHandlerFn ≠ 0 then .fault (s, idaData)
    else
      let tmp := absTolerances m
      let idaData := { idaData with ida_mem :=
        { idaData.ida_mem with rtol := m.tolerance, avtol := tmp } }
      if checkIDAflag eng.IDASVtolerances ≠ 0 then .fault (s, idaData)
      else
        let idaData := { idaData with ida_mem :=
          { idaData.ida_mem with denseSize := m.nStates } }
        if checkIDAflag eng.IDADense ≠ 0 then .fault (s, idaData)
        else
          let idaData := { idaData with ida_mem :=
            { idaData.ida_mem with nrtfn := m.nZeroCrossings } }
          if checkIDAflag eng.IDARootInit ≠ 0 then .fault (s, idaData)
          else .ok (s, idaData) ()

/-- Lines 294-300: the first `i` from 1 below `JAC_MAX` whose name is the configured one is
assigned to `jacobianMethod`; without a match the field keeps the value it has. -/
def lookupJacobianMethod (fl : OMC_FLAGS) (jacobianMethod : Int) : Int :=
  match (List.range' 1 (JAC_MAX - 1)).find?
      (fun i => fl.flagValueJacobian == fl.JACOBIAN_METHOD i) with
  | some i => (i : Int)
  | none => jacobianMethod

/-- Lines 291-319: the method from the configuration, or the colored numeric default. -/
def configuredJacobian (fl : OMC_FLAGS) (idaData : IDA_SOLVER) (s : Sim) :
    Outcome (Sim × IDA_SOLVER) Unit :=
  if fl.flagJacobian then
    let idaData := { idaData with jacobianMethod := lookupJacobianMethod fl idaData.jacobianMethod }
    if idaData.jacobianMethod = JAC_UNKNOWN then .fault (s, idaData)
    else .ok (s, idaData) ()
  else .ok (s, { idaData with jacobianMethod := COLOREDNUMJAC }) ()

/-- Lines 321-331: the methods that need the sparsity pattern ask for it, and fall to
`INTERNALNUMJAC` when `initialAnalyticJacobianA` returns nonzero. -/
def acquirePattern (cb : Callbacks) (idaData : IDA_SOLVER) (s : Sim) :
    Outcome (Sim × IDA_SOLVER) Unit :=
  if idaData.jacobianMethod = COLOREDNUMJAC ∨ idaData.jacobianMethod = COLOREDSYMJAC ∨
      idaData.jacobianMethod = SYMJAC then
    match cb.initialAnalyticJacobianA s.data with
    | .fault d => .fault ({ data := d, log := (s.enter .initialAnalyticJacobianA).log }, idaData)
    | .ok d r =>
      let s1 : Sim := { data := d, log := (s.enter .initialAnalyticJacobianA).log }
      if r ≠ 0 then .ok (s1, { idaData with jacobianMethod := INTERNALNUMJAC }) ()
      else .ok (s1, idaData) ()
  else .ok (s, idaData) ()

/-- Lines 333-358: the switch that registers the Jacobian function at the engine. The two
symbolic cases only print "The symbolic jacobian is not implemented, yet! Switch back to
internal." -/
def registerJacobian (eng : ENGINE_INIT) (idaData : IDA_SOLVER) (s : Sim) :
    Outcome (Sim × IDA_SOLVER) Unit :=
  if idaData.jacobianMethod = SYMJAC ∨ idaData.jacobianMethod = COLOREDSYMJAC then
    .ok (s, idaData) ()
  else if idaData.jacobianMethod = COLOREDNUMJAC then
    let idaData := { idaData with ida_mem :=
      { idaData.ida_mem with djac := some .jacobianOwnNumColoredIDA } }
    if checkIDAflag eng.IDADlsSetDenseJacFn ≠ 0 then .fault (s, idaData)
    else .ok (s, idaData) ()
  else if idaData.jacobianMethod = NUMJAC then
    let idaData := { idaData with ida_mem :=
      { idaData.ida_mem with djac := some .jacobianOwnNumIDA } }
    if checkIDAflag eng.IDADlsSetDenseJacFn ≠ 0 then .fault (s, idaData)
    else .ok (s, idaData) ()
  else if idaData.jacobianMethod = INTERNALNUMJAC then .ok (s, idaData) ()
  else .fault (s, idaData)

/-- The function `ida_solver_initial(data, threadData, solverInfo, idaData)`; `idaData` comes
with the content the caller's allocation left in it. -/
def ida_solver_initial (m : MODEL) (cb : Callbacks) (fl : OMC_FLAGS) (eng : ENGINE_INIT)
    (idaData : IDA_SOLVER) (s : Sim) : Outcome (Sim × IDA_SOLVER) Int :=
  match initEngine m eng idaData s with
  | .fault r => .fault r
  | .ok r _ =>
    match configuredJacobian fl r.2 r.1 with
    | .fault r => .fault r
    | .ok r _ =>
      match acquirePattern cb r.2 r.1 with
      | .fault r => .fault r
      | .ok r _ =>
        match registerJacobian eng r.2 r.1 with
        | .fault r => .fault r
        | .ok r _ => .ok r 0

/-! ## The step -/

/-- The part of `SOLVER_INFO` the step uses. -/
structure SOLVER_INFO where
  currentTime : ℚ
  currentStepSize : ℚ
  didEventStep : Int
  solverStatsTmp : Nat → Int

/-- What `IDASolve` works on: the simulation buffers (its vectors `y` and `yp` lie in
`localData[0]` and `localData[1]`, and it calls the adapters), its memory, and `tret`. -/
structure SolveState where
  data : DATA
  mem : IDA_MEM
  tret : ℚ

/-- The engine during a step. `IDASolve tout` returns a flag, or is left by a fault of an
adapter that does not catch it; a statistics query returns a flag and a count. -/
structure ENGINE where
  IDAReInit : IDA_MEM → ℚ → DATA → Int × IDA_MEM
  IDASolve : ℚ → SolveState → Outcome SolveState Int
  IDAGetNumSteps : IDA_MEM → Int × Int
  IDAGetNumResEvals : IDA_MEM → Int × Int
  IDADlsGetNumJacEvals : IDA_MEM → Int × Int
  IDAGetNumErrTestFails : IDA_MEM → Int × Int
  IDAGetNumNonlinSolvConvFails : IDA_MEM → Int × Int

/-- The state of a step: the simulation state, the session record and the solver info. -/
structure StepState where
  sim : Sim
  ida : IDA_SOLVER
  solverInfo : SOLVER_INFO

/-- Lines 406-426: `setInitialSolution` is cleared after an event step, and the engine is
re-initialised when it is clear; a failed `IDAReInit` is a fault. -/
def stepReInit (eng : ENGINE) (st : StepState) : Outcome StepState Unit :=
  let st := if st.solverInfo.didEventStep ≠ 0
    then { st with ida := { st.ida with setInitialSolution := 0 } } else st
  if st.ida.setInitialSolution = 0 then
    let r := eng.IDAReInit st.ida.ida_mem st.solverInfo.currentTime st.sim.data
    let flag := r.1
    let st := { st with
      sim := st.sim.enter (.IDAReInit st.solverInfo.currentTime)
      ida := { st.ida with ida_mem := r.2 } }
    if checkIDAflag flag ≠ 0 then .fault st
    else .ok { st with ida := { st.ida with setInitialSolution := 1 } } ()
  else .ok st ()

/-- Lines 446-452: the linear extrapolation from `localData[1]`, the new time, and
`functionODE`. -/
def smallStep (m : MODEL) (cb : Callbacks) (st : StepState) : Outcome StepState Unit :=
  let sDataOld := st.sim.data.localData1
  let h := st.solverInfo.currentStepSize
  let realVars := forLoop (fun i v => Function.update v i
      (sDataOld.realVars i + sDataOld.realVars (m.nStates + i) * h))
    m.nStates st.sim.data.localData0.realVars
  let d := { st.sim.data with localData0 :=
    { timeValue := st.solverInfo.currentTime + h, realVars := realVars } }
  match ({ st.sim with data := d } : Sim).call .functionODE cb.functionODE with
  | .fault s1 => .fault { st with sim := s1 }
  | .ok s1 _ =>
    .ok { st with sim := s1, solverInfo :=
      { st.solverInfo with currentTime := s1.data.localData0.timeValue } } ()

/-- Lines 465-474: one pass of the do-while loop up to the classification: the inputs are
read, `IDASolve` is called and the time is set to the time it returned. The value is the
flag. -/
def solveOnce (cb : Callbacks) (eng : ENGINE) (tout : ℚ) (st : StepState) :
    Outcome StepState Int :=
  match st.sim.call .externalInputUpdate cb.externalInputUpdate with
  | .fault s1 => .fault { st with sim := s1 }
  | .ok s1 _ =>
    match s1.call .input_function cb.input_function with
    | .fault s2 => .fault { st with sim := s2 }
    | .ok s2 _ =>
      let s3 := s2.enter (.IDASolve tout)
      match eng.IDASolve tout
          { data := s2.data, mem := st.ida.ida_mem, tret := st.solverInfo.currentTime } with
      | .fault e =>
        .fault { sim := { data := e.data, log := s3.log }
                 ida := { st.ida with ida_mem := e.mem }
                 solverInfo := { st.solverInfo with currentTime := e.tret } }
      | .ok e flag =>
        .ok { sim := { data := e.data.setTime e.tret, log := s3.log }
              ida := { st.ida with ida_mem := e.mem }
              solverInfo := { st.solverInfo with currentTime := e.tret } } flag

/-- Lines 463-503: the do-while loop. `fuel` bounds the number of passes; `none` is a loop
that has not finished within it. The value is `retVal`. -/
def solveLoop (cb : Callbacks) (eng : ENGINE) (tout : ℚ) :
    Nat → StepState → Option (Outcome StepState Int)
  | 0, _ => none
  | fuel + 1, st =>
    match solveOnce cb eng tout st with
    | .fault st1 => some (.fault st1)
    | .ok st1 flag =>
      if checkIDAflag flag = 0 ∧ st1.solverInfo.currentTime ≥ tout then some (.ok st1 0)
      else if checkIDAflag flag = 0 then solveLoop cb eng tout fuel st1
      else if flag = IDA_ROOT_RETURN then some (.ok st1 0)
      else some (.ok st1 flag)

/-- One statistics query of lines 517-555: the count is stored when the flag is
`IDA_SUCCESS`. -/
def saveStat (q : Int × Int) (k : Nat) (stats : Nat → Int) : Nat → Int :=
  if q.1 = IDA_SUCCESS then Function.update stats k q.2 else stats

/-- Lines 508-560: after the catch, the error stage is written back, a pending sample event
is dropped when the time is before it, and the statistics are read. -/
def stepFinish (eng : ENGINE) (saveJumpState : ErrorStage) (st : StepState) : StepState :=
  let d := st.sim.data.setStage saveJumpState
  let d := if d.sampleActivated ≠ 0 ∧ st.solverInfo.currentTime < d.nextSampleEvent
    then { d with sampleActivated := 0 } else d
  let mem := st.ida.ida_mem
  let stats := st.solverInfo.solverStatsTmp
  let stats := saveStat (eng.IDAGetNumSteps mem) 0 stats
  let stats := saveStat (eng.IDAGetNumResEvals mem) 1 stats
  let stats := saveStat (eng.IDADlsGetNumJacEvals mem) 2 stats
  let stats := saveStat (eng.IDAGetNumErrTestFails mem) 3 stats
  let stats := saveStat (eng.IDAGetNumNonlinSolvConvFails mem) 4 stats
  { st with sim := { st.sim with data := d },
            solverInfo := { st.solverInfo with solverStatsTmp := stats } }

/-- The function `ida_solver_step(data, threadData, solverInfo)`; `DASSL_STEP_EPS` is a
constant defined outside the sources. The try block (`MMC_TRY_INTERNAL` ...
`MMC_CATCH_INTERNAL`, §4.2) starts after the re-initialisation: a fault inside it is caught and
the function goes on after the catch with `retVal` as it is, 0; the `return 0` of the small
step leaves the function from inside the block. -/
def ida_solver_step (m : MODEL) (cb : Callbacks) (eng : ENGINE) (DASSL_STEP_EPS : ℚ)
    (fuel : Nat) (st : StepState) : Option (Outcome StepState Int) :=
  match stepReInit eng st with
  | .fault st1 => some (.fault st1)
  | .ok st1 _ =>
    let saveJumpState := st1.sim.data.currentErrorStage
    let st2 := { st1 with sim := { st1.sim with data := st1.sim.data.setStage ERROR_INTEGRATOR } }
    if st2.solverInfo.currentStepSize < DASSL_STEP_EPS then
      match smallStep m cb st2 with
      | .ok st3 _ => some (.ok st3 0)
      | .fault st3 => some (.ok (stepFinish eng saveJumpState st3) 0)
    else
      let tout := st2.solverInfo.currentTime + st2.solverInfo.currentStepSize
      match solveLoop cb eng tout fuel st2 with
      | none => none
      | some (.ok st3 retVal) => some (.ok (stepFinish eng saveJumpState st3) retVal)
      | some (.fault st3) => some (.ok (stepFinish eng saveJumpState st3) 0)

/-! ## Notions used in the statements -/

/-- Lines 114-123 of `residualFunctionIDA`: the state in which the try block starts. -/
def residualEntry (time : ℚ) (s : Sim) : Sim :=
  let s := s.enter .residualFunctionIDA
  let s := if s.data.currentContext = CONTEXT_ALGEBRAIC then setContext s CONTEXT_ODE else s
  { s with data := (s.data.setTime time).setStage ERROR_INTEGRATOR }

/-- Lines 175-184 of `rootsFunctionIDA`: the state in which the callbacks are called. -/
def rootsEntry (time : ℚ) (s : Sim) : Sim :=
  let s := s.enter .rootsFunctionIDA
  let s := if s.data.currentContext = CONTEXT_ALGEBRAIC then setContext s CONTEXT_EVENTS else s
  { s with data := (s.data.setStage ERROR_EVENTSEARCH).setTime time }

/-- The model callbacks, among the functions in the trace. -/
def Fn.isCallback : Fn → Bool
  | .externalInputUpdate => true
  | .input_function => true
  | .functionODE => true
  | .function_ZeroCrossingsEquations => true
  | .function_ZeroCrossings => true
  | .initialAnalyticJacobianA => true
  | _ => false

/-- A callback leaves the evaluation context (the phase and the recorded phase) as it is,
whether it returns or faults. -/
def KeepsContext (f : DATA → Outcome DATA Unit) : Prop :=
  ∀ d, (f d).state.currentContext = d.currentContext ∧
    (f d).state.currentContextOld = d.currentContextOld

/-- A callback leaves the current time and the error stage as they are, whether it returns or
faults. -/
def KeepsClock (f : DATA → Outcome DATA Unit) : Prop :=
  ∀ d, (f d).state.localData0.timeValue = d.localData0.timeValue ∧
    (f d).state.currentErrorStage = d.currentErrorStage

/-- The number of residual evaluations in a trace: the calls of `residualFunctionIDA`. -/
def resEvals (log : List Event) : Nat :=
  log.countP (fun e => e.fn = .residualFunctionIDA)

/-- The rows which the sparsity pattern lists for column `ii`: `index[j]` for `j` from
`colStart` up to `leadindex[ii]`. -/
def rowsOf (sp : SPARSE_PATTERN) (ii : Nat) : List Nat :=
  (List.range (sp.leadindex ii - colStart sp ii)).map (fun t => sp.index (colStart sp ii + t))

/-- The number of calls of `IDASolve` in a trace. -/
def solveCalls (log : List Event) : Nat :=
  log.countP (fun e => match e.fn with | .IDASolve _ => true | _ => false)

/-- The number of calls of `IDAReInit` in a trace. -/
def reInits (log : List Event) : Nat :=
  log.countP (fun e => match e.fn with | .IDAReInit _ => true | _ => false)

/-- The number of calls of `functionODE` in a trace. -/
def odeCalls (log : List Event) : Nat :=
  log.countP (fun e => e.fn = .functionODE)

/-- Lines 428-429 of `ida_solver_step`: the state in which the try block starts, after a
re-initialisation that left `st1`. -/
def stepEntry (st1 : StepState) : StepState :=
  { st1 with sim := { st1.sim with data := st1.sim.data.setStage ERROR_INTEGRATOR } }

/-- The state after `j` passes of the do-while loop. -/
def loopState (cb : Callbacks) (eng : ENGINE) (tout : ℚ) (st : StepState) (j : Nat) :
    StepState :=
  (fun x => (solveOnce cb eng tout x).state)^[j] st

/-- The buffers, the engine memory and the current time of a step state: what `IDASolve`
works on. -/
def StepState.solveState (st : StepState) : SolveState :=
  { data := st.sim.data, mem := st.ida.ida_mem, tret := st.solverInfo.currentTime }

/-- Lines 468-470: what a pass of the loop that starts with the buffers `x.data`, the engine
memory `x.mem` and the current time `x.tret` hands to `IDASolve`: the buffers as
`externalInputUpdate` and then `input_function` leave them, the memory and the time. -/
def passInput (cb : Callbacks) (x : SolveState) : SolveState :=
  { x with data := (cb.input_function (cb.externalInputUpdate x.data).state).state }

/-- What the engine reports in that pass: the outcome of `IDASolve` for the target `tout`, a
flag together with the buffers, the memory and the time `tret` it leaves. -/
def engineReport (cb : Callbacks) (eng : ENGINE) (tout : ℚ) (x : SolveState) :
    Outcome SolveState Int :=
  eng.IDASolve tout (passInput cb x)

/-- Line 474: the time of the current buffer is set to the time that `IDASolve` returned. -/
def afterReport (e : SolveState) : SolveState :=
  { e with data := e.data.setTime e.tret }

/-- The buffers, the engine memory and the current time after `j` passes that start from `x`,
each pass leaving what the engine reported in it. -/
def engineState (cb : Callbacks) (eng : ENGINE) (tout : ℚ) (x : SolveState) (j : Nat) :
    SolveState :=
  (fun y => afterReport (engineReport cb eng tout y).state)^[j] x

/-- A callback leaves the states `i < n` of the current buffer as they are, whether it
returns or faults. -/
def KeepsStates (n : Nat) (f : DATA → Outcome DATA Unit) : Prop :=
  ∀ d i, i < n → (f d).state.localData0.realVars i = d.localData0.realVars i

/-- The callbacks compute the right-hand side `f` at time `tt`: called in the try block of the
residual adapter they do not fault, leave the states alone and write `f(realVars)[i]` to the
derivative slot `i`; and `f` looks at the states `i < nStates` only. -/
def ComputesRHS (m : MODEL) (cb : Callbacks) (tt : ℚ) (f : Vec → Vec) : Prop :=
  (∀ y y' : Vec, (∀ i, i < m.nStates → y i = y' i) → ∀ l, l < m.nStates → f y l = f y' l) ∧
  ∀ s : Sim, s.data.localData0.timeValue = tt → s.data.currentErrorStage = ERROR_INTEGRATOR →
    (evalODE cb s).isFault = false ∧
    (∀ i, i < m.nStates → (evalODE cb s).state.data.localData0.realVars i =
      s.data.localData0.realVars i) ∧
    (∀ i, i < m.nStates → (evalODE cb s).state.data.localData0.realVars (m.nStates + i) =
      f s.data.localData0.realVars i)

/-- The difference quotient of entry `(l, j)`: the residual row `l` at the state `y0` with
column `j` moved by its increment, minus the base residual `rr`, over the increment. -/
def fdEntry (f : Vec → Vec) (se h : ℚ) (y0 yp rr ew : Vec) (l j : Nat) : ℚ :=
  (f (Function.update y0 j (y0 j + perturbation se h y0 yp ew j)) l - yp l - rr l) *
    (1 / perturbation se h y0 yp ew j)

/-- The sparsity pattern and coloring of the model are those of the right-hand side `f`: the
pattern has a column per state and its colors are `unsigned int` values; every column has a
color in `1..maxColors`; the rows listed are rows of the matrix; the row list of a column has
every row of `f` that depends on the column; two columns of one color share no row. -/
def ValidColoring (m : MODEL) (f : Vec → Vec) : Prop :=
  m.jacA.sizeCols = m.nStates ∧
  m.jacA.sparsePattern.maxColors < 4294967296 ∧
  (∀ j, j < m.nStates → 1 ≤ m.jacA.sparsePattern.colorCols j ∧
    m.jacA.sparsePattern.colorCols j ≤ m.jacA.sparsePattern.maxColors) ∧
  (∀ j, j < m.nStates → ∀ l, l ∈ rowsOf m.jacA.sparsePattern j → l < m.nStates) ∧
  (∀ j, j < m.nStates → ∀ l, l < m.nStates →
    (∃ (y : Vec) (v : ℚ), f (Function.update y j v) l ≠ f y l) →
      l ∈ rowsOf m.jacA.sparsePattern j) ∧
  (∀ j j', j < m.nStates → j' < m.nStates → j ≠ j' →
    m.jacA.sparsePattern.colorCols j = m.jacA.sparsePattern.colorCols j' →
      ∀ l, l ∈ rowsOf m.jacA.sparsePattern j → l ∉ rowsOf m.jacA.sparsePattern j')

/-! ## Concrete inputs -/

/-- A buffer with all variables zero. -/
def zeroBuffer : SIMULATION_DATA := { timeValue := 0, realVars := fun _ => 0 }

/-- A state in the ALGEBRAIC phase at time 0 with states `1, 2` and no error stage. -/
def data0 : DATA :=
  { currentContext := CONTEXT_ALGEBRAIC, currentContextOld := CONTEXT_ALGEBRAIC,
    currentJacobianEval := 0,
    localData0 := { timeValue := 0, realVars := fun i => if i = 0 then 1 else if i = 1 then 2 else 0 },
    localData1 := zeroBuffer, currentErrorStage := ERROR_UNKNOWN, sampleActivated := 0,
    nextSampleEvent := 0 }

/-- The state `data0` with an empty trace. -/
def sim0 : Sim := { data := data0, log := [] }

/-- A pattern-free model with two states and one event indicator. -/
def model2 : MODEL :=
  { nStates := 2, nZeroCrossings := 1, nominal := fun _ => 1, tolerance := 1 / 1000000,
    startTime := 0,
    jacA := { sizeCols := 0, sparsePattern :=
      { leadindex := fun _ => 0, index := fun _ => 0, colorCols := fun _ => 0, maxColors := 0 } } }

/-- The linear decay `der(x[i]) = -x[i]` on two states: `functionODE` writes the derivative
slots `realVars[2 + i]`; the indicator is the first state minus one half. -/
def decay : Callbacks :=
  { externalInputUpdate := fun d => .ok d ()
    input_function := fun d => .ok d ()
    functionODE := fun d => .ok { d with localData0 := { d.localData0 with
      realVars := fun i => if i = 2 then - d.localData0.realVars 0
        else if i = 3 then - d.localData0.realVars 1 else d.localData0.realVars i } } ()
    function_ZeroCrossingsEquations := fun d => .ok d ()
    function_ZeroCrossings := fun d g => .ok d (Function.update g 0 (d.localData0.realVars 0 - 1 / 2))
    initialAnalyticJacobianA := fun d => .ok d 0 }

/-- The decay model with an assertion that fails in `functionODE`. -/
def decayAssert : Callbacks :=
  { decay with functionODE := fun d => .fault d }

/-- The decay model with an assertion that fails in `function_ZeroCrossings`. -/
def decayRootAssert : Callbacks :=
  { decay with function_ZeroCrossings := fun d _ => .fault d }

/-- The decay model whose `functionODE` fails an assertion while the phase field holds
JACOBIAN: the fault leaves `functionODE` with `currentContext = CONTEXT_JACOBIAN`. -/
def decayPhaseAssert : Callbacks :=
  { decay with functionODE := fun d => .fault { d with currentContext := CONTEXT_JACOBIAN } }

/-- The decay model with the sparsity pattern of its Jacobian: column 0 has row 0, column 1
has row 1, and one color holds both columns. -/
def model2c : MODEL :=
  { model2 with jacA := { sizeCols := 2, sparsePattern :=
      { leadindex := fun i => i + 1, index := fun j => j, colorCols := fun _ => 1,
        maxColors := 1 } } }

/-- An engine memory with step size 1 and error weights 1. -/
def mem0 : IDA_MEM :=
  { hh := 1, ewt := fun _ => 1, rtol := 0, avtol := fun _ => 0, denseSize := 2, nrtfn := 0,
    djac := none, t0 := 0 }

/-- A session record with `sqrteps = 1/4` and a cleared workspace. -/
def ida0 : IDA_SOLVER :=
  { setInitialSolution := 0, jacobianMethod := 0, sqrteps := 1 / 4, ysave := fun _ => 0,
    delta_hh := fun _ => 0, errwgt := fun _ => 0, newdelta := fun _ => 0, ida_mem := mem0 }

/-- The start of a Jacobian evaluation at the states `1, 2`, with a zero matrix. -/
def jac0 : JacState := { sim := sim0, ida := ida0, Jac := fun _ _ => 0 }

/-- A table of method names, in the numbering of `JAC_UNKNOWN`. -/
def methodNames : Nat → String
  | 1 => "coloredNumerical"
  | 2 => "numerical"
  | 3 => "coloredSymbolical"
  | 4 => "symbolical"
  | 5 => "internalNumerical"
  | _ => "unknown"

/-- A configuration with the method `name`. -/
def flagsNamed (name : String) : OMC_FLAGS :=
  { flagJacobian := true, flagValueJacobian := name, JACOBIAN_METHOD := methodNames }

/-- A configuration without a method. -/
def flagsNone : OMC_FLAGS :=
  { flagJacobian := false, flagValueJacobian := "", JACOBIAN_METHOD := methodNames }

/-- An engine whose calls at session start all succeed. -/
def engineOk : ENGINE_INIT :=
  { IDACreate := some mem0, IDAInit := 0, IDASetUserData := 0, IDASetErrHandlerFn := 0,
    IDASVtolerances := 0, IDADense := 0, IDARootInit := 0, IDADlsSetDenseJacFn := 0 }

/-- The decay model without a sparsity pattern: `initialAnalyticJacobianA` returns 1. -/
def decayNoPattern : Callbacks :=
  { decay with initialAnalyticJacobianA := fun d => .ok d 1 }

/-- A model with two states, one of nominal value 0, and tolerance `1/1000000`. -/
def modelNominal0 : MODEL :=
  { model2 with nominal := fun i => if i = 0 then 0 else 5 }

/-- The state `data0` with the previous buffer holding the states `1, 2` and the derivatives
`-1, -2`. -/
def data1 : DATA :=
  { data0 with localData1 := { timeValue := 0, realVars := fun i =>
      if i = 0 then 1 else if i = 1 then 2 else if i = 2 then -1 else if i = 3 then -2 else 0 } }

/-- A step request at time 0 with step size `1e-14`, after an ordinary step. -/
def step0 : StepState :=
  { sim := { data := data1, log := [] }, ida := ida0,
    solverInfo :=
      { currentTime := 0, currentStepSize := 1 / 100000000000000,
        didEventStep := 0, solverStatsTmp := fun _ => 0 } }

/-- A step request at time 0 with step size `3/2`. -/
def step1 : StepState :=
  { sim := { data := data1, log := [] }, ida := ida0,
    solverInfo :=
      { currentTime := 0, currentStepSize := 3 / 2,
        didEventStep := 0, solverStatsTmp := fun _ => 0 } }

/-- An engine that advances by 1 in one call and not beyond `tout`, finds no root, and
re-initialises without error. -/
def engineUnit : ENGINE :=
  { IDAReInit := fun mem t _ => (0, { mem with t0 := t })
    IDASolve := fun tout e =>
      if e.tret + 1 < tout then .ok { e with tret := e.tret + 1 } 0
      else .ok { e with tret := tout } 0
    IDAGetNumSteps := fun _ => (0, 1)
    IDAGetNumResEvals := fun _ => (0, 2)
    IDADlsGetNumJacEvals := fun _ => (0, 1)
    IDAGetNumErrTestFails := fun _ => (0, 0)
    IDAGetNumNonlinSolvConvFails := fun _ => (0, 0) }

/-- The engine `engineUnit` with a failing `IDAReInit`. -/
def engineNoReInit : ENGINE :=
  { engineUnit with IDAReInit := fun mem _ _ => (-1, mem) }

/-- An engine that advances by 1 in one call while this stays below `tout`, and otherwise
reports the error flag -4 (`IDA_CONV_FAIL`) a quarter past the time it was given. -/
def engineConvFail : ENGINE :=
  { IDAReInit := fun mem t _ => (0, { mem with t0 := t })
    IDASolve := fun tout e =>
      if e.tret + 1 < tout then .ok { e with tret := e.tret + 1 } 0
      else .ok { e with tret := e.tret + 1 / 4 } (-4)
    IDAGetNumSteps := fun _ => (0, 1)
    IDAGetNumResEvals := fun _ => (0, 2)
    IDADlsGetNumJacEvals := fun _ => (0, 1)
    IDAGetNumErrTestFails := fun _ => (0, 0)
    IDAGetNumNonlinSolvConvFails := fun _ => (0, 0) }

/-- The threshold `DASSL_STEP_EPS` at the value `1e-13`. -/
def stepEps : ℚ := 1 / 10000000000000

/-- The state `data0` in the ODE phase (a nested entry), the recorded phase ALGEBRAIC. -/
def simODE : Sim := { data := { data0 with currentContext := CONTEXT_ODE }, log := [] }

/-- The state `data0` in the EVENTS phase (a nested entry), the recorded phase ALGEBRAIC. -/
def simEVENTS : Sim := { data := { data0 with currentContext := CONTEXT_EVENTS }, log := [] }

/-- The state `data0` in the JACOBIAN phase. -/
def simJAC : Sim := { data := { data0 with currentContext := CONTEXT_JACOBIAN }, log := [] }

/-- The right-hand side of the decay model: `f(y)[i] = -y[i]`. -/
def decayRHS : Vec → Vec := fun y i => - y i

/-- The base residual of the decay model at the states `1, 2` with `yp = 0`. -/
def decayBase : Vec := fun l => if l = 0 then -1 else if l = 1 then -2 else 0

/-! ## General lemmas -/

theorem forLoop_zero {σ : Type} (body : Nat → σ → σ) (s : σ) : forLoop body 0 s = s := rfl

theorem forLoop_succ {σ : Type} (body : Nat → σ → σ) (k : Nat) (s : σ) :
    forLoop body (k + 1) s = body k (forLoop body k s) := rfl

theorem forLoop_update_apply (g : Nat → ℚ) (n : Nat) (r : Vec) (i : Nat) :
    forLoop (fun k v => Function.update v k (g k)) n r i = if i < n then g i else r i := by
  induction n with
  | zero => simp [forLoop]
  | succ k ih =>
    simp only [forLoop]
    by_cases h : i = k
    · subst h; simp
    · rw [Function.update_noteq h, ih]
      have hk : i < k + 1 ↔ i < k := by omega
      simp only [hk]

theorem residualLoop_apply (m : MODEL) (d : DATA) (yp res : Vec) (i : Nat) :
    residualLoop m d yp res i =
      if i < m.nStates then d.localData0.realVars (m.nStates + i) - yp i else res i := by
  unfold residualLoop
  exact forLoop_update_apply (fun i => d.localData0.realVars (m.nStates + i) - yp i) _ _ _

theorem residualFunctionIDA_eq (m : MODEL) (cb : Callbacks) (time : ℚ) (yy yp res : Vec)
    (s : Sim) :
    residualFunctionIDA m cb time yy yp res s =
      match evalODE cb (residualEntry time s) with
      | .ok s1 _ =>
        { sim :=
            let s2 : Sim := { s1 with data :=
              (s1.data.setStage s.data.currentErrorStage).setTime s.data.localData0.timeValue }
            if s2.data.currentContext = CONTEXT_ODE then unsetContext s2 else s2
          res := residualLoop m s1.data yp res
          retVal := 0 }
      | .fault s1 =>
        { sim :=
            let s2 : Sim := { s1 with data :=
              (s1.data.setStage s.data.currentErrorStage).setTime s.data.localData0.timeValue }
            if s2.data.currentContext = CONTEXT_ODE then unsetContext s2 else s2
          res := res
          retVal := -1 } := by
  unfold residualFunctionIDA residualEntry
  by_cases hc : s.data.currentContext = CONTEXT_ALGEBRAIC
  · cases h : evalODE cb _ <;>
      simp_all [Sim.enter, setContext, enterPhase, DATA.setTime, DATA.setStage]
  · cases h : evalODE cb _ <;>
      simp_all [Sim.enter, setContext, enterPhase, DATA.setTime, DATA.setStage]

theorem call_state_data (s : Sim) (fn : Fn) (f : DATA → Outcome DATA Unit) :
    (s.call fn f).state.data = (f s.data).state := by
  unfold Sim.call
  cases f s.data <;> rfl

theorem call_state_log (s : Sim) (fn : Fn) (f : DATA → Outcome DATA Unit) :
    (s.call fn f).state.log = s.log ++
      [⟨fn, s.data.localData0.timeValue, s.data.currentErrorStage, s.data.currentContext⟩] := by
  unfold Sim.call
  cases f s.data <;> rfl

theorem call_ok {s s1 : Sim} {fn : Fn} {f : DATA → Outcome DATA Unit} {u : Unit}
    (h : s.call fn f = .ok s1 u) :
    s1.data = (f s.data).state ∧ s1.log = s.log ++
      [⟨fn, s.data.localData0.timeValue, s.data.currentErrorStage, s.data.currentContext⟩] := by
  have e := call_state_data s fn f
  have l := call_state_log s fn f
  rw [h] at e l
  exact ⟨e, l⟩

theorem call_fault {s s1 : Sim} {fn : Fn} {f : DATA → Outcome DATA Unit}
    (h : s.call fn f = .fault s1) :
    s1.data = (f s.data).state ∧ s1.log = s.log ++
      [⟨fn, s.data.localData0.timeValue, s.data.currentErrorStage, s.data.currentContext⟩] := by
  have e := call_state_data s fn f
  have l := call_state_log s fn f
  rw [h] at e l
  exact ⟨e, l⟩

/-- The try block of the residual adapter leaves the evaluation context as the callbacks do. -/
theorem evalODE_keepsContext (cb : Callbacks) (s : Sim)
    (h1 : KeepsContext cb.externalInputUpdate) (h2 : KeepsContext cb.input_function)
    (h3 : KeepsContext cb.functionODE) :
    (evalODE cb s).state.data.currentContext = s.data.currentContext ∧
      (evalODE cb s).state.data.currentContextOld = s.data.currentContextOld := by
  have k1 := h1 s.data
  unfold evalODE
  cases c1 : s.call .externalInputUpdate cb.externalInputUpdate with
  | fault s1 =>
    have e1 := (call_fault c1).1
    show s1.data.currentContext = _ ∧ s1.data.currentContextOld = _
    rw [e1]; exact k1
  | ok s1 u1 =>
    have e1 := (call_ok c1).1
    have k2 := h2 s1.data
    rw [← e1] at k1
    dsimp only
    cases c2 : s1.call .input_function cb.input_function with
    | fault s2 =>
      have e2 := (call_fault c2).1
      show s2.data.currentContext = _ ∧ s2.data.currentContextOld = _
      rw [← e2] at k2
      exact ⟨k2.1.trans k1.1, k2.2.trans k1.2⟩
    | ok s2 u2 =>
      have e2 := (call_ok c2).1
      have k3 := h3 s2.data
      rw [← e2] at k2
      show (s2.call .functionODE cb.functionODE).state.data.currentContext = _ ∧
        (s2.call .functionODE cb.functionODE).state.data.currentContextOld = _
      rw [call_state_data]
      exact ⟨k3.1.trans (k2.1.trans k1.1), k3.2.trans (k2.2.trans k1.2)⟩

/-- The trace of the try block: the calls made, the first of them `externalInputUpdate` in the
state at the start; when the callbacks keep the time and the error stage, every call finds
them as they were at the start. -/
theorem evalODE_log (cb : Callbacks) (s : Sim) :
    ∃ evs : List Event, (evalODE cb s).state.log = s.log ++
        (⟨.externalInputUpdate, s.data.localData0.timeValue, s.data.currentErrorStage,
          s.data.currentContext⟩ :: evs) ∧
      (∀ e ∈ evs, e.fn.isCallback = true) ∧
      (KeepsClock cb.externalInputUpdate → KeepsClock cb.input_function →
        ∀ e ∈ evs, e.timeValue = s.data.localData0.timeValue ∧
          e.errorStage = s.data.currentErrorStage) := by
  unfold evalODE
  cases c1 : s.call .externalInputUpdate cb.externalInputUpdate with
  | fault s1 =>
    have l1 := (call_fault c1).2
    exact ⟨[], l1, fun e he => by simp at he, fun _ _ e he => by simp at he⟩
  | ok s1 u1 =>
    obtain ⟨e1, l1⟩ := call_ok c1
    dsimp only
    cases c2 : s1.call .input_function cb.input_function with
    | fault s2 =>
      have l2 := (call_fault c2).2
      refine ⟨[⟨.input_function, s1.data.localData0.timeValue, s1.data.currentErrorStage,
        s1.data.currentContext⟩], ?_, ?_, ?_⟩
      · show s2.log = _
        rw [l2, l1]; simp
      · intro e he
        simp only [List.mem_singleton] at he
        subst he; rfl
      · intro k1 _ e he
        simp only [List.mem_singleton] at he
        subst he
        show s1.data.localData0.timeValue = _ ∧ s1.data.currentErrorStage = _
        rw [e1]
        exact k1 s.data
    | ok s2 u2 =>
      obtain ⟨e2, l2⟩ := call_ok c2
      have l3 := call_state_log s2 .functionODE cb.functionODE
      refine ⟨[⟨.input_function, s1.data.localData0.timeValue, s1.data.currentErrorStage,
        s1.data.currentContext⟩, ⟨.functionODE, s2.data.localData0.timeValue,
        s2.data.currentErrorStage, s2.data.currentContext⟩], ?_, ?_, ?_⟩
      · show (s2.call .functionODE cb.functionODE).state.log = _
        rw [l3, l2, l1]; simp
      · intro e he
        simp only [List.mem_cons, List.mem_singleton, List.not_mem_nil, or_false] at he
        rcases he with he | he <;> subst he <;> rfl
      · intro k1 k2 e he
        simp only [List.mem_cons, List.mem_singleton, List.not_mem_nil, or_false] at he
        have a1 := k1 s.data
        have a2 := k2 s1.data
        rw [← e1] at a1
        rw [← e2] at a2
        rcases he with he | he
        · subst he; exact a1
        · subst he
          exact ⟨a2.1.trans a1.1, a2.2.trans a1.2⟩

theorem residualEntry_time (time : ℚ) (s : Sim) :
    (residualEntry time s).data.localData0.timeValue = time ∧
      (residualEntry time s).data.currentErrorStage = ERROR_INTEGRATOR := by
  unfold residualEntry
  simp [DATA.setTime, DATA.setStage]

theorem residualEntry_log (time : ℚ) (s : Sim) :
    ∃ pre : List Event, (residualEntry time s).log = s.log ++
        (⟨.residualFunctionIDA, s.data.localData0.timeValue, s.data.currentErrorStage,
          s.data.currentContext⟩ :: pre) ∧
      ∀ e ∈ pre, e.fn = .setContext CONTEXT_ODE := by
  unfold residualEntry
  by_cases hc : s.data.currentContext = CONTEXT_ALGEBRAIC
  · refine ⟨[⟨.setContext CONTEXT_ODE, s.data.localData0.timeValue,
      s.data.currentErrorStage, s.data.currentContext⟩], ?_, ?_⟩
    · simp [Sim.enter, setContext, hc]
    · intro e he
      simp only [List.mem_singleton] at he
      subst he; rfl
  · exact ⟨[], by simp [Sim.enter, hc], fun e he => by simp at he⟩

theorem residualFunctionIDA_sim (m : MODEL) (cb : Callbacks) (time : ℚ) (yy yp res : Vec)
    (s : Sim) :
    (residualFunctionIDA m cb time yy yp res s).sim =
      (let s1 : Sim := (evalODE cb (residualEntry time s)).state
       let s2 : Sim := { s1 with data :=
          (s1.data.setStage s.data.currentErrorStage).setTime s.data.localData0.timeValue }
       if s2.data.currentContext = CONTEXT_ODE then unsetContext s2 else s2) := by
  rw [residualFunctionIDA_eq]
  cases evalODE cb (residualEntry time s) <;> rfl

theorem residualFunctionIDA_log (m : MODEL) (cb : Callbacks) (time : ℚ) (yy yp res : Vec)
    (s : Sim) :
    ∃ post : List Event, (residualFunctionIDA m cb time yy yp res s).sim.log =
        (evalODE cb (residualEntry time s)).state.log ++ post ∧
      ∀ e ∈ post, e.fn = .unsetContext := by
  rw [residualFunctionIDA_sim]
  dsimp only
  split
  · refine ⟨[⟨.unsetContext, s.data.localData0.timeValue, s.data.currentErrorStage,
      CONTEXT_ODE⟩], ?_, ?_⟩
    · rename_i h
      simp only [DATA.setTime, DATA.setStage] at h
      simp [unsetContext, Sim.enter, DATA.setTime, DATA.setStage, h]
    · intro e he
      simp only [List.mem_singleton] at he
      subst he; rfl
  · exact ⟨[], by simp, fun e he => by simp at he⟩

/-- The trace of one call of `residualFunctionIDA`: its own entry, then calls of other
functions. -/
theorem residualFunctionIDA_trace (m : MODEL) (cb : Callbacks) (time : ℚ) (yy yp res : Vec)
    (s : Sim) :
    ∃ evs : List Event, (residualFunctionIDA m cb time yy yp res s).sim.log = s.log ++
        (⟨.residualFunctionIDA, s.data.localData0.timeValue, s.data.currentErrorStage,
          s.data.currentContext⟩ :: evs) ∧
      ∀ e ∈ evs, e.fn ≠ .residualFunctionIDA := by
  obtain ⟨post, hpost, hpostcb⟩ := residualFunctionIDA_log m cb time yy yp res s
  obtain ⟨evs, hevs, hcb, -⟩ := evalODE_log cb (residualEntry time s)
  obtain ⟨pre, hpre, hprecb⟩ := residualEntry_log time s
  refine ⟨pre ++ (⟨.externalInputUpdate, (residualEntry time s).data.localData0.timeValue,
    (residualEntry time s).data.currentErrorStage,
    (residualEntry time s).data.currentContext⟩ :: evs) ++ post, ?_, ?_⟩
  · rw [hpost, hevs, hpre]; simp
  · intro e he
    simp only [List.mem_append, List.mem_cons] at he
    rcases he with (he | he | he) | he
    · rw [hprecb e he]; simp
    · subst he; simp
    · intro h
      have := hcb e he
      rw [h] at this
      cases this
    · rw [hpostcb e he]; simp

theorem resEvals_append (l1 l2 : List Event) :
    resEvals (l1 ++ l2) = resEvals l1 + resEvals l2 := by
  unfold resEvals
  exact List.countP_append _ _ _

theorem resEvals_other (l : List Event) (h : ∀ e ∈ l, e.fn ≠ .residualFunctionIDA) :
    resEvals l = 0 := by
  unfold resEvals
  rw [List.countP_eq_zero]
  intro e he
  simpa using h e he

/-- One call of `residualFunctionIDA` is one residual evaluation. -/
theorem residualFunctionIDA_resEvals (m : MODEL) (cb : Callbacks) (time : ℚ) (yy yp res : Vec)
    (s : Sim) :
    resEvals (residualFunctionIDA m cb time yy yp res s).sim.log = resEvals s.log + 1 := by
  obtain ⟨evs, hlog, hevs⟩ := residualFunctionIDA_trace m cb time yy yp res s
  rw [hlog, resEvals_append]
  have h1 : resEvals (⟨.residualFunctionIDA, s.data.localData0.timeValue,
      s.data.currentErrorStage, s.data.currentContext⟩ :: evs) = 1 := by
    have := resEvals_other evs hevs
    unfold resEvals at this ⊢
    rw [List.countP_cons, this]
    simp
  rw [h1]

theorem forLoop_preserves {σ : Type} (P : σ → Prop) (body : Nat → σ → σ)
    (h : ∀ i s, P s → P (body i s)) (n : Nat) (s : σ) (hs : P s) : P (forLoop body n s) := by
  induction n with
  | zero => exact hs
  | succ k ih => exact h k _ ih

/-! ## Residual and root adapters: the theorems -/

/-- C1: when no callback faults in the try block, `residualFunctionIDA` returns 0 and writes
`res[i] = realVars[nStates + i] - yp[i]` for every `i < nStates`, where `realVars` is the
current buffer after `externalInputUpdate`, `input_function` and `functionODE` have run; this is
also the buffer of the state returned, and `res` is left as it was from `nStates` on. -/
theorem residualFunctionIDA_residual (m : MODEL) (cb : Callbacks) (time : ℚ) (yy yp res : Vec)
    (s : Sim) (hok : (evalODE cb (residualEntry time s)).isFault = false) :
    (residualFunctionIDA m cb time yy yp res s).retVal = 0 ∧
    (∀ i, i < m.nStates → (residualFunctionIDA m cb time yy yp res s).res i =
      (evalODE cb (residualEntry time s)).state.data.localData0.realVars (m.nStates + i)
        - yp i) ∧
    (residualFunctionIDA m cb time yy yp res s).sim.data.localData0.realVars =
      (evalODE cb (residualEntry time s)).state.data.localData0.realVars ∧
    (∀ i, m.nStates ≤ i → (residualFunctionIDA m cb time yy yp res s).res i = res i) := by
  have hsim := residualFunctionIDA_sim m cb time yy yp res s
  rw [residualFunctionIDA_eq] at hsim ⊢
  cases h : evalODE cb (residualEntry time s) with
  | fault s1 => rw [h] at hok; simp [Outcome.isFault] at hok
  | ok s1 u =>
    rw [h] at hsim
    dsimp only at hsim ⊢
    refine ⟨rfl, ?_, ?_, ?_⟩
    · intro i hi
      rw [residualLoop_apply, if_pos hi]
      rfl
    · split <;> rfl
    · intro i hi
      rw [residualLoop_apply, if_neg (by omega)]

/-- C1, at the decay model with states `1, 2` and candidate derivatives `0, 0`: the call returns
0 and the residual is `-1, -2`. -/
theorem residualFunctionIDA_residual_witness :
    (evalODE decay (residualEntry 0 sim0)).isFault = false ∧
    (residualFunctionIDA model2 decay 0 (fun _ => 0) (fun _ => 0) (fun _ => 0) sim0).retVal = 0 ∧
    (residualFunctionIDA model2 decay 0 (fun _ => 0) (fun _ => 0) (fun _ => 0) sim0).res 0 = -1 ∧
    (residualFunctionIDA model2 decay 0 (fun _ => 0) (fun _ => 0) (fun _ => 0) sim0).res 1 = -2 := by
  have h := residualFunctionIDA_residual model2 decay 0 (fun _ => 0) (fun _ => 0) (fun _ => 0)
    sim0 rfl
  refine ⟨rfl, h.1, ?_, ?_⟩
  · rw [h.2.1 0 (by decide)]
    simp [evalODE, residualEntry, Sim.call, Sim.enter, decay, sim0, data0, setContext,
      enterPhase, DATA.setTime, DATA.setStage, Outcome.state, model2]
  · rw [h.2.1 1 (by decide)]
    simp [evalODE, residualEntry, Sim.call, Sim.enter, decay, sim0, data0, setContext,
      enterPhase, DATA.setTime, DATA.setStage, Outcome.state, model2]

/-- C2, amended: a fault of `externalInputUpdate`, `input_function` or `functionODE` in the try
block makes `residualFunctionIDA` return -1 (the fault is caught: the call returns) and write
nothing to `res`, whatever the callbacks do to the evaluation context. The phase afterwards is
decided by the exit guard `currentContext == CONTEXT_ODE`: it is the recorded phase when the
fault left the phase ODE, and the phase the fault left otherwise. Entered in the ALGEBRAIC
phase, with callbacks that leave the evaluation context as they found it, the phase afterwards
is ALGEBRAIC. -/
theorem residualFunctionIDA_fault_contained (m : MODEL) (cb : Callbacks) (time : ℚ)
    (yy yp res : Vec) (s : Sim)
    (hfault : (evalODE cb (residualEntry time s)).isFault = true) :
    (residualFunctionIDA m cb time yy yp res s).retVal = -1 ∧
    (residualFunctionIDA m cb time yy yp res s).res = res ∧
    (residualFunctionIDA m cb time yy yp res s).sim.data.currentContext =
      (if (evalODE cb (residualEntry time s)).state.data.currentContext = CONTEXT_ODE
        then (evalODE cb (residualEntry time s)).state.data.currentContextOld
        else (evalODE cb (residualEntry time s)).state.data.currentContext) ∧
    (s.data.currentContext = CONTEXT_ALGEBRAIC → KeepsContext cb.externalInputUpdate →
      KeepsContext cb.input_function → KeepsContext cb.functionODE →
      (residualFunctionIDA m cb time yy yp res s).sim.data.currentContext =
        CONTEXT_ALGEBRAIC) := by
  have hsim := residualFunctionIDA_sim m cb time yy yp res s
  have hphase : (residualFunctionIDA m cb time yy yp res s).sim.data.currentContext =
      (if (evalODE cb (residualEntry time s)).state.data.currentContext = CONTEXT_ODE
        then (evalODE cb (residualEntry time s)).state.data.currentContextOld
        else (evalODE cb (residualEntry time s)).state.data.currentContext) := by
    rw [hsim]
    dsimp only
    by_cases hc : (evalODE cb (residualEntry time s)).state.data.currentContext = CONTEXT_ODE
    · simp [DATA.setTime, DATA.setStage, hc, unsetContext, Sim.enter]
    · simp [DATA.setTime, DATA.setStage, hc]
  refine ⟨?_, ?_, hphase, ?_⟩
  · rw [residualFunctionIDA_eq]
    cases h : evalODE cb (residualEntry time s) with
    | ok s1 u => rw [h] at hfault; simp [Outcome.isFault] at hfault
    | fault s1 => rfl
  · rw [residualFunctionIDA_eq]
    cases h : evalODE cb (residualEntry time s) with
    | ok s1 u => rw [h] at hfault; simp [Outcome.isFault] at hfault
    | fault s1 => rfl
  · intro halg h1 h2 h3
    have hk := evalODE_keepsContext cb (residualEntry time s) h1 h2 h3
    have hc : (residualEntry time s).data.currentContext = CONTEXT_ODE ∧
        (residualEntry time s).data.currentContextOld = CONTEXT_ALGEBRAIC := by
      simp [residualEntry, Sim.enter, setContext, enterPhase, halg, DATA.setTime,
        DATA.setStage]
    rw [hc.1, hc.2] at hk
    rw [hphase, hk.1, hk.2]
    simp

/-- C2, at the decay model whose `functionODE` fails an assertion and leaves the evaluation
context alone: entered in ALGEBRAIC, the call returns -1 and the phase is ALGEBRAIC. -/
theorem residualFunctionIDA_fault_contained_witness :
    sim0.data.currentContext = CONTEXT_ALGEBRAIC ∧
    (evalODE decayAssert (residualEntry 0 sim0)).isFault = true ∧
    (residualFunctionIDA model2 decayAssert 0 (fun _ => 0) (fun _ => 0) (fun _ => 0)
      sim0).retVal = -1 ∧
    (residualFunctionIDA model2 decayAssert 0 (fun _ => 0) (fun _ => 0) (fun _ => 0)
      sim0).sim.data.currentContext = CONTEXT_ALGEBRAIC :=
  have h := residualFunctionIDA_fault_contained model2 decayAssert 0 (fun _ => 0) (fun _ => 0)
    (fun _ => 0) sim0 rfl
  ⟨rfl, rfl, h.1, h.2.2.2 rfl (fun _ => ⟨rfl, rfl⟩) (fun _ => ⟨rfl, rfl⟩)
    (fun _ => ⟨rfl, rfl⟩)⟩

/-- C2 as stated fails: entered in the ALGEBRAIC phase, a `functionODE` that faults while the
phase field holds JACOBIAN is caught and the adapter returns -1, but the exit guard finds a phase
other than ODE, `unsetContext` is skipped and the phase afterwards is JACOBIAN, not
ALGEBRAIC. -/
theorem residualFunctionIDA_fault_contained_counterexample :
    sim0.data.currentContext = CONTEXT_ALGEBRAIC ∧
    (evalODE decayPhaseAssert (residualEntry 0 sim0)).isFault = true ∧
    (residualFunctionIDA model2 decayPhaseAssert 0 (fun _ => 0) (fun _ => 0) (fun _ => 0)
      sim0).retVal = -1 ∧
    (residualFunctionIDA model2 decayPhaseAssert 0 (fun _ => 0) (fun _ => 0) (fun _ => 0)
      sim0).sim.data.currentContext = CONTEXT_JACOBIAN ∧
    (residualFunctionIDA model2 decayPhaseAssert 0 (fun _ => 0) (fun _ => 0) (fun _ => 0)
      sim0).sim.data.currentContext ≠ CONTEXT_ALGEBRAIC := by
  refine ⟨rfl, rfl, rfl, rfl, ?_⟩
  intro h
  have h2 : (residualFunctionIDA model2 decayPhaseAssert 0 (fun _ => 0) (fun _ => 0)
      (fun _ => 0) sim0).sim.data.currentContext = CONTEXT_JACOBIAN := rfl
  rw [h2] at h
  cases h

/-- C3: on every path (normal return and caught fault alike) `residualFunctionIDA` returns with
`localData[0]->timeValue` and `currentErrorStage` as they were at entry. Among the calls it
makes, `externalInputUpdate` finds the time equal to the argument `time` and the error stage
INTEGRATOR; when `externalInputUpdate` and `input_function` leave the time and the error stage
alone, so does every callback of the call. -/
theorem residualFunctionIDA_restores (m : MODEL) (cb : Callbacks) (time : ℚ) (yy yp res : Vec)
    (s : Sim) :
    (residualFunctionIDA m cb time yy yp res s).sim.data.localData0.timeValue =
      s.data.localData0.timeValue ∧
    (residualFunctionIDA m cb time yy yp res s).sim.data.currentErrorStage =
      s.data.currentErrorStage ∧
    (∃ c, ⟨.externalInputUpdate, time, ERROR_INTEGRATOR, c⟩ ∈
      (residualFunctionIDA m cb time yy yp res s).sim.log.drop s.log.length) ∧
    (KeepsClock cb.externalInputUpdate → KeepsClock cb.input_function →
      ∀ e ∈ (residualFunctionIDA m cb time yy yp res s).sim.log.drop s.log.length,
        e.fn.isCallback = true → e.timeValue = time ∧ e.errorStage = ERROR_INTEGRATOR) := by
  obtain ⟨post, hpost, hpostcb⟩ := residualFunctionIDA_log m cb time yy yp res s
  obtain ⟨evs, hevs, -, hclock⟩ := evalODE_log cb (residualEntry time s)
  obtain ⟨pre, hpre, hprecb⟩ := residualEntry_log time s
  obtain ⟨ht, hst⟩ := residualEntry_time time s
  rw [ht, hst] at hevs hclock
  have hlog : (residualFunctionIDA m cb time yy yp res s).sim.log.drop s.log.length =
      (⟨.residualFunctionIDA, s.data.localData0.timeValue, s.data.currentErrorStage,
          s.data.currentContext⟩ :: pre) ++ (⟨.externalInputUpdate, time, ERROR_INTEGRATOR,
        (residualEntry time s).data.currentContext⟩ :: evs) ++ post := by
    rw [hpost, hevs, hpre, List.append_assoc, List.append_assoc, List.drop_left]
    simp
  rw [hlog]
  refine ⟨?_, ?_, ⟨(residualEntry time s).data.currentContext, by simp⟩, ?_⟩
  · rw [residualFunctionIDA_sim]
    dsimp only
    split <;> rfl
  · rw [residualFunctionIDA_sim]
    dsimp only
    split <;> rfl
  · intro k1 k2 e he hcb
    simp only [List.mem_append, List.mem_cons] at he
    rcases he with ((he | he) | he | he) | he
    · subst he; cases hcb
    · rw [hprecb e he] at hcb; cases hcb
    · subst he; exact ⟨rfl, rfl⟩
    · exact hclock k1 k2 e he
    · rw [hpostcb e he] at hcb; cases hcb

/-- C3, at the decay model: entered at time 0 with no error stage and called for time 1, all
three callbacks find time 1 and stage INTEGRATOR, and the call returns at time 0 with no error
stage. -/
theorem residualFunctionIDA_restores_witness :
    KeepsClock decay.externalInputUpdate ∧ KeepsClock decay.input_function ∧
    (residualFunctionIDA model2 decay 1 (fun _ => 0) (fun _ => 0) (fun _ => 0)
      sim0).sim.data.localData0.timeValue = 0 ∧
    (residualFunctionIDA model2 decay 1 (fun _ => 0) (fun _ => 0) (fun _ => 0)
      sim0).sim.data.currentErrorStage = ERROR_UNKNOWN ∧
    (∀ e ∈ (residualFunctionIDA model2 decay 1 (fun _ => 0) (fun _ => 0) (fun _ => 0)
        sim0).sim.log.drop sim0.log.length,
      e.fn.isCallback = true → e.timeValue = 1 ∧ e.errorStage = ERROR_INTEGRATOR) ∧
    ((residualFunctionIDA model2 decay 1 (fun _ => 0) (fun _ => 0) (fun _ => 0)
      sim0).sim.log.map (fun e => e.fn)) = [.residualFunctionIDA, .setContext CONTEXT_ODE,
        .externalInputUpdate, .input_function, .functionODE, .unsetContext] :=
  have h := residualFunctionIDA_restores model2 decay 1 (fun _ => 0) (fun _ => 0) (fun _ => 0)
    sim0
  ⟨fun _ => ⟨rfl, rfl⟩, fun _ => ⟨rfl, rfl⟩, h.1, h.2.1,
    h.2.2.2 (fun _ => ⟨rfl, rfl⟩) (fun _ => ⟨rfl, rfl⟩), rfl⟩

/-- C4: in the decay model whose `function_ZeroCrossings` fails an assertion, entered in the
ALGEBRAIC phase at time 0 with no error stage and called for time 1, `rootsFunctionIDA` is left
by the fault, and the state then has time 1, error stage EVENTSEARCH and phase EVENTS: none of
the three is restored, and `unsetContext` is not called. -/
theorem rootsFunctionIDA_fault_escapes :
    (rootsFunctionIDA model2 decayRootAssert 1 (fun _ => 0) (fun _ => 0) (fun _ => 0)
      sim0).isFault = true ∧
    (rootsFunctionIDA model2 decayRootAssert 1 (fun _ => 0) (fun _ => 0) (fun _ => 0)
      sim0).state.data.localData0.timeValue = 1 ∧
    sim0.data.localData0.timeValue = 0 ∧
    (rootsFunctionIDA model2 decayRootAssert 1 (fun _ => 0) (fun _ => 0) (fun _ => 0)
      sim0).state.data.currentErrorStage = ERROR_EVENTSEARCH ∧
    sim0.data.currentErrorStage = ERROR_UNKNOWN ∧
    (rootsFunctionIDA model2 decayRootAssert 1 (fun _ => 0) (fun _ => 0) (fun _ => 0)
      sim0).state.data.currentContext = CONTEXT_EVENTS ∧
    sim0.data.currentContext = CONTEXT_ALGEBRAIC ∧
    ((rootsFunctionIDA model2 decayRootAssert 1 (fun _ => 0) (fun _ => 0) (fun _ => 0)
      sim0).state.log.map (fun e => e.fn)) = [.rootsFunctionIDA, .setContext CONTEXT_EVENTS,
        .externalInputUpdate, .input_function, .function_ZeroCrossingsEquations,
        .function_ZeroCrossings] :=
  ⟨rfl, rfl, rfl, rfl, rfl, rfl, rfl, rfl⟩

/-! ## Jacobian assembly: the trace -/

theorem perturbColumn_log (currentStep : ℚ) (yprime : Vec) (ii : Nat) (w : JacState) :
    (perturbColumn currentStep yprime ii w).sim.log = w.sim.log := rfl

theorem fillColumn_log (sp : SPARSE_PATTERN) (delta : Vec) (ii : Nat) (w : JacState) :
    (fillColumn sp delta ii w).sim.log = w.sim.log := rfl

theorem evalPerturbed_resEvals (m : MODEL) (cb : Callbacks) (tt : ℚ) (yp : Vec)
    (w : JacState) :
    resEvals (evalPerturbed m cb tt yp w).sim.log = resEvals w.sim.log + 1 := by
  have h := residualFunctionIDA_resEvals m cb tt w.sim.data.localData0.realVars yp
    w.ida.newdelta w.sim
  show resEvals ((residualFunctionIDA m cb tt w.sim.data.localData0.realVars yp
    w.ida.newdelta w.sim).sim.log ++ [_]) = _
  rw [resEvals_append, h, resEvals_other [_] (by simp)]

theorem forLoop_cond_log (c : Nat → Bool) (step : Nat → JacState → JacState)
    (hstep : ∀ k v, (step k v).sim.log = v.sim.log) (n : Nat) (w : JacState) :
    (forLoop (fun ii w => if c ii then step ii w else w) n w).sim.log = w.sim.log := by
  induction n with
  | zero => rfl
  | succ k ih =>
    rw [forLoop_succ]
    split
    · rw [hstep, ih]
    · exact ih

theorem colorStep_resEvals (m : MODEL) (cb : Callbacks) (tt currentStep : ℚ) (yp rr : Vec)
    (i : Nat) (w : JacState) :
    resEvals (colorStep m cb tt currentStep yp rr i w).sim.log = resEvals w.sim.log + 1 := by
  unfold colorStep
  rw [forLoop_cond_log _ _ (fun k v => fillColumn_log _ _ k v), evalPerturbed_resEvals,
    forLoop_cond_log _ _ (fun k v => perturbColumn_log _ _ k v)]

theorem forLoop_colorStep_resEvals (m : MODEL) (cb : Callbacks) (tt currentStep : ℚ)
    (yp rr : Vec) (n : Nat) (w : JacState) :
    resEvals (forLoop (colorStep m cb tt currentStep yp rr) n w).sim.log
      = resEvals w.sim.log + n := by
  induction n with
  | zero => rfl
  | succ k ih =>
    rw [forLoop_succ, colorStep_resEvals, ih]
    omega

theorem setContext_resEvals (s : Sim) (p : Context) :
    resEvals (setContext s p).log = resEvals s.log := by
  unfold setContext Sim.enter
  dsimp only
  rw [resEvals_append, resEvals_other [_] (by simp)]
  rfl

theorem unsetContext_resEvals (s : Sim) :
    resEvals (unsetContext s).log = resEvals s.log := by
  unfold unsetContext Sim.enter
  dsimp only
  rw [resEvals_append, resEvals_other [_] (by simp)]
  rfl

theorem jacOwnNumColoredIDA_resEvals (m : MODEL) (cb : Callbacks) (tt : ℚ) (yp rr : Vec)
    (w : JacState) :
    resEvals (jacOwnNumColoredIDA m cb tt yp rr w).1.sim.log =
      resEvals w.sim.log + m.jacA.sparsePattern.maxColors := by
  unfold jacOwnNumColoredIDA
  dsimp only
  rw [unsetContext_resEvals, forLoop_colorStep_resEvals]
  show resEvals (setContext w.sim CONTEXT_JACOBIAN).log + _ = _
  rw [setContext_resEvals]

theorem subtractCj_apply (Neq : Int) (cj : ℚ) (Jac : DlsMat) (i j : Nat) :
    subtractCj Neq cj Jac i j = if i = j ∧ (i : Int) < Neq then Jac i j - cj else Jac i j := by
  unfold subtractCj
  have key : ∀ k : Nat, forLoop (fun i J => DlsMat.set J i i (J i i - cj)) k Jac i j =
      if i = j ∧ i < k then Jac i j - cj else Jac i j := by
    intro k
    induction k with
    | zero => simp [forLoop]
    | succ k ih =>
      have ihk : forLoop (fun i J => DlsMat.set J i i (J i i - cj)) k Jac k k = Jac k k := by
        clear ih
        have : ∀ n, n ≤ k → forLoop (fun i J => DlsMat.set J i i (J i i - cj)) n Jac k k
            = Jac k k := by
          intro n hn
          induction n with
          | zero => rfl
          | succ n ihn =>
            simp only [forLoop, DlsMat.set]
            rw [if_neg (by omega), ihn (by omega)]
        exact this k le_rfl
      simp only [forLoop, DlsMat.set]
      by_cases h : i = k ∧ j = k
      · obtain ⟨rfl, rfl⟩ := h
        rw [if_pos ⟨rfl, rfl⟩, if_pos ⟨rfl, by omega⟩, ihk]
      · rw [if_neg h, ih]
        by_cases h2 : i = j ∧ i < k
        · rw [if_pos h2, if_pos ⟨h2.1, by omega⟩]
        · rw [if_neg h2, if_neg]
          rintro ⟨h3, h4⟩
          apply h2
          refine ⟨h3, ?_⟩
          by_contra h5
          apply h
          constructor <;> omega
  rw [key]
  have hiff : i < Neq.toNat ↔ (i : Int) < Neq := by omega
  simp only [hiff]

/-- C5 (as the code has it): one call of `jacOwnNumColoredIDA`, and so of
`jacobianOwnNumColoredIDA`, makes exactly `maxColors` residual evaluations, for every pattern,
state count, callbacks and state; the base residual `rr` is an argument and is not evaluated
by the assembly. -/
theorem jacobianOwnNumColoredIDA_resEvals (m : MODEL) (cb : Callbacks) (Neq : Int)
    (tt cj : ℚ) (yp rr : Vec) (w : JacState) :
    resEvals (jacOwnNumColoredIDA m cb tt yp rr w).1.sim.log =
      resEvals w.sim.log + m.jacA.sparsePattern.maxColors ∧
    resEvals (jacobianOwnNumColoredIDA m cb Neq tt cj yp rr w).state.sim.log =
      resEvals w.sim.log + m.jacA.sparsePattern.maxColors :=
  ⟨jacOwnNumColoredIDA_resEvals m cb tt yp rr w, jacOwnNumColoredIDA_resEvals m cb tt yp rr w⟩

/-- C5 as stated fails: for the decay model, whose pattern has two columns in one color, the
colored assembly makes one residual evaluation, not `maxColors + 1 = 2`. -/
theorem jacobianOwnNumColoredIDA_resEvals_counterexample :
    1 ≤ model2c.jacA.sizeCols ∧ resEvals jac0.sim.log = 0 ∧
    resEvals (jacobianOwnNumColoredIDA model2c decay 2 0 0 (fun _ => 0) (fun _ => 0)
      jac0).state.sim.log = 1 ∧
    resEvals (jacobianOwnNumColoredIDA model2c decay 2 0 0 (fun _ => 0) (fun _ => 0)
      jac0).state.sim.log ≠ model2c.jacA.sparsePattern.maxColors + 1 := by
  have h : resEvals (jacobianOwnNumColoredIDA model2c decay 2 0 0 (fun _ => 0) (fun _ => 0)
      jac0).state.sim.log = 1 :=
    jacOwnNumColoredIDA_resEvals model2c decay 0 (fun _ => 0) (fun _ => 0) jac0
  refine ⟨by decide, rfl, h, ?_⟩
  rw [h]
  decide

/-- C7: both `jacobianOwnNumColoredIDA` and `jacobianOwnNumIDA` return 0 with the matrix of the
raw pass (`jacOwnNumColoredIDA`, `jacOwnNumIDA`) in which `cj` is subtracted once from each
diagonal entry `(i, i)` with `i < Neq`, every other entry being that of the raw pass; nothing
else of the state differs from the raw pass. -/
theorem jacobianOwn_subtracts_cj (m : MODEL) (cb : Callbacks) (Neq : Int) (tt cj : ℚ)
    (yp rr : Vec) (w : JacState) :
    (∃ w1, jacobianOwnNumColoredIDA m cb Neq tt cj yp rr w = .ok w1 0 ∧
      w1.sim = (jacOwnNumColoredIDA m cb tt yp rr w).1.sim ∧
      w1.ida = (jacOwnNumColoredIDA m cb tt yp rr w).1.ida ∧
      ∀ i j, w1.Jac i j =
        if i = j ∧ (i : Int) < Neq then (jacOwnNumColoredIDA m cb tt yp rr w).1.Jac i j - cj
        else (jacOwnNumColoredIDA m cb tt yp rr w).1.Jac i j) ∧
    (∃ w2, jacobianOwnNumIDA m cb Neq tt cj yp rr w = .ok w2 0 ∧
      w2.sim = (jacOwnNumIDA m cb tt yp rr w).1.sim ∧
      w2.ida = (jacOwnNumIDA m cb tt yp rr w).1.ida ∧
      ∀ i j, w2.Jac i j =
        if i = j ∧ (i : Int) < Neq then (jacOwnNumIDA m cb tt yp rr w).1.Jac i j - cj
        else (jacOwnNumIDA m cb tt yp rr w).1.Jac i j) :=
  ⟨⟨_, rfl, rfl, rfl, fun i j => subtractCj_apply Neq cj _ i j⟩,
   ⟨_, rfl, rfl, rfl, fun i j => subtractCj_apply Neq cj _ i j⟩⟩

/-! ## Session start: the theorems -/

/-- What a successful engine set-up leaves: the simulation state untouched, the method field
untouched, the flag cleared, `sqrteps` set and the tolerances handed to the engine. -/
theorem initEngine_ok {m : MODEL} {eng : ENGINE_INIT} {idaData : IDA_SOLVER} {s : Sim}
    {r : Sim × IDA_SOLVER} (h : initEngine m eng idaData s = .ok r ()) :
    r.1 = s ∧ r.2.jacobianMethod = idaData.jacobianMethod ∧ r.2.setInitialSolution = 0 ∧
    r.2.sqrteps = sqrtDblEpsilon ∧ r.2.ida_mem.avtol = absTolerances m ∧
    r.2.ida_mem.rtol = m.tolerance ∧
    ∃ mem, eng.IDACreate = some mem ∧ r.2.ida_mem.djac = mem.djac := by
  unfold initEngine at h
  cases hc : eng.IDACreate with
  | none => rw [hc] at h; cases h
  | some mem =>
    rw [hc] at h
    dsimp only at h
    split_ifs at h
    cases h
    exact ⟨rfl, rfl, rfl, rfl, rfl, rfl, mem, rfl, rfl⟩

/-- C8: with the unsupported name `bogus` configured and all engine calls succeeding,
`ida_solver_initial` throws when the method field of the record it is given holds
`JAC_UNKNOWN`, but completes with return value 0 when the field holds `NUMJAC`: the lookup
loop assigns nothing, the field is never set to `JAC_UNKNOWN` before it, and the dense numeric
method is selected with `jacobianOwnNumIDA` registered. -/
theorem ida_solver_initial_unrecognized_name :
    (∀ i, 1 ≤ i → i < JAC_MAX → "bogus" ≠ methodNames i) ∧
    (ida_solver_initial model2 decay (flagsNamed "bogus") engineOk
      { ida0 with jacobianMethod := JAC_UNKNOWN } sim0).isFault = true ∧
    (ida_solver_initial model2 decay (flagsNamed "bogus") engineOk
      { ida0 with jacobianMethod := NUMJAC } sim0).isFault = false ∧
    (ida_solver_initial model2 decay (flagsNamed "bogus") engineOk
      { ida0 with jacobianMethod := NUMJAC } sim0).state.2.jacobianMethod = NUMJAC ∧
    (ida_solver_initial model2 decay (flagsNamed "bogus") engineOk
      { ida0 with jacobianMethod := NUMJAC } sim0).state.2.ida_mem.djac =
        some .jacobianOwnNumIDA := by
  refine ⟨?_, by decide, by decide, by decide, by decide⟩
  intro i h1 h2
  unfold JAC_MAX at h2
  interval_cases i <;> decide

/-- C9 (as the code has it): when the engine set-up succeeds, the method is the colored
numeric one (no method configured, or the configured name found at `COLOREDNUMJAC`) and
`initialAnalyticJacobianA` returns nonzero, `ida_solver_initial` completes with return value 0
and the method `INTERNALNUMJAC`; no Jacobian function is registered: the engine memory has
the entry that `IDACreate` gave it. -/
theorem ida_solver_initial_no_pattern (m : MODEL) (cb : Callbacks) (fl : OMC_FLAGS)
    (eng : ENGINE_INIT) (idaData : IDA_SOLVER) (s : Sim) (d : DATA) (ret : Int)
    (hsel : fl.flagJacobian = false ∨
      lookupJacobianMethod fl idaData.jacobianMethod = COLOREDNUMJAC)
    (hacq : cb.initialAnalyticJacobianA s.data = .ok d ret) (hret : ret ≠ 0)
    (hok : (initEngine m eng idaData s).isFault = false) :
    ∃ r, ida_solver_initial m cb fl eng idaData s = .ok r 0 ∧
      r.2.jacobianMethod = INTERNALNUMJAC ∧ r.1.data = d ∧
      ∃ mem, eng.IDACreate = some mem ∧ r.2.ida_mem.djac = mem.djac := by
  cases h0 : initEngine m eng idaData s with
  | fault r0 => rw [h0] at hok; cases hok
  | ok r0 u =>
    obtain ⟨r0s, r0i⟩ := r0
    obtain ⟨e1, e2, -, -, -, -, mem, hmem, hdjac⟩ := initEngine_ok h0
    dsimp only at e1 e2 hdjac
    subst e1
    have hcfg : ∃ i1 : IDA_SOLVER, configuredJacobian fl r0i r0s = .ok (r0s, i1) () ∧
        i1.jacobianMethod = COLOREDNUMJAC ∧ i1.ida_mem = r0i.ida_mem := by
      unfold configuredJacobian
      by_cases hf : fl.flagJacobian = true
      · have hl : lookupJacobianMethod fl r0i.jacobianMethod = COLOREDNUMJAC := by
          rcases hsel with h | h
          · rw [hf] at h; cases h
          · rw [e2]; exact h
        rw [if_pos hf]
        dsimp only
        rw [hl, if_neg (by decide)]
        exact ⟨_, rfl, rfl, rfl⟩
      · rw [if_neg hf]
        exact ⟨_, rfl, rfl, rfl⟩
    obtain ⟨i1, hc1, hm1, hmem1⟩ := hcfg
    have hacq2 : acquirePattern cb i1 r0s = .ok
        ({ data := d, log := (r0s.enter .initialAnalyticJacobianA).log },
          { i1 with jacobianMethod := INTERNALNUMJAC }) () := by
      unfold acquirePattern
      rw [if_pos (Or.inl hm1), hacq]
      dsimp only
      rw [if_pos hret]
    have hreg : registerJacobian eng { i1 with jacobianMethod := INTERNALNUMJAC }
        { data := d, log := (r0s.enter .initialAnalyticJacobianA).log } = .ok
        ({ data := d, log := (r0s.enter .initialAnalyticJacobianA).log },
          { i1 with jacobianMethod := INTERNALNUMJAC }) () := by
      unfold registerJacobian
      dsimp only
      rw [if_neg (by decide), if_neg (by decide), if_neg (by decide), if_pos rfl]
    refine ⟨({ data := d, log := (r0s.enter .initialAnalyticJacobianA).log },
      { i1 with jacobianMethod := INTERNALNUMJAC }), ?_, ?_, ?_, mem, hmem, ?_⟩
    · unfold ida_solver_initial
      rw [h0]
      dsimp only
      rw [hc1]
      dsimp only
      rw [hacq2]
      dsimp only
      rw [hreg]
    · rfl
    · rfl
    · show i1.ida_mem.djac = mem.djac
      rw [hmem1]; exact hdjac

/-- C9, at the decay model without a pattern and no method configured. -/
theorem ida_solver_initial_no_pattern_witness :
    ∃ r, ida_solver_initial model2 decayNoPattern flagsNone engineOk ida0 sim0 = .ok r 0 ∧
      r.2.jacobianMethod = INTERNALNUMJAC ∧ r.1.data = sim0.data ∧
      ∃ mem, engineOk.IDACreate = some mem ∧ r.2.ida_mem.djac = mem.djac :=
  ida_solver_initial_no_pattern model2 decayNoPattern flagsNone engineOk ida0 sim0 sim0.data 1
    (Or.inl rfl) rfl (by decide) rfl

/-- C9 as stated fails: for the decay model without a pattern and no method configured, the
session ends with the method `INTERNALNUMJAC`, which is not `NUMJAC`, and with no Jacobian
function registered, so not with `jacobianOwnNumIDA`. -/
theorem ida_solver_initial_no_pattern_counterexample :
    flagsNone.flagJacobian = false ∧
    (decayNoPattern.initialAnalyticJacobianA sim0.data).isFault = false ∧
    (ida_solver_initial model2 decayNoPattern flagsNone engineOk ida0 sim0).isFault = false ∧
    (ida_solver_initial model2 decayNoPattern flagsNone engineOk ida0
      sim0).state.2.jacobianMethod = INTERNALNUMJAC ∧
    (ida_solver_initial model2 decayNoPattern flagsNone engineOk ida0
      sim0).state.2.jacobianMethod ≠ NUMJAC ∧
    (ida_solver_initial model2 decayNoPattern flagsNone engineOk ida0
      sim0).state.2.ida_mem.djac = none := by
  decide

/-- C10: with the name of the symbolic method (or of the colored symbolic one) configured, the
pattern available (`initialAnalyticJacobianA` returns 0) and all engine calls succeeding,
`ida_solver_initial` completes with return value 0 and the method field still `SYMJAC`
(`COLOREDSYMJAC`); no Jacobian function is registered. Without the pattern the same
configuration ends with `INTERNALNUMJAC`. -/
theorem ida_solver_initial_symbolic_kept :
    (ida_solver_initial model2 decay (flagsNamed "symbolical") engineOk ida0
      sim0).isFault = false ∧
    (ida_solver_initial model2 decay (flagsNamed "symbolical") engineOk ida0
      sim0).state.2.jacobianMethod = SYMJAC ∧
    (ida_solver_initial model2 decay (flagsNamed "coloredSymbolical") engineOk ida0
      sim0).isFault = false ∧
    (ida_solver_initial model2 decay (flagsNamed "coloredSymbolical") engineOk ida0
      sim0).state.2.jacobianMethod = COLOREDSYMJAC ∧
    (ida_solver_initial model2 decay (flagsNamed "symbolical") engineOk ida0
      sim0).state.2.ida_mem.djac = none ∧
    (ida_solver_initial model2 decayNoPattern (flagsNamed "symbolical") engineOk ida0
      sim0).state.2.jacobianMethod = INTERNALNUMJAC := by
  decide

/-- C14: for a strictly positive tolerance and any nominal value, the absolute tolerance of
each state `i < nStates` is `tolerance * max(|nominal[i]|, 1e-32)` and is strictly positive;
it is the vector that a successful engine set-up hands to `IDASVtolerances`, with the
tolerance as the relative one. -/
theorem absTolerances_pos (m : MODEL) (htol : 0 < m.tolerance) (i : Nat)
    (hi : i < m.nStates) :
    absTolerances m i =
      m.tolerance * max |m.nominal i| (1 / 100000000000000000000000000000000) ∧
    0 < absTolerances m i ∧ absTolerances m i ≠ 0 ∧
    ∀ (eng : ENGINE_INIT) (idaData : IDA_SOLVER) (s : Sim) (r : Sim × IDA_SOLVER),
      initEngine m eng idaData s = .ok r () →
        r.2.ida_mem.avtol = absTolerances m ∧ r.2.ida_mem.rtol = m.tolerance := by
  have h1 : absTolerances m i =
      m.tolerance * max |m.nominal i| (1 / 100000000000000000000000000000000) := by
    unfold absTolerances
    rw [forLoop_update_apply (fun i => m.tolerance * max |m.nominal i|
      (1 / 100000000000000000000000000000000)), if_pos hi]
  have h2 : 0 < absTolerances m i := by
    rw [h1]
    apply mul_pos htol
    exact lt_max_of_lt_right (by norm_num)
  refine ⟨h1, h2, ne_of_gt h2, ?_⟩
  intro eng idaData s r h
  have := initEngine_ok h
  exact ⟨this.2.2.2.2.1, this.2.2.2.2.2.1⟩

/-- C14, at a state of nominal value 0 with tolerance `1/1000000`: the absolute tolerance is
`1e-38`. -/
theorem absTolerances_pos_witness :
    0 < modelNominal0.tolerance ∧ modelNominal0.nominal 0 = 0 ∧
    absTolerances modelNominal0 0 = 1 / 100000000000000000000000000000000000000 ∧
    0 < absTolerances modelNominal0 0 := by
  have h := absTolerances_pos modelNominal0 (by norm_num [modelNominal0, model2]) 0
    (by decide)
  refine ⟨by norm_num [modelNominal0, model2], by simp [modelNominal0], ?_, h.2.1⟩
  rw [h.1]
  norm_num [modelNominal0, model2]

/-! ## The step: lemmas -/

theorem stepReInit_frame (eng : ENGINE) (st : StepState) :
    (stepReInit eng st).state.sim.data = st.sim.data ∧
    (stepReInit eng st).state.solverInfo = st.solverInfo := by
  unfold stepReInit
  dsimp only
  split_ifs <;> exact ⟨rfl, rfl⟩

theorem stepReInit_ok {eng : ENGINE} {st st1 : StepState} (h : stepReInit eng st = .ok st1 ()) :
    st1.sim.data = st.sim.data ∧ st1.solverInfo = st.solverInfo := by
  have := stepReInit_frame eng st
  rw [h] at this
  exact this

/-- The trace of the re-initialisation: one call of `IDAReInit` for the current time when the
previous step was an event step or the flag is clear, nothing otherwise. -/
theorem stepReInit_log (eng : ENGINE) (st : StepState) :
    (stepReInit eng st).state.sim.log = st.sim.log ++
      (if st.solverInfo.didEventStep ≠ 0 ∨ st.ida.setInitialSolution = 0
        then [⟨.IDAReInit st.solverInfo.currentTime, st.sim.data.localData0.timeValue,
          st.sim.data.currentErrorStage, st.sim.data.currentContext⟩] else []) := by
  unfold stepReInit
  by_cases h1 : st.solverInfo.didEventStep = 0
  · by_cases h2 : st.ida.setInitialSolution = 0
    · simp only [h1, h2, ne_eq, not_true_eq_false, if_false, or_true, if_true]
      split_ifs <;> rfl
    · simp [h1, h2, Outcome.state]
  · simp only [ne_eq, h1, not_false_eq_true, if_true, true_or]
    split_ifs <;> rfl

theorem solveCalls_append (l1 l2 : List Event) :
    solveCalls (l1 ++ l2) = solveCalls l1 + solveCalls l2 := by
  unfold solveCalls
  exact List.countP_append _ _ _

theorem reInits_append (l1 l2 : List Event) :
    reInits (l1 ++ l2) = reInits l1 + reInits l2 := by
  unfold reInits
  exact List.countP_append _ _ _

theorem odeCalls_append (l1 l2 : List Event) :
    odeCalls (l1 ++ l2) = odeCalls l1 + odeCalls l2 := by
  unfold odeCalls
  exact List.countP_append _ _ _

/-- The trace of the small step: one call of `functionODE`. -/
theorem smallStep_log (m : MODEL) (cb : Callbacks) (st : StepState) :
    ∃ e : Event, e.fn = .functionODE ∧
      (smallStep m cb st).state.sim.log = st.sim.log ++ [e] := by
  unfold smallStep
  dsimp only
  cases h : Sim.call _ .functionODE cb.functionODE with
  | ok s1 u => exact ⟨_, rfl, (call_ok h).2⟩
  | fault s1 => exact ⟨_, rfl, (call_fault h).2⟩

/-- The buffer the small step leaves is the one `functionODE` leaves, called on the
extrapolated states at the new time. -/
theorem smallStep_data (m : MODEL) (cb : Callbacks) (st : StepState) :
    ∃ dx : DATA,
      (∀ i, i < m.nStates → dx.localData0.realVars i = st.sim.data.localData1.realVars i +
        st.sim.data.localData1.realVars (m.nStates + i) * st.solverInfo.currentStepSize) ∧
      dx.localData0.timeValue = st.solverInfo.currentTime + st.solverInfo.currentStepSize ∧
      dx.currentErrorStage = st.sim.data.currentErrorStage ∧
      (smallStep m cb st).state.sim.data = (cb.functionODE dx).state := by
  refine ⟨{ st.sim.data with localData0 :=
    { timeValue := st.solverInfo.currentTime + st.solverInfo.currentStepSize
      realVars := forLoop (fun i v => Function.update v i
        (st.sim.data.localData1.realVars i +
          st.sim.data.localData1.realVars (m.nStates + i) * st.solverInfo.currentStepSize))
        m.nStates st.sim.data.localData0.realVars } }, ?_, rfl, rfl, ?_⟩
  · intro i hi
    dsimp only
    rw [forLoop_update_apply (fun i => st.sim.data.localData1.realVars i +
      st.sim.data.localData1.realVars (m.nStates + i) * st.solverInfo.currentStepSize),
      if_pos hi]
  · unfold smallStep
    dsimp only
    cases h : Sim.call _ .functionODE cb.functionODE with
    | ok s1 u => exact (call_ok h).1
    | fault s1 => exact (call_fault h).1

theorem stepFinish_sim (eng : ENGINE) (e : ErrorStage) (st : StepState) :
    (stepFinish eng e st).sim.log = st.sim.log ∧
    (stepFinish eng e st).sim.data.localData0 = st.sim.data.localData0 ∧
    (stepFinish eng e st).sim.data.currentErrorStage = e := by
  unfold stepFinish
  dsimp only
  split_ifs <;> exact ⟨rfl, rfl, rfl⟩

/-- The small step: what `ida_solver_step` returns when the step size is below the threshold
and the re-initialisation does not fail. -/
theorem smallStep_return (m : MODEL) (cb : Callbacks) (eng : ENGINE) (eps : ℚ)
    (fuel : Nat) (st st1 : StepState) (hsmall : st.solverInfo.currentStepSize < eps)
    (hre : stepReInit eng st = .ok st1 ()) :
    ida_solver_step m cb eng eps fuel st = some (.ok
      (match smallStep m cb (stepEntry st1) with
        | .ok st3 _ => st3
        | .fault st3 => stepFinish eng st1.sim.data.currentErrorStage st3) 0) := by
  have hs : st1.solverInfo.currentStepSize < eps := by
    rw [(stepReInit_ok hre).2]; exact hsmall
  unfold ida_solver_step
  rw [hre]
  dsimp only
  rw [if_pos hs]
  show (match smallStep m cb (stepEntry st1) with
    | Outcome.ok st3 _ => some (Outcome.ok st3 (0 : Int))
    | Outcome.fault st3 =>
      some (Outcome.ok (stepFinish eng st1.sim.data.currentErrorStage st3) 0)) = _
  cases smallStep m cb (stepEntry st1) <;> rfl

/-! ## The step: the small step -/

/-- C11 (as the code has it): when the step size is below `DASSL_STEP_EPS` and the
re-initialisation, if one is due, does not fail, `ida_solver_step` returns 0 for every fuel,
makes no call of `IDASolve` and exactly one call of `functionODE`, on a buffer whose states
`i < nStates` are `old[i] + old[nStates + i] * stepSize` (`old` the previous buffer) and whose
time is `currentTime + stepSize`; the current buffer after the step is the one `functionODE`
leaves, so it has these states and this time when `functionODE` does not write them. -/
theorem ida_solver_step_small (m : MODEL) (cb : Callbacks) (eng : ENGINE) (eps : ℚ)
    (fuel : Nat) (st st1 : StepState) (hsmall : st.solverInfo.currentStepSize < eps)
    (hre : stepReInit eng st = .ok st1 ()) :
    ∃ st', ida_solver_step m cb eng eps fuel st = some (.ok st' 0) ∧
      solveCalls st'.sim.log = solveCalls st.sim.log ∧
      odeCalls st'.sim.log = odeCalls st.sim.log + 1 ∧
      ∃ dx : DATA,
        (∀ i, i < m.nStates → dx.localData0.realVars i = st.sim.data.localData1.realVars i +
          st.sim.data.localData1.realVars (m.nStates + i) * st.solverInfo.currentStepSize) ∧
        dx.localData0.timeValue = st.solverInfo.currentTime + st.solverInfo.currentStepSize ∧
        st'.sim.data.localData0 = (cb.functionODE dx).state.localData0 ∧
        ((∀ d i, i < m.nStates →
            (cb.functionODE d).state.localData0.realVars i = d.localData0.realVars i) →
          ∀ i, i < m.nStates → st'.sim.data.localData0.realVars i =
            st.sim.data.localData1.realVars i +
            st.sim.data.localData1.realVars (m.nStates + i) * st.solverInfo.currentStepSize) ∧
        ((∀ d, (cb.functionODE d).state.localData0.timeValue = d.localData0.timeValue) →
          st'.sim.data.localData0.timeValue =
            st.solverInfo.currentTime + st.solverInfo.currentStepSize) := by
  obtain ⟨hd, hi⟩ := stepReInit_ok hre
  have hl := stepReInit_log eng st
  rw [hre] at hl
  change st1.sim.log = _ at hl
  obtain ⟨e, he, hlog⟩ := smallStep_log m cb (stepEntry st1)
  obtain ⟨dx, hx1, hx2, -, hx4⟩ := smallStep_data m cb (stepEntry st1)
  change (smallStep m cb (stepEntry st1)).state.sim.log = st1.sim.log ++ [e] at hlog
  have hx1' : ∀ i, i < m.nStates → dx.localData0.realVars i =
      st.sim.data.localData1.realVars i +
      st.sim.data.localData1.realVars (m.nStates + i) * st.solverInfo.currentStepSize := by
    intro i h
    rw [hx1 i h]
    show st1.sim.data.localData1.realVars i + st1.sim.data.localData1.realVars (m.nStates + i)
      * st1.solverInfo.currentStepSize = _
    rw [hd, hi]
  have hx2' : dx.localData0.timeValue =
      st.solverInfo.currentTime + st.solverInfo.currentStepSize := by
    rw [hx2]
    show st1.solverInfo.currentTime + st1.solverInfo.currentStepSize = _
    rw [hi]
  have key : ∀ st' : StepState,
      st'.sim.log = (smallStep m cb (stepEntry st1)).state.sim.log →
      st'.sim.data.localData0 = (smallStep m cb (stepEntry st1)).state.sim.data.localData0 →
      solveCalls st'.sim.log = solveCalls st.sim.log ∧
      odeCalls st'.sim.log = odeCalls st.sim.log + 1 ∧
      st'.sim.data.localData0 = (cb.functionODE dx).state.localData0 := by
    intro st' h1 h2
    rw [h1, h2, hlog, hl, hx4]
    refine ⟨?_, ?_, rfl⟩
    · rw [solveCalls_append, solveCalls_append]
      have : solveCalls [e] = 0 := by simp [solveCalls, he]
      rw [this]
      split_ifs <;> simp [solveCalls]
    · rw [odeCalls_append, odeCalls_append]
      have : odeCalls [e] = 1 := by simp [odeCalls, he]
      rw [this]
      split_ifs <;> simp [odeCalls]
  rw [smallStep_return m cb eng eps fuel st st1 hsmall hre]
  refine ⟨_, rfl, ?_⟩
  have hk : solveCalls (match smallStep m cb (stepEntry st1) with
        | .ok st3 _ => st3
        | .fault st3 => stepFinish eng st1.sim.data.currentErrorStage st3).sim.log
        = solveCalls st.sim.log ∧
      odeCalls (match smallStep m cb (stepEntry st1) with
        | .ok st3 _ => st3
        | .fault st3 => stepFinish eng st1.sim.data.currentErrorStage st3).sim.log
        = odeCalls st.sim.log + 1 ∧
      (match smallStep m cb (stepEntry st1) with
        | .ok st3 _ => st3
        | .fault st3 => stepFinish eng st1.sim.data.currentErrorStage st3).sim.data.localData0
        = (cb.functionODE dx).state.localData0 := by
    apply key
    · cases smallStep m cb (stepEntry st1) with
      | ok st3 u => rfl
      | fault st3 => exact (stepFinish_sim eng _ st3).1
    · cases smallStep m cb (stepEntry st1) with
      | ok st3 u => rfl
      | fault st3 => exact (stepFinish_sim eng _ st3).2.1
  refine ⟨hk.1, hk.2.1, dx, hx1', hx2', hk.2.2, ?_, ?_⟩
  · intro hf i h
    rw [hk.2.2, hf dx i h, hx1' i h]
  · intro hf
    rw [hk.2.2, hf dx, hx2']

/-- C11, at the decay model with previous states `1, 2`, derivatives `-1, -2`, time 0 and step
size `1e-14`: no call of `IDASolve`, one of `functionODE`, the first state is
`1 + (-1) * 1e-14`, the time is `0 + 1e-14` and the return value is 0. -/
theorem ida_solver_step_small_witness :
    step0.solverInfo.currentStepSize < stepEps ∧
    (stepReInit engineUnit step0).isFault = false ∧
    ∃ st', ida_solver_step model2 decay engineUnit stepEps 0 step0 = some (.ok st' 0) ∧
      solveCalls st'.sim.log = 0 ∧ odeCalls st'.sim.log = 1 ∧
      st'.sim.data.localData0.realVars 0 = 1 + (-1) * (1 / 100000000000000) ∧
      st'.sim.data.localData0.timeValue = 0 + 1 / 100000000000000 := by
  have hs : step0.solverInfo.currentStepSize < stepEps := by
    norm_num [step0, stepEps]
  obtain ⟨st', h1, h2, h3, dx, -, -, -, h7, h8⟩ :=
    ida_solver_step_small model2 decay engineUnit stepEps 0 step0
      (stepReInit engineUnit step0).state hs rfl
  refine ⟨hs, rfl, st', h1, h2, h3, ?_, ?_⟩
  · refine h7 ?_ 0 (by decide)
    intro d i hi
    have h2 : i ≠ 2 := by
      intro h; rw [h] at hi; exact absurd hi (by decide)
    have h3 : i ≠ 3 := by
      intro h; rw [h] at hi; exact absurd hi (by decide)
    simp [decay, Outcome.state, h2, h3]
  · exact h8 (fun d => rfl)

/-- C11 as stated fails: with a step size below the threshold, a cleared flag and an engine
whose `IDAReInit` fails, `ida_solver_step` ends in the fatal error of line 423: it does not
return 0, and the states are as before. -/
theorem ida_solver_step_small_counterexample :
    step0.solverInfo.currentStepSize < stepEps ∧
    (ida_solver_step model2 decay engineNoReInit stepEps 0 step0).map Outcome.isFault
      = some true ∧
    (ida_solver_step model2 decay engineNoReInit stepEps 0 step0).map
      (fun o => o.state.sim.data.localData0.realVars 0) = some 1 ∧
    step0.sim.data.localData1.realVars 0 +
      step0.sim.data.localData1.realVars 2 * step0.solverInfo.currentStepSize ≠ 1 := by
  refine ⟨by norm_num [step0, stepEps], rfl, rfl, ?_⟩
  norm_num [step0, data1]

/-- C15: at the decay model with step size `1e-14` and no error stage before the call, the
small step returns 0 with the error stage `ERROR_INTEGRATOR`: the `return 0` of line 455 comes
before the assignment of line 508 which writes `saveJumpState` back. -/
theorem smallStep_leaves_integrator_stage :
    step0.solverInfo.currentStepSize < stepEps ∧
    step0.sim.data.currentErrorStage = ERROR_UNKNOWN ∧
    ∃ st', ida_solver_step model2 decay engineUnit stepEps 0 step0 = some (.ok st' 0) ∧
      st'.sim.data.currentErrorStage = ERROR_INTEGRATOR := by
  have hs : step0.solverInfo.currentStepSize < stepEps := by
    norm_num [step0, stepEps]
  refine ⟨hs, rfl, ?_⟩
  rw [smallStep_return model2 decay engineUnit stepEps 0 step0
    (stepReInit engineUnit step0).state hs rfl]
  exact ⟨_, rfl, rfl⟩

/-! ## The loop of the step -/

/-- One pass of the loop: the trace grows by calls that are no `IDAReInit`, the flag
`setInitialSolution` is kept, and a pass that returns has made one call of `IDASolve`. -/
theorem solveOnce_facts (cb : Callbacks) (eng : ENGINE) (tout : ℚ) (st : StepState) :
    (∃ evs, (solveOnce cb eng tout st).state.sim.log = st.sim.log ++ evs ∧ reInits evs = 0 ∧
      ((solveOnce cb eng tout st).isFault = false → solveCalls evs = 1)) ∧
    (solveOnce cb eng tout st).state.ida.setInitialSolution = st.ida.setInitialSolution := by
  unfold solveOnce
  cases c1 : st.sim.call .externalInputUpdate cb.externalInputUpdate with
  | fault s1 =>
    refine ⟨⟨[⟨.externalInputUpdate, st.sim.data.localData0.timeValue,
      st.sim.data.currentErrorStage, st.sim.data.currentContext⟩],
      (call_fault c1).2, by simp [reInits], ?_⟩, rfl⟩
    intro h; cases h
  | ok s1 u1 =>
    have l1 := (call_ok c1).2
    dsimp only
    cases c2 : s1.call .input_function cb.input_function with
    | fault s2 =>
      have l2 := (call_fault c2).2
      refine ⟨⟨[⟨.externalInputUpdate, st.sim.data.localData0.timeValue,
        st.sim.data.currentErrorStage, st.sim.data.currentContext⟩,
        ⟨.input_function, s1.data.localData0.timeValue, s1.data.currentErrorStage,
          s1.data.currentContext⟩], ?_, ?_, ?_⟩, rfl⟩
      · show s2.log = _
        rw [l2, l1]; simp
      · simp [reInits]
      · intro h; cases h
    | ok s2 u2 =>
      have l2 := (call_ok c2).2
      have l3 : (s2.enter (.IDASolve tout)).log = st.sim.log ++
          [⟨.externalInputUpdate, st.sim.data.localData0.timeValue,
            st.sim.data.currentErrorStage, st.sim.data.currentContext⟩,
          ⟨.input_function, s1.data.localData0.timeValue, s1.data.currentErrorStage,
            s1.data.currentContext⟩,
          ⟨.IDASolve tout, s2.data.localData0.timeValue, s2.data.currentErrorStage,
            s2.data.currentContext⟩] := by
        unfold Sim.enter
        dsimp only
        rw [l2, l1]; simp
      dsimp only
      cases eng.IDASolve tout
          { data := s2.data, mem := st.ida.ida_mem, tret := st.solverInfo.currentTime } with
      | fault e =>
        refine ⟨⟨_, l3, by simp [reInits], ?_⟩, rfl⟩
        intro h; cases h
      | ok e flag =>
        refine ⟨⟨_, l3, by simp [reInits], ?_⟩, rfl⟩
        intro _
        simp [solveCalls]

/-- The loop: whatever it returns, the trace has grown by calls that are no `IDAReInit` and
the flag `setInitialSolution` is kept. -/
theorem solveLoop_facts (cb : Callbacks) (eng : ENGINE) (tout : ℚ) (fuel : Nat) :
    ∀ (st : StepState) (o : Outcome StepState Int), solveLoop cb eng tout fuel st = some o →
      (∃ evs, o.state.sim.log = st.sim.log ++ evs ∧ reInits evs = 0) ∧
      o.state.ida.setInitialSolution = st.ida.setInitialSolution := by
  induction fuel with
  | zero => intro st o h; cases h
  | succ f ih =>
    intro st o h
    obtain ⟨⟨evs, hl, hr, -⟩, hflag⟩ := solveOnce_facts cb eng tout st
    unfold solveLoop at h
    cases c : solveOnce cb eng tout st with
    | fault st1 =>
      rw [c] at h hl hflag
      cases h
      exact ⟨⟨evs, hl, hr⟩, hflag⟩
    | ok st1 flag =>
      rw [c] at h hl hflag
      change st1.sim.log = _ at hl
      change st1.ida.setInitialSolution = _ at hflag
      dsimp only at h
      have stop : ∀ v : Int, o = .ok st1 v →
          (∃ evs, o.state.sim.log = st.sim.log ++ evs ∧ reInits evs = 0) ∧
          o.state.ida.setInitialSolution = st.ida.setInitialSolution := by
        intro v hv
        subst hv
        exact ⟨⟨evs, hl, hr⟩, hflag⟩
      split_ifs at h
      · exact stop 0 (Option.some.inj h).symm
      · obtain ⟨⟨evs2, hl2, hr2⟩, hflag2⟩ := ih st1 o h
        refine ⟨⟨evs ++ evs2, ?_, ?_⟩, hflag2.trans hflag⟩
        · rw [hl2, hl, List.append_assoc]
        · rw [reInits_append, hr, hr2]
      · exact stop 0 (Option.some.inj h).symm
      · exact stop flag (Option.some.inj h).symm

/-- The loop that sees `k` times success before the target and then another outcome: with
more fuel than `k` it returns after `k + 1` calls of `IDASolve`, with 0 for success at the
target and for a root, and with the flag otherwise. -/
theorem solveLoop_run (cb : Callbacks) (eng : ENGINE) (tout : ℚ) (k : Nat) :
    ∀ (st : StepState) (fuel : Nat) (flag : Int),
      (∀ j, j < k →
        (solveOnce cb eng tout (loopState cb eng tout st j)).value? = some IDA_SUCCESS ∧
        (solveOnce cb eng tout (loopState cb eng tout st j)).state.solverInfo.currentTime
          < tout) →
      (solveOnce cb eng tout (loopState cb eng tout st k)).value? = some flag →
      ¬ (flag = IDA_SUCCESS ∧
        (solveOnce cb eng tout (loopState cb eng tout st k)).state.solverInfo.currentTime
          < tout) →
      k < fuel →
      solveLoop cb eng tout fuel st = some (.ok
        (solveOnce cb eng tout (loopState cb eng tout st k)).state
        (if flag = IDA_SUCCESS ∨ flag = IDA_ROOT_RETURN then 0 else flag)) ∧
      solveCalls (solveOnce cb eng tout (loopState cb eng tout st k)).state.sim.log =
        solveCalls st.sim.log + (k + 1) := by
  induction k with
  | zero =>
    intro st fuel flag _ hstop hstop2 hfuel
    obtain ⟨f, rfl⟩ : ∃ f, fuel = f + 1 := ⟨fuel - 1, by omega⟩
    have hls : loopState cb eng tout st 0 = st := rfl
    rw [hls] at hstop hstop2 ⊢
    obtain ⟨⟨evs, hl, -, hsc⟩, -⟩ := solveOnce_facts cb eng tout st
    unfold solveLoop
    cases c : solveOnce cb eng tout st with
    | fault st1 => rw [c] at hstop; cases hstop
    | ok st1 fl =>
      rw [c] at hstop hstop2 hl hsc
      have hfl : fl = flag := Option.some.inj hstop
      subst hfl
      change ¬ (fl = IDA_SUCCESS ∧ st1.solverInfo.currentTime < tout) at hstop2
      change st1.sim.log = _ at hl
      refine ⟨?_, ?_⟩
      · dsimp only
        by_cases h1 : fl = IDA_SUCCESS
        · have h2 : st1.solverInfo.currentTime ≥ tout := by
            by_contra hc
            exact hstop2 ⟨h1, lt_of_not_ge hc⟩
          rw [if_pos ⟨by simp [checkIDAflag, h1], h2⟩, if_pos (Or.inl h1)]
          rfl
        · have h3 : ¬ checkIDAflag fl = 0 := by simp [checkIDAflag, h1]
          rw [if_neg (fun h => h3 h.1), if_neg h3]
          by_cases h4 : fl = IDA_ROOT_RETURN
          · rw [if_pos h4, if_pos (Or.inr h4)]
            rfl
          · rw [if_neg h4, if_neg (by tauto)]
            rfl
      · show solveCalls st1.sim.log = _
        rw [hl, solveCalls_append, hsc rfl]
  | succ k ih =>
    intro st fuel flag hcont hstop hstop2 hfuel
    obtain ⟨f, rfl⟩ : ∃ f, fuel = f + 1 := ⟨fuel - 1, by omega⟩
    have h0 := hcont 0 (by omega)
    have hls : loopState cb eng tout st 0 = st := rfl
    rw [hls] at h0
    have hshift : ∀ j, loopState cb eng tout st (j + 1) =
        loopState cb eng tout (solveOnce cb eng tout st).state j := by
      intro j
      unfold loopState
      rw [Function.iterate_succ_apply]
    obtain ⟨⟨evs, hl, -, hsc⟩, -⟩ := solveOnce_facts cb eng tout st
    rw [hshift] at hstop hstop2 ⊢
    have hcont' : ∀ j, j < k →
        (solveOnce cb eng tout (loopState cb eng tout (solveOnce cb eng tout st).state
          j)).value? = some IDA_SUCCESS ∧
        (solveOnce cb eng tout (loopState cb eng tout (solveOnce cb eng tout st).state
          j)).state.solverInfo.currentTime < tout := by
      intro j hj
      have := hcont (j + 1) (by omega)
      rw [hshift] at this
      exact this
    obtain ⟨r1, r2⟩ := ih (solveOnce cb eng tout st).state f flag hcont' hstop hstop2
      (by omega)
    refine ⟨?_, ?_⟩
    · rw [← r1]
      conv_lhs => unfold solveLoop
      cases c : solveOnce cb eng tout st with
      | fault st1 => rw [c] at h0; cases h0.1
      | ok st1 fl =>
        rw [c] at h0
        have hfl : fl = IDA_SUCCESS := Option.some.inj h0.1
        have hlt : st1.solverInfo.currentTime < tout := h0.2
        dsimp only
        rw [if_neg (fun h => absurd hlt (not_lt.mpr h.2)),
          if_pos (by simp [checkIDAflag, hfl])]
        rfl
    · rw [r2, hl, solveCalls_append]
      have : (solveOnce cb eng tout st).isFault = false := by
        cases c : solveOnce cb eng tout st with
        | fault st1 => rw [c] at h0; cases h0.1
        | ok st1 fl => rfl
      rw [hsc this]
      omega

theorem smallStep_ida (m : MODEL) (cb : Callbacks) (st : StepState) :
    (smallStep m cb st).state.ida = st.ida := by
  unfold smallStep
  dsimp only
  cases Sim.call _ .functionODE cb.functionODE <;> rfl

theorem solveLoop_entry_eq (cb : Callbacks) (eng : ENGINE) (fuel : Nat) (st1 : StepState)
    (m : MODEL) (eps : ℚ) (st : StepState) (hre : stepReInit eng st = .ok st1 ())
    (hbig : ¬ st.solverInfo.currentStepSize < eps) :
    ida_solver_step m cb eng eps fuel st =
      match solveLoop cb eng (st.solverInfo.currentTime + st.solverInfo.currentStepSize) fuel
          (stepEntry st1) with
      | none => none
      | some (.ok st3 retVal) =>
        some (.ok (stepFinish eng st.sim.data.currentErrorStage st3) retVal)
      | some (.fault st3) => some (.ok (stepFinish eng st.sim.data.currentErrorStage st3) 0) := by
  obtain ⟨hd, hi⟩ := stepReInit_ok hre
  have hb : ¬ st1.solverInfo.currentStepSize < eps := by rw [hi]; exact hbig
  unfold ida_solver_step
  rw [hre]
  dsimp only
  rw [if_neg hb, ← hi, ← hd]
  rfl

/-- After the re-initialisation the step makes no call of `IDAReInit` and keeps the flag. -/
theorem ida_solver_step_after (m : MODEL) (cb : Callbacks) (eng : ENGINE) (eps : ℚ)
    (fuel : Nat) (st st1 : StepState) (o : Outcome StepState Int)
    (hre : stepReInit eng st = .ok st1 ())
    (h : ida_solver_step m cb eng eps fuel st = some o) :
    o.isFault = false ∧ (∃ evs, o.state.sim.log = st1.sim.log ++ evs ∧ reInits evs = 0) ∧
    o.state.ida.setInitialSolution = st1.ida.setInitialSolution := by
  by_cases hsmall : st.solverInfo.currentStepSize < eps
  · rw [smallStep_return m cb eng eps fuel st st1 hsmall hre] at h
    have ho := (Option.some.inj h).symm
    subst ho
    obtain ⟨e, he, hlog⟩ := smallStep_log m cb (stepEntry st1)
    have hida := smallStep_ida m cb (stepEntry st1)
    refine ⟨rfl, ⟨[e], ?_, by simp [reInits, he]⟩, ?_⟩
    · show (match smallStep m cb (stepEntry st1) with
        | .ok st3 _ => st3
        | .fault st3 => stepFinish eng st1.sim.data.currentErrorStage st3).sim.log = _
      cases c : smallStep m cb (stepEntry st1) with
      | ok st3 u => rw [c] at hlog; exact hlog
      | fault st3 =>
        rw [c] at hlog
        exact (stepFinish_sim eng _ st3).1.trans hlog
    · show (match smallStep m cb (stepEntry st1) with
        | .ok st3 _ => st3
        | .fault st3 => stepFinish eng st1.sim.data.currentErrorStage st3).ida.setInitialSolution
          = _
      cases c : smallStep m cb (stepEntry st1) with
      | ok st3 u => rw [c] at hida; exact congrArg (fun x => x.setInitialSolution) hida
      | fault st3 => rw [c] at hida; exact congrArg (fun x => x.setInitialSolution) hida
  · rw [solveLoop_entry_eq cb eng fuel st1 m eps st hre hsmall] at h
    cases c : solveLoop cb eng (st.solverInfo.currentTime + st.solverInfo.currentStepSize)
        fuel (stepEntry st1) with
    | none => rw [c] at h; cases h
    | some o1 =>
      obtain ⟨⟨evs, hl, hr⟩, hflag⟩ := solveLoop_facts cb eng _ fuel (stepEntry st1) o1 c
      rw [c] at h
      cases o1 with
      | ok st3 retVal =>
        have ho := (Option.some.inj h).symm
        subst ho
        exact ⟨rfl, ⟨evs, (stepFinish_sim eng _ st3).1.trans hl, hr⟩, hflag⟩
      | fault st3 =>
        have ho := (Option.some.inj h).symm
        subst ho
        exact ⟨rfl, ⟨evs, (stepFinish_sim eng _ st3).1.trans hl, hr⟩, hflag⟩

theorem ida_solver_initial_flag (m : MODEL) (cb : Callbacks) (fl : OMC_FLAGS)
    (eng : ENGINE_INIT) (idaData : IDA_SOLVER) (s : Sim) (r : Sim × IDA_SOLVER) (v : Int)
    (h : ida_solver_initial m cb fl eng idaData s = .ok r v) :
    r.2.setInitialSolution = 0 := by
  unfold ida_solver_initial at h
  cases h0 : initEngine m eng idaData s with
  | fault r0 => rw [h0] at h; cases h
  | ok r0 u0 =>
    have e0 := (initEngine_ok h0).2.2.1
    rw [h0] at h
    dsimp only at h
    cases h1 : configuredJacobian fl r0.2 r0.1 with
    | fault r1 => rw [h1] at h; cases h
    | ok r1 u1 =>
      have e1 : r1.2.setInitialSolution = r0.2.setInitialSolution := by
        unfold configuredJacobian at h1
        dsimp only at h1
        split_ifs at h1 <;> cases h1 <;> rfl
      rw [h1] at h
      dsimp only at h
      cases h2 : acquirePattern cb r1.2 r1.1 with
      | fault r2 => rw [h2] at h; cases h
      | ok r2 u2 =>
        have e2 : r2.2.setInitialSolution = r1.2.setInitialSolution := by
          unfold acquirePattern at h2
          split_ifs at h2
          · cases hc : cb.initialAnalyticJacobianA r1.1.data with
            | fault d => rw [hc] at h2; cases h2
            | ok d ret =>
              rw [hc] at h2
              dsimp only at h2
              split_ifs at h2 <;> cases h2 <;> rfl
          · cases h2; rfl
        rw [h2] at h
        dsimp only at h
        cases h3 : registerJacobian eng r2.2 r2.1 with
        | fault r3 => rw [h3] at h; cases h
        | ok r3 u3 =>
          have e3 : r3.2.setInitialSolution = r2.2.setInitialSolution := by
            unfold registerJacobian at h3
            dsimp only at h3
            split_ifs at h3 <;> cases h3 <;> rfl
          rw [h3] at h
          cases h
          rw [e3, e2, e1, e0]

/-- One pass of the loop in which the input callbacks return: its flag is the flag the engine
reports, and when the engine returns, the buffers, memory and time it leaves are those of the
report, with the time of the current buffer set to the time returned. -/
theorem solveOnce_engine (cb : Callbacks) (eng : ENGINE) (tout : ℚ) (st : StepState)
    (h1 : (cb.externalInputUpdate st.sim.data).isFault = false)
    (h2 : (cb.input_function (cb.externalInputUpdate st.sim.data).state).isFault = false) :
    (solveOnce cb eng tout st).value? = (engineReport cb eng tout st.solveState).value? ∧
    ((engineReport cb eng tout st.solveState).isFault = false →
      (solveOnce cb eng tout st).state.solveState =
        afterReport (engineReport cb eng tout st.solveState).state) := by
  unfold solveOnce engineReport passInput StepState.solveState Sim.call
  dsimp only
  cases hA : cb.externalInputUpdate st.sim.data with
  | fault d1 => rw [hA] at h1; cases h1
  | ok d1 u1 =>
    rw [hA] at h2
    simp only [Outcome.state] at h2 ⊢
    cases hB : cb.input_function d1 with
    | fault d2 => rw [hB] at h2; cases h2
    | ok d2 u2 =>
      dsimp only
      cases hE : eng.IDASolve tout
          { data := d2, mem := st.ida.ida_mem, tret := st.solverInfo.currentTime } with
      | fault e => exact ⟨rfl, fun h => by cases h⟩
      | ok e flag => exact ⟨rfl, fun _ => rfl⟩

theorem loopState_succ (cb : Callbacks) (eng : ENGINE) (tout : ℚ) (st : StepState) (j : Nat) :
    loopState cb eng tout st (j + 1) =
      (solveOnce cb eng tout (loopState cb eng tout st j)).state := by
  unfold loopState
  rw [Function.iterate_succ_apply']

theorem engineState_succ (cb : Callbacks) (eng : ENGINE) (tout : ℚ) (x : SolveState)
    (j : Nat) :
    engineState cb eng tout x (j + 1) =
      afterReport (engineReport cb eng tout (engineState cb eng tout x j)).state := by
  unfold engineState
  rw [Function.iterate_succ_apply']

theorem value_some_not_fault {σ α : Type} {o : Outcome σ α} {a : α}
    (h : o.value? = some a) : o.isFault = false := by
  cases o with
  | ok s v => rfl
  | fault s => cases h

/-- While the input callbacks return and the engine reports success, the states of the loop
are those the engine reports. -/
theorem loopState_engine (cb : Callbacks) (eng : ENGINE) (tout : ℚ) (st : StepState)
    (k : Nat)
    (hin : ∀ j, j ≤ k →
      (cb.externalInputUpdate (engineState cb eng tout st.solveState j).data).isFault = false ∧
      (cb.input_function (cb.externalInputUpdate
        (engineState cb eng tout st.solveState j).data).state).isFault = false)
    (hcont : ∀ j, j < k →
      (engineReport cb eng tout (engineState cb eng tout st.solveState j)).value?
        = some IDA_SUCCESS) :
    ∀ j, j ≤ k → (loopState cb eng tout st j).solveState =
      engineState cb eng tout st.solveState j := by
  intro j
  induction j with
  | zero => intro _; rfl
  | succ i ih =>
    intro hi
    have e := ih (by omega)
    have hc := hin i (by omega)
    rw [← e] at hc
    have hr := hcont i (by omega)
    rw [← e] at hr
    have key := (solveOnce_engine cb eng tout (loopState cb eng tout st i) hc.1 hc.2).2
      (value_some_not_fault hr)
    rw [loopState_succ, engineState_succ, key, e]

/-- A loop that has seen success before the target in each of its first `k` passes has not
returned within `k` passes. -/
theorem solveLoop_short (cb : Callbacks) (eng : ENGINE) (tout : ℚ) :
    ∀ (fuel k : Nat) (st : StepState),
      (∀ j, j < k →
        (solveOnce cb eng tout (loopState cb eng tout st j)).value? = some IDA_SUCCESS ∧
        (solveOnce cb eng tout (loopState cb eng tout st j)).state.solverInfo.currentTime
          < tout) →
      fuel ≤ k → solveLoop cb eng tout fuel st = none := by
  intro fuel
  induction fuel with
  | zero => intro k st _ _; rfl
  | succ f ih =>
    intro k st hcont hfuel
    obtain ⟨k1, rfl⟩ : ∃ k1, k = k1 + 1 := ⟨k - 1, by omega⟩
    have h0 := hcont 0 (by omega)
    have hls : loopState cb eng tout st 0 = st := rfl
    rw [hls] at h0
    have hshift : ∀ j, loopState cb eng tout st (j + 1) =
        loopState cb eng tout (solveOnce cb eng tout st).state j := by
      intro j
      unfold loopState
      rw [Function.iterate_succ_apply]
    have hcont1 : ∀ j, j < k1 →
        (solveOnce cb eng tout (loopState cb eng tout (solveOnce cb eng tout st).state
          j)).value? = some IDA_SUCCESS ∧
        (solveOnce cb eng tout (loopState cb eng tout (solveOnce cb eng tout st).state
          j)).state.solverInfo.currentTime < tout := by
      intro j hj
      have := hcont (j + 1) (by omega)
      rw [hshift] at this
      exact this
    have r := ih k1 (solveOnce cb eng tout st).state hcont1 (by omega)
    rw [← r]
    conv_lhs => unfold solveLoop
    cases c : solveOnce cb eng tout st with
    | fault st1 => rw [c] at h0; cases h0.1
    | ok st1 fl =>
      rw [c] at h0
      have hfl : fl = IDA_SUCCESS := Option.some.inj h0.1
      have hlt : st1.solverInfo.currentTime < tout := h0.2
      dsimp only
      rw [if_neg (fun h => absurd hlt (not_lt.mpr h.2)),
        if_pos (by simp [checkIDAflag, hfl])]
      rfl

/-- C12: take a step that is not a small step and whose re-initialisation does not fail, with
the target `tout = currentTime + currentStepSize`. A pass of the loop hands to `IDASolve` the
buffers as the input callbacks leave them, the engine memory and the current time, and leaves
what `IDASolve` reports. Let the input callbacks return in the first `k + 1` passes, let
`IDASolve` report `IDA_SUCCESS` with a time below the target in each of the first `k` passes,
and in pass `k + 1` report the flag `flag` without a fault, not as success below the target.
Then the loop is still running after `k` passes or fewer, and for every bound above `k`
`ida_solver_step` returns; it has then made exactly `k + 1` calls of `IDASolve`, the buffers,
engine memory and current time it finishes with are those of the last report, and it returns 0
when `flag` is `IDA_SUCCESS` (time at or past the target) or `IDA_ROOT_RETURN`, and `flag`
itself, the flag `IDASolve` reported, which is nonzero, otherwise: the passes before the last do
not enter the value. -/
theorem ida_solver_step_loop (m : MODEL) (cb : Callbacks) (eng : ENGINE) (eps tout : ℚ)
    (st st1 : StepState) (k : Nat) (flag : Int)
    (hre : stepReInit eng st = .ok st1 ())
    (hbig : ¬ st.solverInfo.currentStepSize < eps)
    (htout : tout = st.solverInfo.currentTime + st.solverInfo.currentStepSize)
    (hin : ∀ j, j ≤ k →
      (cb.externalInputUpdate
        (engineState cb eng tout (stepEntry st1).solveState j).data).isFault = false ∧
      (cb.input_function (cb.externalInputUpdate
        (engineState cb eng tout (stepEntry st1).solveState j).data).state).isFault = false)
    (hcont : ∀ j, j < k →
      eng.IDASolve tout (passInput cb (engineState cb eng tout (stepEntry st1).solveState j))
        = .ok (engineReport cb eng tout
            (engineState cb eng tout (stepEntry st1).solveState j)).state IDA_SUCCESS ∧
      (engineReport cb eng tout
        (engineState cb eng tout (stepEntry st1).solveState j)).state.tret < tout)
    (hstop : eng.IDASolve tout
        (passInput cb (engineState cb eng tout (stepEntry st1).solveState k))
      = .ok (engineReport cb eng tout
          (engineState cb eng tout (stepEntry st1).solveState k)).state flag)
    (hstop2 : ¬ (flag = IDA_SUCCESS ∧
      (engineReport cb eng tout
        (engineState cb eng tout (stepEntry st1).solveState k)).state.tret < tout)) :
    (∀ fuel, fuel ≤ k → ida_solver_step m cb eng eps fuel st = none) ∧
    (∀ fuel, k < fuel → ∃ sk : StepState,
      ida_solver_step m cb eng eps fuel st = some (.ok
        (stepFinish eng st.sim.data.currentErrorStage sk)
        (if flag = IDA_SUCCESS ∨ flag = IDA_ROOT_RETURN then 0 else flag)) ∧
      sk.solveState = afterReport (engineReport cb eng tout
        (engineState cb eng tout (stepEntry st1).solveState k)).state ∧
      (stepFinish eng st.sim.data.currentErrorStage sk).ida.ida_mem =
        (engineReport cb eng tout
          (engineState cb eng tout (stepEntry st1).solveState k)).state.mem ∧
      (stepFinish eng st.sim.data.currentErrorStage sk).solverInfo.currentTime =
        (engineReport cb eng tout
          (engineState cb eng tout (stepEntry st1).solveState k)).state.tret ∧
      solveCalls (stepFinish eng st.sim.data.currentErrorStage sk).sim.log =
        solveCalls st.sim.log + (k + 1)) ∧
    (flag ≠ IDA_SUCCESS → flag ≠ IDA_ROOT_RETURN →
      (if flag = IDA_SUCCESS ∨ flag = IDA_ROOT_RETURN then 0 else flag) = flag ∧ flag ≠ 0) := by
  have hl := stepReInit_log eng st
  rw [hre] at hl
  change st1.sim.log = _ at hl
  have hval : ∀ j, j < k → (engineReport cb eng tout
      (engineState cb eng tout (stepEntry st1).solveState j)).value? = some IDA_SUCCESS := by
    intro j hj
    have := (hcont j hj).1
    unfold engineReport
    rw [this]
    rfl
  have hvalk : (engineReport cb eng tout
      (engineState cb eng tout (stepEntry st1).solveState k)).value? = some flag := by
    have := hstop
    unfold engineReport
    rw [this]
    rfl
  have hst := loopState_engine cb eng tout (stepEntry st1) k hin hval
  have hone : ∀ j, j ≤ k →
      (solveOnce cb eng tout (loopState cb eng tout (stepEntry st1) j)).value? =
        (engineReport cb eng tout
          (engineState cb eng tout (stepEntry st1).solveState j)).value? ∧
      ((engineReport cb eng tout
          (engineState cb eng tout (stepEntry st1).solveState j)).isFault = false →
        (solveOnce cb eng tout (loopState cb eng tout (stepEntry st1) j)).state.solveState =
          afterReport (engineReport cb eng tout
            (engineState cb eng tout (stepEntry st1).solveState j)).state) := by
    intro j hj
    have hc := hin j hj
    rw [← hst j hj] at hc ⊢
    exact solveOnce_engine cb eng tout _ hc.1 hc.2
  have hcont1 : ∀ j, j < k →
      (solveOnce cb eng tout (loopState cb eng tout (stepEntry st1) j)).value?
        = some IDA_SUCCESS ∧
      (solveOnce cb eng tout (loopState cb eng tout (stepEntry st1)
        j)).state.solverInfo.currentTime < tout := by
    intro j hj
    obtain ⟨a, b⟩ := hone j (by omega)
    refine ⟨a.trans (hval j hj), ?_⟩
    have e := congrArg SolveState.tret (b (value_some_not_fault (hval j hj)))
    change (solveOnce cb eng tout (loopState cb eng tout (stepEntry st1)
      j)).state.solverInfo.currentTime = _ at e
    rw [e]
    exact (hcont j hj).2
  obtain ⟨ak, bk⟩ := hone k (le_refl k)
  have ek := bk (value_some_not_fault hvalk)
  have hstop1 : (solveOnce cb eng tout (loopState cb eng tout (stepEntry st1) k)).value?
      = some flag := ak.trans hvalk
  have hstop21 : ¬ (flag = IDA_SUCCESS ∧
      (solveOnce cb eng tout (loopState cb eng tout (stepEntry st1)
        k)).state.solverInfo.currentTime < tout) := by
    have e := congrArg SolveState.tret ek
    change (solveOnce cb eng tout (loopState cb eng tout (stepEntry st1)
      k)).state.solverInfo.currentTime = _ at e
    rw [e]
    exact hstop2
  refine ⟨?_, ?_, ?_⟩
  · intro fuel hfuel
    rw [solveLoop_entry_eq cb eng fuel st1 m eps st hre hbig, ← htout,
      solveLoop_short cb eng tout fuel k (stepEntry st1) hcont1 hfuel]
  · intro fuel hfuel
    obtain ⟨r1, r2⟩ := solveLoop_run cb eng tout k (stepEntry st1) fuel flag hcont1 hstop1
      hstop21 hfuel
    refine ⟨(solveOnce cb eng tout (loopState cb eng tout (stepEntry st1) k)).state, ?_, ek,
      ?_, ?_, ?_⟩
    · rw [solveLoop_entry_eq cb eng fuel st1 m eps st hre hbig, ← htout, r1]
    · exact congrArg SolveState.mem ek
    · exact congrArg SolveState.tret ek
    · rw [(stepFinish_sim eng _ _).1, r2]
      show solveCalls st1.sim.log + (k + 1) = _
      rw [hl, solveCalls_append]
      split_ifs <;> simp [solveCalls]
  · intro h1 h2
    refine ⟨by rw [if_neg (by tauto)], ?_⟩
    exact h1

/-- C12, at the decay model with the engine that advances by 1 below the target and then
reports the error flag -4: for the target `3/2` the first call of `IDASolve` reports success at
time 1, the second the flag -4 at time `5/4`; the step makes two calls, returns -4 and leaves
the current time `5/4`, and with a bound of one pass the loop is still running. -/
theorem ida_solver_step_loop_witness :
    (stepReInit engineConvFail step1).isFault = false ∧
    ¬ step1.solverInfo.currentStepSize < stepEps ∧
    ida_solver_step model2 decay engineConvFail stepEps 1 step1 = none ∧
    (∀ fuel, 1 < fuel → ∃ o, ida_solver_step model2 decay engineConvFail stepEps fuel step1
      = some (.ok o (-4)) ∧ o.solverInfo.currentTime = 5 / 4 ∧ solveCalls o.sim.log = 2) := by
  have hbig : ¬ step1.solverInfo.currentStepSize < stepEps := by
    norm_num [step1, stepEps]
  have h := ida_solver_step_loop model2 decay engineConvFail stepEps (3 / 2) step1
    (stepReInit engineConvFail step1).state 1 (-4) rfl hbig (by norm_num [step1])
    (by
      intro j hj
      exact ⟨rfl, rfl⟩)
    (by
      intro j hj
      obtain rfl : j = 0 := by omega
      constructor
      · norm_num [engineState, engineReport, passInput, afterReport, StepState.solveState,
          decay, engineConvFail, step1, stepEntry, stepReInit, Outcome.state, IDA_SUCCESS,
          checkIDAflag, ida0, DATA.setStage, DATA.setTime]
      · norm_num [engineState, engineReport, passInput, afterReport, StepState.solveState,
          decay, engineConvFail, step1, stepEntry, stepReInit, Outcome.state, IDA_SUCCESS,
          checkIDAflag, ida0, DATA.setStage, DATA.setTime])
    (by
      norm_num [engineState, engineReport, passInput, afterReport, StepState.solveState,
        decay, engineConvFail, step1, stepEntry, stepReInit, Outcome.state, IDA_SUCCESS,
        checkIDAflag, ida0, DATA.setStage, DATA.setTime])
    (by
      norm_num [IDA_SUCCESS])
  refine ⟨rfl, hbig, h.1 1 (le_refl 1), ?_⟩
  intro fuel hfuel
  obtain ⟨sk, e1, -, -, e3, e4⟩ := h.2.1 fuel hfuel
  refine ⟨_, e1, ?_, ?_⟩
  · rw [e3]
    norm_num [engineState, engineReport, passInput, afterReport, StepState.solveState,
      decay, engineConvFail, step1, stepEntry, stepReInit, Outcome.state, IDA_SUCCESS,
      checkIDAflag, ida0, DATA.setStage, DATA.setTime]
  · rw [e4]
    rfl

/-- The re-initialisation when it is due: `IDAReInit` is called with the engine memory, the
current time and the buffers of the step (which hold the vectors `y` and `yp`); the memory it
returns is kept, its flag decides between the fault and the return, and after the return the
flag `setInitialSolution` is 1. -/
theorem stepReInit_due (eng : ENGINE) (st : StepState)
    (hdue : st.solverInfo.didEventStep ≠ 0 ∨ st.ida.setInitialSolution = 0) :
    (stepReInit eng st).state.ida.ida_mem =
      (eng.IDAReInit st.ida.ida_mem st.solverInfo.currentTime st.sim.data).2 ∧
    ((stepReInit eng st).isFault = true ↔
      (eng.IDAReInit st.ida.ida_mem st.solverInfo.currentTime st.sim.data).1 ≠ IDA_SUCCESS) ∧
    ((stepReInit eng st).isFault = false → (stepReInit eng st).state.ida.setInitialSolution = 1) := by
  unfold stepReInit
  by_cases h1 : st.solverInfo.didEventStep = 0
  · have h2 : st.ida.setInitialSolution = 0 := by tauto
    simp only [h1, h2, ne_eq, not_true_eq_false, if_false, if_true]
    by_cases hf : (eng.IDAReInit st.ida.ida_mem st.solverInfo.currentTime st.sim.data).1
        = IDA_SUCCESS
    · simp [checkIDAflag, hf, Outcome.state, Outcome.isFault]
    · simp [checkIDAflag, hf, Outcome.state, Outcome.isFault]
  · simp only [ne_eq, h1, not_false_eq_true, if_true]
    by_cases hf : (eng.IDAReInit st.ida.ida_mem st.solverInfo.currentTime st.sim.data).1
        = IDA_SUCCESS
    · simp [checkIDAflag, hf, Outcome.state, Outcome.isFault]
    · simp [checkIDAflag, hf, Outcome.state, Outcome.isFault]

/-- The re-initialisation when it is not due: nothing happens. -/
theorem stepReInit_not_due (eng : ENGINE) (st : StepState)
    (hdue : ¬ (st.solverInfo.didEventStep ≠ 0 ∨ st.ida.setInitialSolution = 0)) :
    stepReInit eng st = .ok st () := by
  push_neg at hdue
  unfold stepReInit
  simp [hdue.1, hdue.2]

/-- The passes of the loop make no call of `IDAReInit` and keep the flag
`setInitialSolution`, however many there are. -/
theorem loopState_facts (cb : Callbacks) (eng : ENGINE) (tout : ℚ) (st : StepState) (j : Nat) :
    (∃ rest, (loopState cb eng tout st j).sim.log = st.sim.log ++ rest ∧ reInits rest = 0) ∧
    (loopState cb eng tout st j).ida.setInitialSolution = st.ida.setInitialSolution := by
  induction j with
  | zero => exact ⟨⟨[], by simp [loopState], rfl⟩, rfl⟩
  | succ i ih =>
    obtain ⟨⟨rest, hl, hr⟩, hflag⟩ := ih
    obtain ⟨⟨evs, hl1, hr1, -⟩, hflag1⟩ :=
      solveOnce_facts cb eng tout (loopState cb eng tout st i)
    rw [loopState_succ]
    refine ⟨⟨rest ++ evs, ?_, ?_⟩, hflag1.trans hflag⟩
    · rw [hl1, hl, List.append_assoc]
    · rw [reInits_append, hr, hr1]

/-- C13: at the start of `ida_solver_step`, when the previous step was an event step or the
flag `setInitialSolution` is clear, `IDAReInit` is called with the engine memory, the current
time and the buffers of the step (they hold the vectors `y` and `yp`): the engine memory of the
step is the one this call returns (and it is the memory handed to the first `IDASolve`), the
re-initialisation fails exactly when the flag of this call is not `IDA_SUCCESS`, and after a
re-initialisation that did not fail the flag `setInitialSolution` is 1. Otherwise the
re-initialisation does nothing. For every bound on the loop: a failed re-initialisation is the
fault that leaves the step, at once; a step that returns has the `IDAReInit` call first in its
trace and no other (none at all when none was due), a fault exactly when the re-initialisation
failed, and the flag as the re-initialisation left it; the passes of the loop, however many,
make no call of `IDAReInit`; and a small step returns. `ida_solver_initial` leaves the flag
clear, so the first step after it re-initialises. -/
theorem ida_solver_step_reinit (m : MODEL) (cb : Callbacks) (eng : ENGINE) (eps : ℚ)
    (st : StepState) :
    (st.solverInfo.didEventStep ≠ 0 ∨ st.ida.setInitialSolution = 0 →
      (stepReInit eng st).state.ida.ida_mem =
        (eng.IDAReInit st.ida.ida_mem st.solverInfo.currentTime st.sim.data).2 ∧
      (passInput cb (stepEntry (stepReInit eng st).state).solveState).mem =
        (eng.IDAReInit st.ida.ida_mem st.solverInfo.currentTime st.sim.data).2 ∧
      ((stepReInit eng st).isFault = true ↔
        (eng.IDAReInit st.ida.ida_mem st.solverInfo.currentTime st.sim.data).1
          ≠ IDA_SUCCESS) ∧
      (stepReInit eng st).state.sim.log = st.sim.log ++
        [⟨.IDAReInit st.solverInfo.currentTime, st.sim.data.localData0.timeValue,
          st.sim.data.currentErrorStage, st.sim.data.currentContext⟩] ∧
      ((stepReInit eng st).isFault = false →
        (stepReInit eng st).state.ida.setInitialSolution = 1)) ∧
    (¬ (st.solverInfo.didEventStep ≠ 0 ∨ st.ida.setInitialSolution = 0) →
      stepReInit eng st = .ok st ()) ∧
    (∀ fuel, (stepReInit eng st).isFault = true →
      ida_solver_step m cb eng eps fuel st = some (.fault (stepReInit eng st).state)) ∧
    (∀ fuel o, ida_solver_step m cb eng eps fuel st = some o →
      o.isFault = (stepReInit eng st).isFault ∧
      o.state.ida.setInitialSolution = (stepReInit eng st).state.ida.setInitialSolution ∧
      (st.solverInfo.didEventStep ≠ 0 ∨ st.ida.setInitialSolution = 0 →
        ∃ rest, o.state.sim.log = st.sim.log ++
          (⟨.IDAReInit st.solverInfo.currentTime, st.sim.data.localData0.timeValue,
            st.sim.data.currentErrorStage, st.sim.data.currentContext⟩ :: rest) ∧
          reInits rest = 0) ∧
      (¬ (st.solverInfo.didEventStep ≠ 0 ∨ st.ida.setInitialSolution = 0) →
        ∃ rest, o.state.sim.log = st.sim.log ++ rest ∧ reInits rest = 0)) ∧
    (∀ tout j, ∃ rest,
      (loopState cb eng tout (stepEntry (stepReInit eng st).state) j).sim.log =
        (stepReInit eng st).state.sim.log ++ rest ∧ reInits rest = 0) ∧
    (st.solverInfo.currentStepSize < eps → (stepReInit eng st).isFault = false →
      ∀ fuel, ∃ o, ida_solver_step m cb eng eps fuel st = some o) ∧
    (∀ (fl : OMC_FLAGS) (engi : ENGINE_INIT) (idaData : IDA_SOLVER) (s : Sim)
      (r : Sim × IDA_SOLVER), ida_solver_initial m cb fl engi idaData s = .ok r 0 →
        r.2.setInitialSolution = 0) := by
  have hl := stepReInit_log eng st
  refine ⟨?_, stepReInit_not_due eng st, ?_, ?_, ?_, ?_, fun fl engi idaData s r hr =>
    ida_solver_initial_flag m cb fl engi idaData s r 0 hr⟩
  · intro hdue
    obtain ⟨a1, a2, a3⟩ := stepReInit_due eng st hdue
    rw [if_pos hdue] at hl
    exact ⟨a1, a1, a2, hl, a3⟩
  · intro fuel hf
    unfold ida_solver_step
    cases hre : stepReInit eng st with
    | fault st1 => rfl
    | ok st1 u => rw [hre] at hf; cases hf
  · intro fuel o h
    cases hre : stepReInit eng st with
    | fault st1 =>
      rw [hre] at hl
      have ho : o = .fault st1 := by
        unfold ida_solver_step at h
        rw [hre] at h
        exact (Option.some.inj h).symm
      subst ho
      refine ⟨rfl, rfl, ?_, ?_⟩
      · intro hdue
        rw [if_pos hdue] at hl
        exact ⟨[], hl, rfl⟩
      · intro hdue
        rw [if_neg hdue] at hl
        exact ⟨[], hl, rfl⟩
    | ok st1 u =>
      rw [hre] at hl
      change st1.sim.log = _ at hl
      obtain ⟨hnf, ⟨evs, hlog, hr⟩, hflag⟩ :=
        ida_solver_step_after m cb eng eps fuel st st1 o hre h
      refine ⟨hnf, hflag, ?_, ?_⟩
      · intro hdue
        rw [if_pos hdue] at hl
        exact ⟨evs, by rw [hlog, hl]; simp, hr⟩
      · intro hdue
        rw [if_neg hdue] at hl
        exact ⟨evs, by rw [hlog, hl]; simp, hr⟩
  · intro tout j
    obtain ⟨⟨rest, h1, h2⟩, -⟩ :=
      loopState_facts cb eng tout (stepEntry (stepReInit eng st).state) j
    exact ⟨rest, h1, h2⟩
  · intro hsmall hnf fuel
    cases hre : stepReInit eng st with
    | fault st1 => rw [hre] at hnf; cases hnf
    | ok st1 u => exact ⟨_, smallStep_return m cb eng eps fuel st st1 hsmall hre⟩

/-- C13, at the decay model with the engine whose `IDAReInit` stores the time it is given:
the first step (flag clear) hands the current time 0 to `IDAReInit` and keeps the memory it
returns; the small step returns with one call of `IDAReInit` in its trace and the flag 1. A
failing `IDAReInit` leaves the step at once. -/
theorem ida_solver_step_reinit_witness :
    step0.ida.setInitialSolution = 0 ∧
    (stepReInit engineUnit step0).state.ida.ida_mem = { step0.ida.ida_mem with t0 := 0 } ∧
    (∃ o, ida_solver_step model2 decay engineUnit stepEps 0 step0 = some o ∧
      reInits o.state.sim.log = 1 ∧ o.state.ida.setInitialSolution = 1) ∧
    (ida_solver_step model2 decay engineNoReInit stepEps 0 step0).map (fun o => o.isFault)
      = some true := by
  have hs : step0.solverInfo.currentStepSize < stepEps := by
    norm_num [step0, stepEps]
  have h := ida_solver_step_reinit model2 decay engineUnit stepEps step0
  obtain ⟨hdue, -, -, hret, -, hsmall, -⟩ := h
  obtain ⟨hmem, -, -, -, hflag⟩ := hdue (Or.inr rfl)
  obtain ⟨o, ho⟩ := hsmall hs rfl 0
  obtain ⟨hf, hfl, hlog, -⟩ := hret 0 o ho
  obtain ⟨rest, hlog, hrest⟩ := hlog (Or.inr rfl)
  refine ⟨rfl, hmem, ⟨o, ho, ?_, ?_⟩, rfl⟩
  · rw [hlog, reInits_append]
    have : reInits step0.sim.log = 0 := rfl
    rw [this]
    unfold reInits at hrest ⊢
    rw [List.countP_cons, hrest]
    rfl
  · rw [hfl]
    exact hflag rfl

/-! ## The increment of a column -/

/-- C18: with `sqrteps > 0` and a nonzero error weight of column `j`, the increment of column
`j` (lines 605-608 and 716-719, the same in both paths) is `s * sqrteps * max(|y[j]|,
|h * yp[j]|, |1 / ewt[j]|)` with `s = 1` when `h * yp[j] >= 0` and `s = -1` otherwise; its
absolute value is at least `sqrteps * |1 / ewt[j]| > 0`, so it is not zero, and the reciprocal
that `perturbColumn` stores in `delta_hh[j]` is the reciprocal of this nonzero number. -/
theorem perturbation_ne_zero (delta_h currentStep : ℚ) (states yprime errwgt : Vec) (j : Nat)
    (hh : 0 < delta_h) (hw : errwgt j ≠ 0) :
    perturbation delta_h currentStep states yprime errwgt j =
      (if currentStep * yprime j ≥ 0 then 1 else -1) * delta_h *
        max (max |states j| |currentStep * yprime j|) |1 / errwgt j| ∧
    delta_h * |1 / errwgt j| ≤ |perturbation delta_h currentStep states yprime errwgt j| ∧
    0 < delta_h * |1 / errwgt j| ∧
    perturbation delta_h currentStep states yprime errwgt j ≠ 0 ∧
    (∀ w : JacState, (perturbColumn currentStep yprime j w).ida.delta_hh j =
      1 / perturbation w.ida.sqrteps currentStep w.sim.data.localData0.realVars yprime
        w.ida.errwgt j) := by
  have hpos : 0 < |1 / errwgt j| := abs_pos.mpr (one_div_ne_zero hw)
  have hmax : |1 / errwgt j| ≤ max (max |states j| |currentStep * yprime j|) |1 / errwgt j| :=
    le_max_right _ _
  have hm0 : 0 < max (max |states j| |currentStep * yprime j|) |1 / errwgt j| :=
    lt_of_lt_of_le hpos hmax
  have heq : perturbation delta_h currentStep states yprime errwgt j =
      (if currentStep * yprime j ≥ 0 then 1 else -1) * delta_h *
        max (max |states j| |currentStep * yprime j|) |1 / errwgt j| := by
    unfold perturbation
    dsimp only
    split_ifs <;> ring
  have habs : |perturbation delta_h currentStep states yprime errwgt j| =
      delta_h * max (max |states j| |currentStep * yprime j|) |1 / errwgt j| := by
    rw [heq]
    split_ifs
    · rw [one_mul, abs_of_pos (mul_pos hh hm0)]
    · rw [neg_one_mul, neg_mul, abs_neg, abs_of_pos (mul_pos hh hm0)]
  have hlow : delta_h * |1 / errwgt j| ≤
      |perturbation delta_h currentStep states yprime errwgt j| := by
    rw [habs]
    exact mul_le_mul_of_nonneg_left hmax (le_of_lt hh)
  have hp : 0 < delta_h * |1 / errwgt j| := mul_pos hh hpos
  refine ⟨heq, hlow, hp, ?_, ?_⟩
  · intro h0
    rw [h0, abs_zero] at hlow
    exact absurd hp (not_lt.mpr hlow)
  · intro w
    simp [perturbColumn]

/-- C18, at the state 1 with derivative candidate 0, step 1, error weight 1 and
`sqrteps = 1/4`: the increment is `1/4`. -/
theorem perturbation_ne_zero_witness :
    (0 : ℚ) < 1 / 4 ∧ (fun _ : Nat => (1 : ℚ)) 0 ≠ 0 ∧
    perturbation (1 / 4) 1 (fun _ => 1) (fun _ => 0) (fun _ => 1) 0 = 1 / 4 ∧
    perturbation (1 / 4) 1 (fun _ => 1) (fun _ => 0) (fun _ => 1) 0 ≠ 0 := by
  have h := perturbation_ne_zero (1 / 4) 1 (fun _ => 1) (fun _ => 0) (fun _ => 1) 0
    (by norm_num) (by norm_num)
  refine ⟨by norm_num, by norm_num, ?_, h.2.2.2.1⟩
  rw [h.1]
  norm_num

/-! ## Entry in a phase other than ALGEBRAIC -/

theorem isCallback_not_context {e : Event} (h : e.fn.isCallback = true) :
    e.fn ≠ .unsetContext ∧ ∀ p, e.fn ≠ .setContext p := by
  refine ⟨?_, ?_⟩
  · intro h2; rw [h2] at h; cases h
  · intro p h2; rw [h2] at h; cases h

/-- The four calls of the root adapter leave the phase as the callbacks do, and the trace
grows by calls of callbacks. -/
theorem evalZeroCrossings_facts (cb : Callbacks) (gout : Vec) (s : Sim)
    (h1 : KeepsContext cb.externalInputUpdate) (h2 : KeepsContext cb.input_function)
    (h4 : KeepsContext cb.function_ZeroCrossingsEquations)
    (h5 : ∀ d g, (cb.function_ZeroCrossings d g).state.currentContext = d.currentContext) :
    (evalZeroCrossings cb gout s).state.data.currentContext = s.data.currentContext ∧
    ∃ evs, (evalZeroCrossings cb gout s).state.log = s.log ++ evs ∧
      ∀ e ∈ evs, e.fn.isCallback = true := by
  unfold evalZeroCrossings
  cases c1 : s.call .externalInputUpdate cb.externalInputUpdate with
  | fault s1 =>
    obtain ⟨e1, l1⟩ := call_fault c1
    refine ⟨?_, [⟨.externalInputUpdate, s.data.localData0.timeValue, s.data.currentErrorStage,
          s.data.currentContext⟩], l1, ?_⟩
    · show s1.data.currentContext = _
      rw [e1]; exact (h1 s.data).1
    · intro e he
      simp only [List.mem_singleton] at he
      subst he; rfl
  | ok s1 u1 =>
    obtain ⟨e1, l1⟩ := call_ok c1
    have k1 : s1.data.currentContext = s.data.currentContext := by
      rw [e1]; exact (h1 s.data).1
    dsimp only
    cases c2 : s1.call .input_function cb.input_function with
    | fault s2 =>
      obtain ⟨e2, l2⟩ := call_fault c2
      refine ⟨?_, [⟨.externalInputUpdate, s.data.localData0.timeValue, s.data.currentErrorStage,
          s.data.currentContext⟩,
        ⟨.input_function, s1.data.localData0.timeValue, s1.data.currentErrorStage,
          s1.data.currentContext⟩], ?_, ?_⟩
      · show s2.data.currentContext = _
        rw [e2, (h2 s1.data).1, k1]
      · show s2.log = _
        rw [l2, l1]; simp
      · intro e he
        simp only [List.mem_cons, List.mem_singleton, List.not_mem_nil, or_false] at he
        rcases he with he | he <;> subst he <;> rfl
    | ok s2 u2 =>
      obtain ⟨e2, l2⟩ := call_ok c2
      have k2 : s2.data.currentContext = s.data.currentContext := by
        rw [e2, (h2 s1.data).1, k1]
      dsimp only
      cases c3 : s2.call .function_ZeroCrossingsEquations
          cb.function_ZeroCrossingsEquations with
      | fault s3 =>
        obtain ⟨e3, l3⟩ := call_fault c3
        refine ⟨?_, [⟨.externalInputUpdate, s.data.localData0.timeValue, s.data.currentErrorStage,
          s.data.currentContext⟩,
          ⟨.input_function, s1.data.localData0.timeValue, s1.data.currentErrorStage,
          s1.data.currentContext⟩,
          ⟨.function_ZeroCrossingsEquations, s2.data.localData0.timeValue,
          s2.data.currentErrorStage, s2.data.currentContext⟩], ?_, ?_⟩
        · show s3.data.currentContext = _
          rw [e3, (h4 s2.data).1, k2]
        · show s3.log = _
          rw [l3, l2, l1]; simp
        · intro e he
          simp only [List.mem_cons, List.mem_singleton, List.not_mem_nil, or_false] at he
          rcases he with he | he | he <;> subst he <;> rfl
      | ok s3 u3 =>
        obtain ⟨e3, l3⟩ := call_ok c3
        have k3 : s3.data.currentContext = s.data.currentContext := by
          rw [e3, (h4 s2.data).1, k2]
        have k5 := h5 s3.data gout
        have l4 : (s3.enter .function_ZeroCrossings).log = s.log ++
            [⟨.externalInputUpdate, s.data.localData0.timeValue, s.data.currentErrorStage,
              s.data.currentContext⟩,
            ⟨.input_function, s1.data.localData0.timeValue, s1.data.currentErrorStage,
              s1.data.currentContext⟩,
            ⟨.function_ZeroCrossingsEquations, s2.data.localData0.timeValue,
              s2.data.currentErrorStage, s2.data.currentContext⟩,
            ⟨.function_ZeroCrossings, s3.data.localData0.timeValue,
              s3.data.currentErrorStage, s3.data.currentContext⟩] := by
          unfold Sim.enter
          dsimp only
          rw [l3, l2, l1]; simp
        have hev : ∀ e ∈ [(⟨.externalInputUpdate, s.data.localData0.timeValue,
              s.data.currentErrorStage, s.data.currentContext⟩ : Event),
            ⟨.input_function, s1.data.localData0.timeValue, s1.data.currentErrorStage,
              s1.data.currentContext⟩,
            ⟨.function_ZeroCrossingsEquations, s2.data.localData0.timeValue,
              s2.data.currentErrorStage, s2.data.currentContext⟩,
            ⟨.function_ZeroCrossings, s3.data.localData0.timeValue,
              s3.data.currentErrorStage, s3.data.currentContext⟩], e.fn.isCallback = true := by
          intro e he
          simp only [List.mem_cons, List.mem_singleton, List.not_mem_nil, or_false] at he
          rcases he with he | he | he | he <;> subst he <;> rfl
        dsimp only
        cases c4 : cb.function_ZeroCrossings s3.data gout with
        | fault d =>
          rw [c4] at k5
          exact ⟨k5.trans k3, _, l4, hev⟩
        | ok d g =>
          rw [c4] at k5
          exact ⟨k5.trans k3, _, l4, hev⟩

/-- The four calls of the root adapter leave the recorded phase as the callbacks do. -/
theorem evalZeroCrossings_old (cb : Callbacks) (gout : Vec) (s : Sim)
    (h1 : KeepsContext cb.externalInputUpdate) (h2 : KeepsContext cb.input_function)
    (h4 : KeepsContext cb.function_ZeroCrossingsEquations)
    (h6 : ∀ d g, (cb.function_ZeroCrossings d g).state.currentContextOld
      = d.currentContextOld) :
    (evalZeroCrossings cb gout s).state.data.currentContextOld = s.data.currentContextOld := by
  unfold evalZeroCrossings
  cases c1 : s.call .externalInputUpdate cb.externalInputUpdate with
  | fault s1 =>
    show s1.data.currentContextOld = _
    rw [(call_fault c1).1]; exact (h1 s.data).2
  | ok s1 u1 =>
    have k1 : s1.data.currentContextOld = s.data.currentContextOld := by
      rw [(call_ok c1).1]; exact (h1 s.data).2
    dsimp only
    cases c2 : s1.call .input_function cb.input_function with
    | fault s2 =>
      show s2.data.currentContextOld = _
      rw [(call_fault c2).1, (h2 s1.data).2, k1]
    | ok s2 u2 =>
      have k2 : s2.data.currentContextOld = s.data.currentContextOld := by
        rw [(call_ok c2).1, (h2 s1.data).2, k1]
      dsimp only
      cases c3 : s2.call .function_ZeroCrossingsEquations
          cb.function_ZeroCrossingsEquations with
      | fault s3 =>
        show s3.data.currentContextOld = _
        rw [(call_fault c3).1, (h4 s2.data).2, k2]
      | ok s3 u3 =>
        have k3 : s3.data.currentContextOld = s.data.currentContextOld := by
          rw [(call_ok c3).1, (h4 s2.data).2, k2]
        have k6 := h6 s3.data gout
        dsimp only
        cases c4 : cb.function_ZeroCrossings s3.data gout with
        | fault d =>
          rw [c4] at k6
          exact k6.trans k3
        | ok d g =>
          rw [c4] at k6
          exact k6.trans k3

/-- C17 (as the code has it): with callbacks that leave the evaluation context alone,
`residualFunctionIDA` entered in a phase that is neither ALGEBRAIC nor ODE, and
`rootsFunctionIDA` entered in a phase that is neither ALGEBRAIC nor EVENTS, call neither
`setContext` nor `unsetContext`, and the phase after the call (a return, or for the root
adapter a fault) is the phase at entry. Entered in the ODE phase, `residualFunctionIDA` does
not call `setContext`, and on both paths (normal return and caught fault) its last call is the
one call of `unsetContext`, so that the phase afterwards is the recorded phase of the entry.
Entered in the EVENTS phase, `rootsFunctionIDA` does not call `setContext`; when it returns, its
last call is the one call of `unsetContext` and the phase afterwards is the recorded phase of
the entry; when a callback faults, the fault leaves the adapter with no call of `unsetContext`
and the phase still EVENTS. -/
theorem adapters_foreign_phase (m : MODEL) (cb : Callbacks) (time : ℚ)
    (yy yp res gout : Vec) (s : Sim)
    (h1 : KeepsContext cb.externalInputUpdate) (h2 : KeepsContext cb.input_function)
    (h3 : KeepsContext cb.functionODE)
    (h4 : KeepsContext cb.function_ZeroCrossingsEquations)
    (h5 : ∀ d g, (cb.function_ZeroCrossings d g).state.currentContext = d.currentContext) :
    (s.data.currentContext ≠ CONTEXT_ALGEBRAIC → s.data.currentContext ≠ CONTEXT_ODE →
      (residualFunctionIDA m cb time yy yp res s).sim.data.currentContext
        = s.data.currentContext ∧
      ∀ e ∈ (residualFunctionIDA m cb time yy yp res s).sim.log.drop s.log.length,
        e.fn ≠ .unsetContext ∧ ∀ p, e.fn ≠ .setContext p) ∧
    (s.data.currentContext ≠ CONTEXT_ALGEBRAIC → s.data.currentContext ≠ CONTEXT_EVENTS →
      (rootsFunctionIDA m cb time yy yp gout s).state.data.currentContext
        = s.data.currentContext ∧
      ∀ e ∈ (rootsFunctionIDA m cb time yy yp gout s).state.log.drop s.log.length,
        e.fn ≠ .unsetContext ∧ ∀ p, e.fn ≠ .setContext p) ∧
    (s.data.currentContext = CONTEXT_ODE →
      (residualFunctionIDA m cb time yy yp res s).sim.data.currentContext
        = s.data.currentContextOld ∧
      ∃ (pre : List Event) (e : Event),
        (residualFunctionIDA m cb time yy yp res s).sim.log.drop s.log.length = pre ++ [e] ∧
        e.fn = .unsetContext ∧
        ∀ e1 ∈ pre, e1.fn ≠ .unsetContext ∧ ∀ p, e1.fn ≠ .setContext p) ∧
    (s.data.currentContext = CONTEXT_EVENTS →
      ((rootsFunctionIDA m cb time yy yp gout s).isFault = false →
        ((∀ d g, (cb.function_ZeroCrossings d g).state.currentContextOld
            = d.currentContextOld) →
          (rootsFunctionIDA m cb time yy yp gout s).state.data.currentContext
            = s.data.currentContextOld) ∧
        ∃ (pre : List Event) (e : Event),
          (rootsFunctionIDA m cb time yy yp gout s).state.log.drop s.log.length
            = pre ++ [e] ∧
          e.fn = .unsetContext ∧
          ∀ e1 ∈ pre, e1.fn ≠ .unsetContext ∧ ∀ p, e1.fn ≠ .setContext p) ∧
      ((rootsFunctionIDA m cb time yy yp gout s).isFault = true →
        (rootsFunctionIDA m cb time yy yp gout s).state.data.currentContext
          = CONTEXT_EVENTS ∧
        ∀ e ∈ (rootsFunctionIDA m cb time yy yp gout s).state.log.drop s.log.length,
          e.fn ≠ .unsetContext ∧ ∀ p, e.fn ≠ .setContext p)) := by
  refine ⟨?_, ?_, ?_, ?_⟩
  · intro ha ho
    have hctx : (residualEntry time s).data.currentContext = s.data.currentContext := by
      unfold residualEntry
      simp [Sim.enter, ha, DATA.setTime, DATA.setStage]
    have hlog : (residualEntry time s).log = s.log ++ [⟨.residualFunctionIDA,
        s.data.localData0.timeValue, s.data.currentErrorStage, s.data.currentContext⟩] := by
      unfold residualEntry
      simp [Sim.enter, ha]
    have hk := (evalODE_keepsContext cb (residualEntry time s) h1 h2 h3).1
    obtain ⟨evs, hevs, hcb, -⟩ := evalODE_log cb (residualEntry time s)
    rw [hctx] at hk
    rw [hlog] at hevs
    have hsim := residualFunctionIDA_sim m cb time yy yp res s
    dsimp only at hsim
    have hne : ¬ (((evalODE cb (residualEntry time s)).state.data.setStage
        s.data.currentErrorStage).setTime s.data.localData0.timeValue).currentContext
          = CONTEXT_ODE := by
      show ¬ (evalODE cb (residualEntry time s)).state.data.currentContext = CONTEXT_ODE
      rw [hk]; exact ho
    rw [if_neg hne] at hsim
    rw [hsim]
    refine ⟨hk, ?_⟩
    intro e he
    change e ∈ List.drop s.log.length (evalODE cb (residualEntry time s)).state.log at he
    rw [hevs, List.append_assoc, List.drop_left] at he
    simp only [List.singleton_append, List.mem_cons] at he
    rcases he with he | he | he
    · subst he
      exact ⟨by simp, by simp⟩
    · subst he
      exact ⟨by simp, by simp⟩
    · exact isCallback_not_context (hcb e he)
  · intro ha ho
    have hctx : (rootsEntry time s).data.currentContext = s.data.currentContext := by
      unfold rootsEntry
      simp [Sim.enter, ha, DATA.setTime, DATA.setStage]
    have hlog : (rootsEntry time s).log = s.log ++ [⟨.rootsFunctionIDA,
        s.data.localData0.timeValue, s.data.currentErrorStage, s.data.currentContext⟩] := by
      unfold rootsEntry
      simp [Sim.enter, ha]
    obtain ⟨hk, evs, hevs, hcb⟩ := evalZeroCrossings_facts cb gout (rootsEntry time s)
      h1 h2 h4 h5
    rw [hctx] at hk
    rw [hlog] at hevs
    have hmem : ∀ e ∈ List.drop s.log.length
        (evalZeroCrossings cb gout (rootsEntry time s)).state.log,
        e.fn ≠ .unsetContext ∧ ∀ p, e.fn ≠ .setContext p := by
      intro e he
      rw [hevs, List.append_assoc, List.drop_left] at he
      simp only [List.singleton_append, List.mem_cons] at he
      rcases he with he | he
      · subst he
        exact ⟨by simp, by simp⟩
      · exact isCallback_not_context (hcb e he)
    have heq : rootsFunctionIDA m cb time yy yp gout s =
        match evalZeroCrossings cb gout (rootsEntry time s) with
        | .fault s1 => .fault s1
        | .ok s1 g =>
          .ok (if ((s1.data.setStage s.data.currentErrorStage).setTime
              s.data.localData0.timeValue).currentContext = CONTEXT_EVENTS
            then unsetContext (Sim.mk ((s1.data.setStage s.data.currentErrorStage).setTime
              s.data.localData0.timeValue) s1.log)
            else Sim.mk ((s1.data.setStage s.data.currentErrorStage).setTime
              s.data.localData0.timeValue) s1.log) (g, 0) := by
      unfold rootsFunctionIDA rootsEntry
      simp [Sim.enter, ha, DATA.setTime, DATA.setStage]
    rw [heq]
    cases c : evalZeroCrossings cb gout (rootsEntry time s) with
    | fault s1 =>
      rw [c] at hk hmem
      exact ⟨hk, hmem⟩
    | ok s1 g =>
      rw [c] at hk hmem
      change s1.data.currentContext = _ at hk
      dsimp only
      have hne : ¬ ((s1.data.setStage s.data.currentErrorStage).setTime
          s.data.localData0.timeValue).currentContext = CONTEXT_EVENTS := by
        show ¬ s1.data.currentContext = CONTEXT_EVENTS
        rw [hk]; exact ho
      rw [if_neg hne]
      exact ⟨hk, hmem⟩
  · intro ho
    have ha : s.data.currentContext ≠ CONTEXT_ALGEBRAIC := by rw [ho]; decide
    have hctx : (residualEntry time s).data.currentContext = CONTEXT_ODE := by
      unfold residualEntry
      simp [Sim.enter, ha, ho, DATA.setTime, DATA.setStage]
    have hold : (residualEntry time s).data.currentContextOld = s.data.currentContextOld := by
      unfold residualEntry
      simp [Sim.enter, ha, DATA.setTime, DATA.setStage]
    have hlog : (residualEntry time s).log = s.log ++ [⟨.residualFunctionIDA,
        s.data.localData0.timeValue, s.data.currentErrorStage, s.data.currentContext⟩] := by
      unfold residualEntry
      simp [Sim.enter, ha]
    have hk := evalODE_keepsContext cb (residualEntry time s) h1 h2 h3
    rw [hctx, hold] at hk
    obtain ⟨evs, hevs, hcb, -⟩ := evalODE_log cb (residualEntry time s)
    rw [hlog] at hevs
    have hsim := residualFunctionIDA_sim m cb time yy yp res s
    dsimp only at hsim
    have hpos : (((evalODE cb (residualEntry time s)).state.data.setStage
        s.data.currentErrorStage).setTime s.data.localData0.timeValue).currentContext
          = CONTEXT_ODE := hk.1
    rw [if_pos hpos] at hsim
    rw [hsim]
    refine ⟨hk.2, ⟨.residualFunctionIDA, s.data.localData0.timeValue,
        s.data.currentErrorStage, s.data.currentContext⟩ ::
      ⟨.externalInputUpdate, (residualEntry time s).data.localData0.timeValue,
        (residualEntry time s).data.currentErrorStage,
        (residualEntry time s).data.currentContext⟩ :: evs,
      ⟨.unsetContext, s.data.localData0.timeValue, s.data.currentErrorStage,
        (evalODE cb (residualEntry time s)).state.data.currentContext⟩, ?_, rfl, ?_⟩
    · show List.drop s.log.length ((evalODE cb (residualEntry time s)).state.log ++ _) = _
      rw [hevs, List.append_assoc, List.append_assoc, List.drop_left]
      rfl
    · intro e he
      simp only [List.mem_cons] at he
      rcases he with he | he | he
      · subst he
        exact ⟨by simp, by simp⟩
      · subst he
        exact ⟨by simp, by simp⟩
      · exact isCallback_not_context (hcb e he)
  · intro ho
    have ha : s.data.currentContext ≠ CONTEXT_ALGEBRAIC := by rw [ho]; decide
    have hctx : (rootsEntry time s).data.currentContext = CONTEXT_EVENTS := by
      unfold rootsEntry
      simp [Sim.enter, ha, ho, DATA.setTime, DATA.setStage]
    have hold : (rootsEntry time s).data.currentContextOld = s.data.currentContextOld := by
      unfold rootsEntry
      simp [Sim.enter, ha, DATA.setTime, DATA.setStage]
    have hlog : (rootsEntry time s).log = s.log ++ [⟨.rootsFunctionIDA,
        s.data.localData0.timeValue, s.data.currentErrorStage, s.data.currentContext⟩] := by
      unfold rootsEntry
      simp [Sim.enter, ha]
    obtain ⟨hk, evs, hevs, hcb⟩ := evalZeroCrossings_facts cb gout (rootsEntry time s)
      h1 h2 h4 h5
    rw [hctx] at hk
    rw [hlog] at hevs
    have hpre : ∀ e ∈ (⟨.rootsFunctionIDA, s.data.localData0.timeValue,
        s.data.currentErrorStage, s.data.currentContext⟩ : Event) :: evs,
        e.fn ≠ .unsetContext ∧ ∀ p, e.fn ≠ .setContext p := by
      intro e he
      simp only [List.mem_cons] at he
      rcases he with he | he
      · subst he
        exact ⟨by simp, by simp⟩
      · exact isCallback_not_context (hcb e he)
    have heq : rootsFunctionIDA m cb time yy yp gout s =
        match evalZeroCrossings cb gout (rootsEntry time s) with
        | .fault s1 => .fault s1
        | .ok s1 g =>
          .ok (if ((s1.data.setStage s.data.currentErrorStage).setTime
              s.data.localData0.timeValue).currentContext = CONTEXT_EVENTS
            then unsetContext (Sim.mk ((s1.data.setStage s.data.currentErrorStage).setTime
              s.data.localData0.timeValue) s1.log)
            else Sim.mk ((s1.data.setStage s.data.currentErrorStage).setTime
              s.data.localData0.timeValue) s1.log) (g, 0) := by
      unfold rootsFunctionIDA rootsEntry
      simp [Sim.enter, ha, DATA.setTime, DATA.setStage]
    rw [heq]
    cases c : evalZeroCrossings cb gout (rootsEntry time s) with
    | fault s1 =>
      rw [c] at hk hevs
      refine ⟨fun hf => (by cases hf), fun _ => ⟨hk, ?_⟩⟩
      intro e he
      change e ∈ List.drop s.log.length s1.log at he
      change s1.log = _ at hevs
      rw [hevs, List.append_assoc, List.drop_left] at he
      exact hpre e he
    | ok s1 g =>
      rw [c] at hk hevs
      change s1.data.currentContext = _ at hk
      change s1.log = _ at hevs
      dsimp only
      have hpos : ((s1.data.setStage s.data.currentErrorStage).setTime
          s.data.localData0.timeValue).currentContext = CONTEXT_EVENTS := hk
      rw [if_pos hpos]
      refine ⟨fun _ => ⟨?_, ⟨.rootsFunctionIDA, s.data.localData0.timeValue,
          s.data.currentErrorStage, s.data.currentContext⟩ :: evs,
        ⟨.unsetContext, s.data.localData0.timeValue, s.data.currentErrorStage,
          s1.data.currentContext⟩, ?_, rfl, hpre⟩, fun hf => by cases hf⟩
      · intro h6
        have hko := evalZeroCrossings_old cb gout (rootsEntry time s) h1 h2 h4 h6
        rw [c, hold] at hko
        exact hko
      · show List.drop s.log.length (s1.log ++ _) = _
        rw [hevs, List.append_assoc, List.append_assoc, List.drop_left]
        rfl

/-- C17, at the decay model entered in the JACOBIAN phase: both adapters return in the
JACOBIAN phase and the trace has the adapter and its callbacks only; and at the decay model
whose `function_ZeroCrossings` fails an assertion, entered in the EVENTS phase: the fault
leaves `rootsFunctionIDA` in the EVENTS phase. -/
theorem adapters_foreign_phase_witness :
    KeepsContext decay.externalInputUpdate ∧ KeepsContext decay.functionODE ∧
    (residualFunctionIDA model2 decay 1 (fun _ => 0) (fun _ => 0) (fun _ => 0)
      simJAC).sim.data.currentContext = CONTEXT_JACOBIAN ∧
    (rootsFunctionIDA model2 decay 1 (fun _ => 0) (fun _ => 0) (fun _ => 0)
      simJAC).state.data.currentContext = CONTEXT_JACOBIAN ∧
    ((residualFunctionIDA model2 decay 1 (fun _ => 0) (fun _ => 0) (fun _ => 0)
      simJAC).sim.log.map (fun e => e.fn)) = [.residualFunctionIDA, .externalInputUpdate,
        .input_function, .functionODE] ∧
    (residualFunctionIDA model2 decay 1 (fun _ => 0) (fun _ => 0) (fun _ => 0)
      simODE).sim.data.currentContext = CONTEXT_ALGEBRAIC ∧
    (rootsFunctionIDA model2 decayRootAssert 1 (fun _ => 0) (fun _ => 0) (fun _ => 0)
      simEVENTS).isFault = true ∧
    (rootsFunctionIDA model2 decayRootAssert 1 (fun _ => 0) (fun _ => 0) (fun _ => 0)
      simEVENTS).state.data.currentContext = CONTEXT_EVENTS ∧
    ((rootsFunctionIDA model2 decayRootAssert 1 (fun _ => 0) (fun _ => 0) (fun _ => 0)
      simEVENTS).state.log.map (fun e => e.fn)) = [.rootsFunctionIDA, .externalInputUpdate,
        .input_function, .function_ZeroCrossingsEquations, .function_ZeroCrossings] :=
  have h := adapters_foreign_phase model2 decay 1 (fun _ => 0) (fun _ => 0) (fun _ => 0)
    (fun _ => 0) simJAC (fun _ => ⟨rfl, rfl⟩) (fun _ => ⟨rfl, rfl⟩) (fun _ => ⟨rfl, rfl⟩)
    (fun _ => ⟨rfl, rfl⟩) (fun _ _ => rfl)
  have ho := adapters_foreign_phase model2 decay 1 (fun _ => 0) (fun _ => 0) (fun _ => 0)
    (fun _ => 0) simODE (fun _ => ⟨rfl, rfl⟩) (fun _ => ⟨rfl, rfl⟩) (fun _ => ⟨rfl, rfl⟩)
    (fun _ => ⟨rfl, rfl⟩) (fun _ _ => rfl)
  have he := adapters_foreign_phase model2 decayRootAssert 1 (fun _ => 0) (fun _ => 0)
    (fun _ => 0) (fun _ => 0) simEVENTS (fun _ => ⟨rfl, rfl⟩) (fun _ => ⟨rfl, rfl⟩)
    (fun _ => ⟨rfl, rfl⟩) (fun _ => ⟨rfl, rfl⟩) (fun _ _ => rfl)
  ⟨fun _ => ⟨rfl, rfl⟩, fun _ => ⟨rfl, rfl⟩, (h.1 (by decide) (by decide)).1,
    (h.2.1 (by decide) (by decide)).1, rfl, (ho.2.2.1 rfl).1, rfl,
    ((he.2.2.2 rfl).2 rfl).1, rfl⟩

/-- C17 as stated fails: entered in the ODE phase (recorded phase ALGEBRAIC),
`residualFunctionIDA` does not call `setContext` but calls `unsetContext` at the end and
returns in the ALGEBRAIC phase; so does `rootsFunctionIDA` entered in the EVENTS phase. -/
theorem adapters_foreign_phase_counterexample :
    simODE.data.currentContext = CONTEXT_ODE ∧
    (residualFunctionIDA model2 decay 1 (fun _ => 0) (fun _ => 0) (fun _ => 0)
      simODE).sim.data.currentContext = CONTEXT_ALGEBRAIC ∧
    ((residualFunctionIDA model2 decay 1 (fun _ => 0) (fun _ => 0) (fun _ => 0)
      simODE).sim.log.map (fun e => e.fn)) = [.residualFunctionIDA, .externalInputUpdate,
        .input_function, .functionODE, .unsetContext] ∧
    simEVENTS.data.currentContext = CONTEXT_EVENTS ∧
    (rootsFunctionIDA model2 decay 1 (fun _ => 0) (fun _ => 0) (fun _ => 0)
      simEVENTS).state.data.currentContext = CONTEXT_ALGEBRAIC ∧
    ((rootsFunctionIDA model2 decay 1 (fun _ => 0) (fun _ => 0) (fun _ => 0)
      simEVENTS).state.log.map (fun e => e.fn)) = [.rootsFunctionIDA, .externalInputUpdate,
        .input_function, .function_ZeroCrossingsEquations, .function_ZeroCrossings,
        .unsetContext] :=
  ⟨rfl, rfl, rfl, rfl, rfl, rfl⟩

/-! ## Jacobian assembly: the loops -/

theorem perturbation_congr (dh h : ℚ) (y y' yp ew : Vec) (ii : Nat) (hy : y ii = y' ii) :
    perturbation dh h y yp ew ii = perturbation dh h y' yp ew ii := by
  unfold perturbation
  rw [hy]

/-- The loop of lines 601-615: each column of the color gets its increment, its value is
saved and the reciprocal of the increment stored; nothing else changes. -/
theorem perturbLoop_spec (sp : SPARSE_PATTERN) (c : Nat) (h : ℚ) (yp : Vec) (w : JacState)
    (K : Nat) :
    (forLoop (fun ii w => if colorIs sp ii c then perturbColumn h yp ii w else w) K w).Jac
      = w.Jac ∧
    (forLoop (fun ii w => if colorIs sp ii c then perturbColumn h yp ii w else w)
      K w).ida.sqrteps = w.ida.sqrteps ∧
    (forLoop (fun ii w => if colorIs sp ii c then perturbColumn h yp ii w else w)
      K w).ida.errwgt = w.ida.errwgt ∧
    (forLoop (fun ii w => if colorIs sp ii c then perturbColumn h yp ii w else w)
      K w).ida.newdelta = w.ida.newdelta ∧
    (∀ ii, (forLoop (fun ii w => if colorIs sp ii c then perturbColumn h yp ii w else w)
      K w).states ii = if ii < K ∧ colorIs sp ii c = true
        then w.states ii + perturbation w.ida.sqrteps h w.states yp w.ida.errwgt ii
        else w.states ii) ∧
    (∀ ii, (forLoop (fun ii w => if colorIs sp ii c then perturbColumn h yp ii w else w)
      K w).ida.ysave ii = if ii < K ∧ colorIs sp ii c = true
        then w.states ii else w.ida.ysave ii) ∧
    (∀ ii, (forLoop (fun ii w => if colorIs sp ii c then perturbColumn h yp ii w else w)
      K w).ida.delta_hh ii = if ii < K ∧ colorIs sp ii c = true
        then 1 / perturbation w.ida.sqrteps h w.states yp w.ida.errwgt ii
        else w.ida.delta_hh ii) := by
  induction K with
  | zero =>
    refine ⟨rfl, rfl, rfl, rfl, ?_, ?_, ?_⟩ <;> intro ii <;> simp [forLoop]
  | succ K ih =>
    obtain ⟨i1, i2, i3, i4, i5, i6, i7⟩ := ih
    rw [forLoop_succ]
    by_cases hc : colorIs sp K c = true
    · rw [if_pos hc]
      have hK : (forLoop (fun ii w => if colorIs sp ii c then perturbColumn h yp ii w else w)
          K w).states K = w.states K := by
        rw [i5 K, if_neg (by omega)]
      have hp : perturbation (forLoop (fun ii w => if colorIs sp ii c
            then perturbColumn h yp ii w else w) K w).ida.sqrteps h
          (forLoop (fun ii w => if colorIs sp ii c then perturbColumn h yp ii w else w)
            K w).states yp
          (forLoop (fun ii w => if colorIs sp ii c then perturbColumn h yp ii w else w)
            K w).ida.errwgt K = perturbation w.ida.sqrteps h w.states yp w.ida.errwgt K := by
        rw [i2, i3]
        exact perturbation_congr _ _ _ _ _ _ _ hK
      refine ⟨i1, i2, i3, i4, ?_, ?_, ?_⟩
      · intro ii
        show Function.update _ K _ ii = _
        by_cases hii : ii = K
        · subst hii
          rw [Function.update_same, if_pos ⟨by omega, hc⟩]
          change (forLoop _ ii w).states ii + perturbation _ h (forLoop _ ii w).states yp _ ii
            = _
          rw [hp, hK]
        · rw [Function.update_noteq hii]
          change (forLoop _ K w).states ii = _
          rw [i5 ii]
          have : (ii < K + 1 ∧ colorIs sp ii c = true) ↔ (ii < K ∧ colorIs sp ii c = true) := by
            constructor
            · rintro ⟨a, b⟩; exact ⟨by omega, b⟩
            · rintro ⟨a, b⟩; exact ⟨by omega, b⟩
          simp only [this]
      · intro ii
        show Function.update _ K _ ii = _
        by_cases hii : ii = K
        · subst hii
          rw [Function.update_same, if_pos ⟨by omega, hc⟩]
          exact hK
        · rw [Function.update_noteq hii, i6 ii]
          have : (ii < K + 1 ∧ colorIs sp ii c = true) ↔ (ii < K ∧ colorIs sp ii c = true) := by
            constructor
            · rintro ⟨a, b⟩; exact ⟨by omega, b⟩
            · rintro ⟨a, b⟩; exact ⟨by omega, b⟩
          simp only [this]
      · intro ii
        show Function.update _ K _ ii = _
        by_cases hii : ii = K
        · subst hii
          rw [Function.update_same, if_pos ⟨by omega, hc⟩]
          change 1 / perturbation _ h (forLoop _ ii w).states yp _ ii = _
          rw [hp]
        · rw [Function.update_noteq hii, i7 ii]
          have : (ii < K + 1 ∧ colorIs sp ii c = true) ↔ (ii < K ∧ colorIs sp ii c = true) := by
            constructor
            · rintro ⟨a, b⟩; exact ⟨by omega, b⟩
            · rintro ⟨a, b⟩; exact ⟨by omega, b⟩
          simp only [this]
    · rw [if_neg hc]
      have hstep : ∀ ii, (ii < K + 1 ∧ colorIs sp ii c = true) ↔
          (ii < K ∧ colorIs sp ii c = true) := by
        intro ii
        constructor
        · rintro ⟨a, b⟩
          refine ⟨?_, b⟩
          by_contra hlt
          have : ii = K := by omega
          subst this
          exact hc b
        · rintro ⟨a, b⟩; exact ⟨by omega, b⟩
      refine ⟨i1, i2, i3, i4, ?_, ?_, ?_⟩
      · intro ii; rw [i5 ii]; simp only [hstep]
      · intro ii; rw [i6 ii]; simp only [hstep]
      · intro ii; rw [i7 ii]; simp only [hstep]

/-- A loop of assignments into column `col`, the value depending on the row only. -/
theorem setLoop_apply (g : Nat → Nat) (col : Nat) (val : Nat → ℚ) (cnt : Nat) (J : DlsMat)
    (l j : Nat) :
    forLoop (fun t J => DlsMat.set J (g t) col (val (g t))) cnt J l j =
      if j = col ∧ ∃ t, t < cnt ∧ g t = l then val l else J l j := by
  induction cnt with
  | zero => simp [forLoop]
  | succ k ih =>
    rw [forLoop_succ]
    show (if l = g k ∧ j = col then val (g k) else _) = _
    by_cases h : l = g k ∧ j = col
    · obtain ⟨rfl, rfl⟩ := h
      rw [if_pos ⟨rfl, rfl⟩, if_pos ⟨rfl, k, by omega, rfl⟩]
    · rw [if_neg h, ih]
      by_cases h2 : j = col ∧ ∃ t, t < k ∧ g t = l
      · obtain ⟨hj, t, ht, hg⟩ := h2
        rw [if_pos ⟨hj, t, ht, hg⟩, if_pos ⟨hj, t, by omega, hg⟩]
      · rw [if_neg h2, if_neg]
        rintro ⟨hj, t, ht, hg⟩
        by_cases htk : t = k
        · subst htk
          exact h ⟨hg.symm, hj⟩
        · exact h2 ⟨hj, t, by omega, hg⟩

theorem mem_rowsOf (sp : SPARSE_PATTERN) (ii l : Nat) :
    l ∈ rowsOf sp ii ↔
      ∃ t, t < sp.leadindex ii - colStart sp ii ∧ sp.index (colStart sp ii + t) = l := by
  unfold rowsOf
  simp [List.mem_map, List.mem_range]

/-- Lines 625-635 for one column: the rows listed for it get the scaled difference, and the
column is restored to the saved value. -/
theorem fillColumn_spec (sp : SPARSE_PATTERN) (delta : Vec) (ii : Nat) (w : JacState) :
    (fillColumn sp delta ii w).ida = w.ida ∧
    (fillColumn sp delta ii w).states = Function.update w.states ii (w.ida.ysave ii) ∧
    ∀ l j, (fillColumn sp delta ii w).Jac l j =
      if j = ii ∧ l ∈ rowsOf sp ii
        then (w.ida.newdelta l - delta l) * w.ida.delta_hh ii else w.Jac l j := by
  refine ⟨rfl, rfl, ?_⟩
  intro l j
  show forLoop _ _ w.Jac l j = _
  rw [setLoop_apply (fun t => sp.index (colStart sp ii + t)) ii
    (fun l => (w.ida.newdelta l - delta l) * w.ida.delta_hh ii)]
  simp only [mem_rowsOf]

/-- The loop of lines 621-637: the columns of the color are filled and restored. -/
theorem fillLoop_spec (sp : SPARSE_PATTERN) (c : Nat) (delta : Vec) (w : JacState)
    (K : Nat) :
    (forLoop (fun ii w => if colorIs sp ii c then fillColumn sp delta ii w else w) K w).ida
      = w.ida ∧
    (∀ ii, (forLoop (fun ii w => if colorIs sp ii c then fillColumn sp delta ii w else w)
      K w).states ii = if ii < K ∧ colorIs sp ii c = true
        then w.ida.ysave ii else w.states ii) ∧
    (∀ l j, (forLoop (fun ii w => if colorIs sp ii c then fillColumn sp delta ii w else w)
      K w).Jac l j = if (j < K ∧ colorIs sp j c = true) ∧ l ∈ rowsOf sp j
        then (w.ida.newdelta l - delta l) * w.ida.delta_hh j else w.Jac l j) := by
  induction K with
  | zero =>
    refine ⟨rfl, ?_, ?_⟩
    · intro ii; simp [forLoop]
    · intro l j; simp [forLoop]
  | succ K ih =>
    obtain ⟨i1, i2, i3⟩ := ih
    rw [forLoop_succ]
    by_cases hc : colorIs sp K c = true
    · rw [if_pos hc]
      obtain ⟨f1, f2, f3⟩ := fillColumn_spec sp delta K
        (forLoop (fun ii w => if colorIs sp ii c then fillColumn sp delta ii w else w) K w)
      refine ⟨f1.trans i1, ?_, ?_⟩
      · intro ii
        rw [f2]
        by_cases hii : ii = K
        · subst hii
          rw [Function.update_same, if_pos ⟨by omega, hc⟩, i1]
        · rw [Function.update_noteq hii, i2 ii]
          have : (ii < K + 1 ∧ colorIs sp ii c = true) ↔ (ii < K ∧ colorIs sp ii c = true) := by
            constructor
            · rintro ⟨a, b⟩; exact ⟨by omega, b⟩
            · rintro ⟨a, b⟩; exact ⟨by omega, b⟩
          simp only [this]
      · intro l j
        rw [f3, i1]
        by_cases hj : j = K
        · subst hj
          by_cases hl : l ∈ rowsOf sp j
          · rw [if_pos ⟨rfl, hl⟩, if_pos ⟨⟨by omega, hc⟩, hl⟩]
          · rw [if_neg (fun x => hl x.2), if_neg (fun x => hl x.2), i3,
              if_neg (fun x => hl x.2)]
        · rw [if_neg (fun x => hj x.1), i3]
          have : ((j < K + 1 ∧ colorIs sp j c = true) ∧ l ∈ rowsOf sp j) ↔
              ((j < K ∧ colorIs sp j c = true) ∧ l ∈ rowsOf sp j) := by
            constructor
            · rintro ⟨⟨a, b⟩, d⟩; exact ⟨⟨by omega, b⟩, d⟩
            · rintro ⟨⟨a, b⟩, d⟩; exact ⟨⟨by omega, b⟩, d⟩
          simp only [this]
    · rw [if_neg hc]
      have hstep : ∀ ii, (ii < K + 1 ∧ colorIs sp ii c = true) ↔
          (ii < K ∧ colorIs sp ii c = true) := by
        intro ii
        constructor
        · rintro ⟨a, b⟩
          refine ⟨?_, b⟩
          by_contra hlt
          have : ii = K := by omega
          subst this
          exact hc b
        · rintro ⟨a, b⟩; exact ⟨by omega, b⟩
      refine ⟨i1, ?_, ?_⟩
      · intro ii; rw [i2 ii]; simp only [hstep]
      · intro l j; rw [i3 l j]; simp only [hstep]

/-- The residual at the perturbed state: only `newdelta` and the simulation state change, the
states as the residual evaluation leaves them. -/
theorem evalPerturbed_spec (m : MODEL) (cb : Callbacks) (tt : ℚ) (yp : Vec) (w : JacState) :
    (evalPerturbed m cb tt yp w).Jac = w.Jac ∧
    (evalPerturbed m cb tt yp w).ida.sqrteps = w.ida.sqrteps ∧
    (evalPerturbed m cb tt yp w).ida.errwgt = w.ida.errwgt ∧
    (evalPerturbed m cb tt yp w).ida.ysave = w.ida.ysave ∧
    (evalPerturbed m cb tt yp w).ida.delta_hh = w.ida.delta_hh ∧
    (evalPerturbed m cb tt yp w).ida.newdelta =
      (residualFunctionIDA m cb tt w.states yp w.ida.newdelta w.sim).res ∧
    (evalPerturbed m cb tt yp w).states =
      (residualFunctionIDA m cb tt w.states yp w.ida.newdelta w.sim).sim.data.localData0.realVars
    := by
  refine ⟨rfl, rfl, rfl, rfl, rfl, rfl, ?_⟩
  unfold evalPerturbed increaseJacContext JacState.states
  dsimp only
  split <;> rfl

/-! ## Jacobian assembly: the state vector -/

theorem setContext_realVars (s : Sim) (p : Context) :
    (setContext s p).data.localData0 = s.data.localData0 := by
  unfold setContext enterPhase
  dsimp only
  split <;> rfl

/-- One color leaves the states as they were, when the residual evaluation does. -/
theorem colorStep_states (m : MODEL) (cb : Callbacks) (tt h : ℚ) (yp rr : Vec) (c : Nat)
    (w : JacState)
    (hres : ∀ (s : Sim) (yy nd : Vec) (i : Nat), i < m.nStates →
      (residualFunctionIDA m cb tt yy yp nd s).sim.data.localData0.realVars i =
        s.data.localData0.realVars i)
    (i : Nat) (hi : i < m.nStates) :
    (colorStep m cb tt h yp rr c w).states i = w.states i := by
  unfold colorStep
  dsimp only
  obtain ⟨-, -, -, -, a5, a6, -⟩ := perturbLoop_spec m.jacA.sparsePattern c h yp w
    m.jacA.sizeCols
  obtain ⟨-, -, -, e4, -, -, e7⟩ := evalPerturbed_spec m cb tt yp
    (forLoop (fun ii w => if colorIs m.jacA.sparsePattern ii c
      then perturbColumn h yp ii w else w) m.jacA.sizeCols w)
  obtain ⟨-, b2, -⟩ := fillLoop_spec m.jacA.sparsePattern c rr
    (evalPerturbed m cb tt yp (forLoop (fun ii w => if colorIs m.jacA.sparsePattern ii c
      then perturbColumn h yp ii w else w) m.jacA.sizeCols w)) m.jacA.sizeCols
  rw [b2 i, e4, e7, hres _ _ _ i hi]
  change (if _ then _ else (forLoop _ m.jacA.sizeCols w).states i) = _
  rw [a5 i, a6 i]
  split_ifs <;> rfl

theorem setState_realVars (s : Sim) (i : Nat) (v : ℚ) :
    (s.setState i v).data.localData0.realVars =
      Function.update s.data.localData0.realVars i v := rfl

/-- One column of the dense pass: the state after it, and the matrix. -/
theorem denseStep_spec (m : MODEL) (cb : Callbacks) (tt h : ℚ) (yp rr : Vec) (k : Nat)
    (w : JacState) :
    (denseStep m cb tt h yp rr k w).states = Function.update
      (evalPerturbed m cb tt yp ⟨w.sim.setState k (w.states k +
        perturbation w.ida.sqrteps h w.states yp w.ida.errwgt k), w.ida, w.Jac⟩).states
      k (w.states k) ∧
    (denseStep m cb tt h yp rr k w).ida = (evalPerturbed m cb tt yp
      ⟨w.sim.setState k (w.states k +
        perturbation w.ida.sqrteps h w.states yp w.ida.errwgt k), w.ida, w.Jac⟩).ida ∧
    ∀ l j, (denseStep m cb tt h yp rr k w).Jac l j =
      if j = k ∧ l < m.nStates
        then ((evalPerturbed m cb tt yp ⟨w.sim.setState k (w.states k +
          perturbation w.ida.sqrteps h w.states yp w.ida.errwgt k), w.ida,
            w.Jac⟩).ida.newdelta l - rr l) *
          (1 / perturbation w.ida.sqrteps h w.states yp w.ida.errwgt k)
        else w.Jac l j := by
  refine ⟨rfl, rfl, ?_⟩
  intro l j
  have hs := setLoop_apply (fun t => t) k (fun l => ((evalPerturbed m cb tt yp
    ⟨w.sim.setState k (w.states k + perturbation w.ida.sqrteps h w.states yp w.ida.errwgt k),
      w.ida, w.Jac⟩).ida.newdelta l - rr l) *
      (1 / perturbation w.ida.sqrteps h w.states yp w.ida.errwgt k)) m.nStates w.Jac l j
  have hex : (∃ t, t < m.nStates ∧ t = l) ↔ l < m.nStates := by
    constructor
    · rintro ⟨t, ht, rfl⟩; exact ht
    · intro hl; exact ⟨l, hl, rfl⟩
  simp only [hex] at hs
  exact hs

/-- One column of the dense pass leaves the states as they were, when the residual evaluation
does. -/
theorem denseStep_states (m : MODEL) (cb : Callbacks) (tt h : ℚ) (yp rr : Vec) (k : Nat)
    (w : JacState)
    (hres : ∀ (s : Sim) (yy nd : Vec) (i : Nat), i < m.nStates →
      (residualFunctionIDA m cb tt yy yp nd s).sim.data.localData0.realVars i =
        s.data.localData0.realVars i)
    (i : Nat) (hi : i < m.nStates) :
    (denseStep m cb tt h yp rr k w).states i = w.states i := by
  rw [(denseStep_spec m cb tt h yp rr k w).1]
  by_cases hik : i = k
  · subst hik
    rw [Function.update_same]
  · rw [Function.update_noteq hik, (evalPerturbed_spec m cb tt yp _).2.2.2.2.2.2,
      hres _ _ _ i hi, setState_realVars, Function.update_noteq hik]
    rfl

theorem jacEntry_spec (w : JacState) :
    (jacEntry w).states = w.states ∧ (jacEntry w).Jac = w.Jac ∧
    (jacEntry w).ida.sqrteps = w.ida.sqrteps ∧ (jacEntry w).ida.errwgt = w.ida.ida_mem.ewt := by
  refine ⟨?_, rfl, rfl, rfl⟩
  show (setContext w.sim CONTEXT_JACOBIAN).data.localData0.realVars = _
  rw [setContext_realVars]; rfl

/-- C16: when the residual evaluation does not modify the states `i < nStates`, the colored
pass `jacOwnNumColoredIDA` (for every sparsity pattern and coloring, valid or not) and the
dense pass `jacOwnNumIDA` leave every state as it was before the pass. -/
theorem jacobian_restores_states (m : MODEL) (cb : Callbacks) (tt : ℚ) (yp rr : Vec)
    (w : JacState)
    (hres : ∀ (s : Sim) (yy nd : Vec) (i : Nat), i < m.nStates →
      (residualFunctionIDA m cb tt yy yp nd s).sim.data.localData0.realVars i =
        s.data.localData0.realVars i) :
    (∀ i, i < m.nStates → (jacOwnNumColoredIDA m cb tt yp rr w).1.states i = w.states i) ∧
    (∀ i, i < m.nStates → (jacOwnNumIDA m cb tt yp rr w).1.states i = w.states i) := by
  have h0 : ∀ i, (jacEntry w).states i = w.states i := by
    intro i
    rw [(jacEntry_spec w).1]
  refine ⟨?_, ?_⟩
  · intro i hi
    show (forLoop (colorStep m cb tt w.ida.ida_mem.hh yp rr) m.jacA.sparsePattern.maxColors
      (jacEntry w)).states i = _
    have := forLoop_preserves (fun v : JacState => ∀ i, i < m.nStates → v.states i = w.states i)
      (colorStep m cb tt w.ida.ida_mem.hh yp rr)
      (fun c v hv i hi => (colorStep_states m cb tt _ yp rr c v hres i hi).trans (hv i hi))
      m.jacA.sparsePattern.maxColors _ (fun i _ => h0 i)
    exact this i hi
  · intro i hi
    show (forLoop (denseStep m cb tt w.ida.ida_mem.hh yp rr) m.nStates
      (jacEntry w)).states i = _
    have := forLoop_preserves (fun v : JacState => ∀ i, i < m.nStates → v.states i = w.states i)
      (denseStep m cb tt w.ida.ida_mem.hh yp rr)
      (fun c v hv i hi => (denseStep_states m cb tt _ yp rr c v hres i hi).trans (hv i hi))
      m.nStates _ (fun i _ => h0 i)
    exact this i hi

/-- A relation that every callback of the try block respects holds across the block. -/
theorem evalODE_rel (R : DATA → DATA → Prop) (htrans : ∀ a b c, R a b → R b c → R a c)
    (cb : Callbacks) (s : Sim) (h1 : ∀ d, R d (cb.externalInputUpdate d).state)
    (h2 : ∀ d, R d (cb.input_function d).state) (h3 : ∀ d, R d (cb.functionODE d).state) :
    R s.data (evalODE cb s).state.data := by
  unfold evalODE
  cases c1 : s.call .externalInputUpdate cb.externalInputUpdate with
  | fault s1 =>
    have e1 := (call_fault c1).1
    show R s.data s1.data
    rw [e1]; exact h1 _
  | ok s1 u1 =>
    have e1 := (call_ok c1).1
    have r1 : R s.data s1.data := by rw [e1]; exact h1 _
    dsimp only
    cases c2 : s1.call .input_function cb.input_function with
    | fault s2 =>
      have e2 := (call_fault c2).1
      show R s.data s2.data
      exact htrans _ _ _ r1 (by rw [e2]; exact h2 _)
    | ok s2 u2 =>
      have e2 := (call_ok c2).1
      have r2 : R s.data s2.data := htrans _ _ _ r1 (by rw [e2]; exact h2 _)
      show R s.data (s2.call .functionODE cb.functionODE).state.data
      rw [call_state_data]
      exact htrans _ _ _ r2 (h3 _)

/-- Callbacks that keep the states make a residual evaluation that keeps them. -/
theorem residual_keeps_states (m : MODEL) (cb : Callbacks) (tt : ℚ) (yp : Vec)
    (h1 : KeepsStates m.nStates cb.externalInputUpdate)
    (h2 : KeepsStates m.nStates cb.input_function)
    (h3 : KeepsStates m.nStates cb.functionODE)
    (s : Sim) (yy nd : Vec) (i : Nat) (hi : i < m.nStates) :
    (residualFunctionIDA m cb tt yy yp nd s).sim.data.localData0.realVars i =
      s.data.localData0.realVars i := by
  have hr := evalODE_rel (fun a b => ∀ i, i < m.nStates →
      b.localData0.realVars i = a.localData0.realVars i)
    (fun a b c hab hbc i hi => (hbc i hi).trans (hab i hi)) cb (residualEntry tt s)
    (fun d i hi => h1 d i hi) (fun d i hi => h2 d i hi) (fun d i hi => h3 d i hi) i hi
  have he : (residualEntry tt s).data.localData0.realVars = s.data.localData0.realVars := by
    unfold residualEntry
    dsimp only
    split
    · show (setContext _ _).data.localData0.realVars = _
      rw [setContext_realVars]; rfl
    · rfl
  rw [he] at hr
  rw [residualFunctionIDA_sim]
  dsimp only
  split
  · exact hr
  · exact hr

/-- C16, at the decay model with its pattern: after the colored pass and after the dense pass
the states are `1, 2` as before. -/
theorem jacobian_restores_states_witness :
    (jacOwnNumColoredIDA model2c decay 0 (fun _ => 0) (fun _ => 0) jac0).1.states 0 = 1 ∧
    (jacOwnNumColoredIDA model2c decay 0 (fun _ => 0) (fun _ => 0) jac0).1.states 1 = 2 ∧
    (jacOwnNumIDA model2c decay 0 (fun _ => 0) (fun _ => 0) jac0).1.states 0 = 1 ∧
    (jacOwnNumIDA model2c decay 0 (fun _ => 0) (fun _ => 0) jac0).1.states 1 = 2 := by
  have hode : KeepsStates model2c.nStates decay.functionODE := by
    intro d i hi
    have h2 : i ≠ 2 := by
      intro h; rw [h] at hi; exact absurd hi (by decide)
    have h3 : i ≠ 3 := by
      intro h; rw [h] at hi; exact absurd hi (by decide)
    simp [decay, Outcome.state, h2, h3]
  have h := jacobian_restores_states model2c decay 0 (fun _ => 0) (fun _ => 0) jac0
    (residual_keeps_states model2c decay 0 (fun _ => 0) (fun _ _ _ => rfl)
      (fun _ _ _ => rfl) hode)
  exact ⟨h.1 0 (by decide), h.1 1 (by decide), h.2 0 (by decide), h.2 1 (by decide)⟩

/-! ## Colored and dense assembly -/

/-- The residual adapter under `ComputesRHS`: the states are kept and `res` is `f - yp`. -/
theorem residual_rhs (m : MODEL) (cb : Callbacks) (tt : ℚ) (f : Vec → Vec) (yp : Vec)
    (hmodel : ComputesRHS m cb tt f) (s : Sim) (yy nd : Vec) :
    (∀ i, i < m.nStates → (residualFunctionIDA m cb tt yy yp nd s).sim.data.localData0.realVars i
      = s.data.localData0.realVars i) ∧
    (∀ l, l < m.nStates → (residualFunctionIDA m cb tt yy yp nd s).res l =
      f s.data.localData0.realVars l - yp l) := by
  obtain ⟨ht, hst⟩ := residualEntry_time tt s
  have he : (residualEntry tt s).data.localData0.realVars = s.data.localData0.realVars := by
    unfold residualEntry
    dsimp only
    split
    · show (setContext _ _).data.localData0.realVars = _
      rw [setContext_realVars]; rfl
    · rfl
  obtain ⟨hok, hfr, hder⟩ := hmodel.2 (residualEntry tt s) ht hst
  rw [he] at hfr hder
  refine ⟨?_, ?_⟩
  · intro i hi
    rw [residualFunctionIDA_sim]
    dsimp only
    split
    · exact hfr i hi
    · exact hfr i hi
  · intro l hl
    rw [residualFunctionIDA_eq]
    cases c : evalODE cb (residualEntry tt s) with
    | fault s1 => rw [c] at hok; cases hok
    | ok s1 u =>
      rw [c] at hder
      dsimp only
      rw [residualLoop_apply, if_pos hl]
      exact congrArg (fun x => x - yp l) (hder l hl)

/-- A row does not change when the state changes in columns whose row lists do not have
it. -/
theorem dep_agree (m : MODEL) (f : Vec → Vec)
    (hloc : ∀ y y' : Vec, (∀ i, i < m.nStates → y i = y' i) → ∀ l, l < m.nStates →
      f y l = f y' l)
    (hdep : ∀ j, j < m.nStates → ∀ l, l < m.nStates →
      (∃ (y : Vec) (v : ℚ), f (Function.update y j v) l ≠ f y l) →
        l ∈ rowsOf m.jacA.sparsePattern j)
    (y y' : Vec) (l : Nat) (hl : l < m.nStates)
    (h : ∀ i, i < m.nStates → y i ≠ y' i → l ∉ rowsOf m.jacA.sparsePattern i) :
    f y l = f y' l := by
  have key : ∀ k, k ≤ m.nStates → f (fun i => if i < k then y' i else y i) l = f y l := by
    intro k
    induction k with
    | zero =>
      intro _
      simp
    | succ k ih =>
      intro hk
      rw [← ih (by omega)]
      by_cases hyk : y k = y' k
      · apply congrArg (fun g => f g l)
        funext i
        by_cases hik : i = k
        · subst hik
          simp [hyk]
        · have : (i < k + 1) ↔ (i < k) := by omega
          simp only [this]
      · have hnot := h k (by omega) hyk
        have hupd : (fun i => if i < k + 1 then y' i else y i) =
            Function.update (fun i => if i < k then y' i else y i) k (y' k) := by
          funext i
          by_cases hik : i = k
          · subst hik
            simp
          · rw [Function.update_noteq hik]
            have : (i < k + 1) ↔ (i < k) := by omega
            simp only [this]
        rw [hupd]
        by_contra hne
        exact hnot (hdep k (by omega) l hl ⟨_, _, hne⟩)
  rw [← key m.nStates le_rfl]
  apply hloc _ _ _ l hl
  intro i hi
  simp [hi]

theorem colorIs_iff (sp : SPARSE_PATTERN) (j c : Nat) (hmax : sp.maxColors < 4294967296)
    (hc : 1 ≤ sp.colorCols j ∧ sp.colorCols j ≤ sp.maxColors) :
    colorIs sp j c = true ↔ sp.colorCols j = c + 1 := by
  unfold colorIs
  simp only [beq_iff_eq]
  omega

/-- One color of the colored pass: the entries listed for the columns of the color become the
difference quotients, everything else of the matrix and the states stay. -/
theorem colorStep_fd (m : MODEL) (cb : Callbacks) (tt h : ℚ) (yp rr : Vec) (f : Vec → Vec)
    (y0 : Vec) (se : ℚ) (ew : Vec) (hmodel : ComputesRHS m cb tt f) (hv : ValidColoring m f)
    (c : Nat) (w : JacState) (hy : ∀ i, i < m.nStates → w.states i = y0 i)
    (hse : w.ida.sqrteps = se) (hew : w.ida.errwgt = ew) :
    (∀ i, i < m.nStates → (colorStep m cb tt h yp rr c w).states i = y0 i) ∧
    (colorStep m cb tt h yp rr c w).ida.sqrteps = se ∧
    (colorStep m cb tt h yp rr c w).ida.errwgt = ew ∧
    ∀ l j, (colorStep m cb tt h yp rr c w).Jac l j =
      if (j < m.nStates ∧ m.jacA.sparsePattern.colorCols j = c + 1) ∧
          l ∈ rowsOf m.jacA.sparsePattern j
        then fdEntry f se h y0 yp rr ew l j else w.Jac l j := by
  obtain ⟨hcols, hmax, hcolor, hrows, hdep, hshare⟩ := hv
  have hres := fun s yy nd i hi => (residual_rhs m cb tt f yp hmodel s yy nd).1 i hi
  have hcond : ∀ j, (j < m.jacA.sizeCols ∧ colorIs m.jacA.sparsePattern j c = true) ↔
      (j < m.nStates ∧ m.jacA.sparsePattern.colorCols j = c + 1) := by
    intro j
    rw [hcols]
    constructor
    · rintro ⟨a, b⟩
      exact ⟨a, (colorIs_iff _ j c hmax (hcolor j a)).mp b⟩
    · rintro ⟨a, b⟩
      exact ⟨a, (colorIs_iff _ j c hmax (hcolor j a)).mpr b⟩
  have hpert : ∀ j, j < m.nStates →
      perturbation w.ida.sqrteps h w.states yp w.ida.errwgt j =
        perturbation se h y0 yp ew j := by
    intro j hj
    rw [hse, hew]
    exact perturbation_congr _ _ _ _ _ _ _ (hy j hj)
  refine ⟨fun i hi => (colorStep_states m cb tt h yp rr c w hres i hi).trans (hy i hi), ?_, ?_,
    ?_⟩
  · unfold colorStep
    dsimp only
    rw [(fillLoop_spec _ c rr _ _).1, (evalPerturbed_spec m cb tt yp _).2.1,
      (perturbLoop_spec _ c h yp w _).2.1, hse]
  · unfold colorStep
    dsimp only
    rw [(fillLoop_spec _ c rr _ _).1, (evalPerturbed_spec m cb tt yp _).2.2.1,
      (perturbLoop_spec _ c h yp w _).2.2.1, hew]
  · intro l j
    obtain ⟨a1, -, -, -, a5, -, a7⟩ := perturbLoop_spec m.jacA.sparsePattern c h yp w
      m.jacA.sizeCols
    obtain ⟨e1, -, -, -, e5, e6, -⟩ := evalPerturbed_spec m cb tt yp
      (forLoop (fun ii w => if colorIs m.jacA.sparsePattern ii c
        then perturbColumn h yp ii w else w) m.jacA.sizeCols w)
    obtain ⟨-, -, b3⟩ := fillLoop_spec m.jacA.sparsePattern c rr
      (evalPerturbed m cb tt yp (forLoop (fun ii w => if colorIs m.jacA.sparsePattern ii c
        then perturbColumn h yp ii w else w) m.jacA.sizeCols w)) m.jacA.sizeCols
    unfold colorStep
    dsimp only
    rw [b3 l j, e1, a1, e5, e6, a7 j]
    simp only [hcond]
    by_cases hc : (j < m.nStates ∧ m.jacA.sparsePattern.colorCols j = c + 1) ∧
        l ∈ rowsOf m.jacA.sparsePattern j
    · obtain ⟨⟨hj, hcj⟩, hl⟩ := hc
      have hln := hrows j hj l hl
      have c1 : (j < m.nStates ∧ m.jacA.sparsePattern.colorCols j = c + 1) ∧
          l ∈ rowsOf m.jacA.sparsePattern j := ⟨⟨hj, hcj⟩, hl⟩
      have c2 : j < m.nStates ∧ m.jacA.sparsePattern.colorCols j = c + 1 := ⟨hj, hcj⟩
      simp only [if_pos c1, if_pos c2]
      rw [hpert j hj, (residual_rhs m cb tt f yp hmodel _ _ _).2 l hln]
      have hf : f (forLoop (fun ii w => if colorIs m.jacA.sparsePattern ii c
            then perturbColumn h yp ii w else w) m.jacA.sizeCols w).sim.data.localData0.realVars
            l = f (Function.update y0 j (y0 j + perturbation se h y0 yp ew j)) l := by
        apply dep_agree m f hmodel.1 hdep _ _ l hln
        intro i hi hne
        change (forLoop _ m.jacA.sizeCols w).states i ≠ _ at hne
        rw [a5 i] at hne
        simp only [hcond] at hne
        by_cases hij : i = j
        · exfalso
          subst hij
          rw [if_pos ⟨hi, hcj⟩, Function.update_same, hpert i hi, hy i hi] at hne
          exact hne rfl
        · rw [Function.update_noteq hij] at hne
          by_cases hci : m.jacA.sparsePattern.colorCols i = c + 1
          · exact hshare j i hj hi (fun x => hij x.symm) (hcj.trans hci.symm) l hl
          · exfalso
            rw [if_neg (fun x => hci x.2), hy i hi] at hne
            exact hne rfl
      rw [hf]
      rfl
    · rw [if_neg hc, if_neg hc]

/-- The colored pass after `C` colors. -/
theorem colorLoop_fd (m : MODEL) (cb : Callbacks) (tt h : ℚ) (yp rr : Vec) (f : Vec → Vec)
    (hmodel : ComputesRHS m cb tt f) (hv : ValidColoring m f) (w : JacState) (C : Nat) :
    (∀ i, i < m.nStates → (forLoop (colorStep m cb tt h yp rr) C w).states i = w.states i) ∧
    (forLoop (colorStep m cb tt h yp rr) C w).ida.sqrteps = w.ida.sqrteps ∧
    (forLoop (colorStep m cb tt h yp rr) C w).ida.errwgt = w.ida.errwgt ∧
    ∀ l j, (forLoop (colorStep m cb tt h yp rr) C w).Jac l j =
      if (j < m.nStates ∧ m.jacA.sparsePattern.colorCols j ≤ C) ∧
          l ∈ rowsOf m.jacA.sparsePattern j
        then fdEntry f w.ida.sqrteps h w.states yp rr w.ida.errwgt l j else w.Jac l j := by
  induction C with
  | zero =>
    refine ⟨fun _ _ => rfl, rfl, rfl, ?_⟩
    intro l j
    rw [forLoop_zero, if_neg]
    rintro ⟨⟨hj, hc⟩, -⟩
    have := (hv.2.2.1 j hj).1
    omega
  | succ C ih =>
    obtain ⟨i1, i2, i3, i4⟩ := ih
    obtain ⟨s1, s2, s3, s4⟩ := colorStep_fd m cb tt h yp rr f w.states w.ida.sqrteps
      w.ida.errwgt hmodel hv C (forLoop (colorStep m cb tt h yp rr) C w) i1 i2 i3
    rw [forLoop_succ]
    refine ⟨s1, s2, s3, ?_⟩
    intro l j
    rw [s4 l j, i4 l j]
    by_cases hl : l ∈ rowsOf m.jacA.sparsePattern j
    · by_cases hj : j < m.nStates
      · by_cases h1 : m.jacA.sparsePattern.colorCols j = C + 1
        · rw [if_pos ⟨⟨hj, h1⟩, hl⟩, if_pos ⟨⟨hj, by omega⟩, hl⟩]
        · rw [if_neg (fun x => h1 x.1.2)]
          by_cases h2 : m.jacA.sparsePattern.colorCols j ≤ C
          · rw [if_pos ⟨⟨hj, h2⟩, hl⟩, if_pos ⟨⟨hj, by omega⟩, hl⟩]
          · rw [if_neg (fun x => h2 x.1.2), if_neg (fun x => h2 (by have := x.1.2; omega))]
      · rw [if_neg (fun x => hj x.1.1), if_neg (fun x => hj x.1.1),
          if_neg (fun x => hj x.1.1)]
    · rw [if_neg (fun x => hl x.2), if_neg (fun x => hl x.2), if_neg (fun x => hl x.2)]

/-- One column of the dense pass: the column becomes the difference quotients. -/
theorem denseStep_fd (m : MODEL) (cb : Callbacks) (tt h : ℚ) (yp rr : Vec) (f : Vec → Vec)
    (y0 : Vec) (se : ℚ) (ew : Vec) (hmodel : ComputesRHS m cb tt f)
    (k : Nat) (hk : k < m.nStates) (w : JacState)
    (hy : ∀ i, i < m.nStates → w.states i = y0 i)
    (hse : w.ida.sqrteps = se) (hew : w.ida.errwgt = ew) :
    (∀ i, i < m.nStates → (denseStep m cb tt h yp rr k w).states i = y0 i) ∧
    (denseStep m cb tt h yp rr k w).ida.sqrteps = se ∧
    (denseStep m cb tt h yp rr k w).ida.errwgt = ew ∧
    ∀ l j, (denseStep m cb tt h yp rr k w).Jac l j =
      if j = k ∧ l < m.nStates then fdEntry f se h y0 yp rr ew l j else w.Jac l j := by
  have hres := fun s yy nd i hi => (residual_rhs m cb tt f yp hmodel s yy nd).1 i hi
  obtain ⟨-, d2, d3⟩ := denseStep_spec m cb tt h yp rr k w
  have hpert : perturbation w.ida.sqrteps h w.states yp w.ida.errwgt k =
      perturbation se h y0 yp ew k := by
    rw [hse, hew]
    exact perturbation_congr _ _ _ _ _ _ _ (hy k hk)
  refine ⟨fun i hi => (denseStep_states m cb tt h yp rr k w hres i hi).trans (hy i hi), ?_, ?_,
    ?_⟩
  · rw [d2, (evalPerturbed_spec m cb tt yp _).2.1]; exact hse
  · rw [d2, (evalPerturbed_spec m cb tt yp _).2.2.1]; exact hew
  · intro l j
    rw [d3 l j]
    by_cases hc : j = k ∧ l < m.nStates
    · obtain ⟨rfl, hl⟩ := hc
      rw [if_pos ⟨rfl, hl⟩, if_pos ⟨rfl, hl⟩, (evalPerturbed_spec m cb tt yp _).2.2.2.2.2.1,
        (residual_rhs m cb tt f yp hmodel _ _ _).2 l hl, hpert]
      have hf : f (w.sim.setState j (w.states j +
          perturbation se h y0 yp ew j)).data.localData0.realVars l =
          f (Function.update y0 j (y0 j + perturbation se h y0 yp ew j)) l := by
        apply hmodel.1 _ _ _ l hl
        intro i hi
        rw [setState_realVars, hy j hk]
        by_cases hij : i = j
        · subst hij
          rw [Function.update_same, Function.update_same]
        · rw [Function.update_noteq hij, Function.update_noteq hij]
          exact hy i hi
      change (f (w.sim.setState j (w.states j +
        perturbation se h y0 yp ew j)).data.localData0.realVars l - yp l - rr l) * _ = _
      rw [hf]
      rfl
    · rw [if_neg hc, if_neg hc]

/-- The dense pass after `K` columns. -/
theorem denseLoop_fd (m : MODEL) (cb : Callbacks) (tt h : ℚ) (yp rr : Vec) (f : Vec → Vec)
    (hmodel : ComputesRHS m cb tt f) (w : JacState) (K : Nat) (hK : K ≤ m.nStates) :
    (∀ i, i < m.nStates → (forLoop (denseStep m cb tt h yp rr) K w).states i = w.states i) ∧
    (forLoop (denseStep m cb tt h yp rr) K w).ida.sqrteps = w.ida.sqrteps ∧
    (forLoop (denseStep m cb tt h yp rr) K w).ida.errwgt = w.ida.errwgt ∧
    ∀ l j, (forLoop (denseStep m cb tt h yp rr) K w).Jac l j =
      if j < K ∧ l < m.nStates
        then fdEntry f w.ida.sqrteps h w.states yp rr w.ida.errwgt l j else w.Jac l j := by
  induction K with
  | zero =>
    refine ⟨fun _ _ => rfl, rfl, rfl, ?_⟩
    intro l j
    rw [forLoop_zero, if_neg]
    rintro ⟨hj, -⟩
    omega
  | succ K ih =>
    obtain ⟨i1, i2, i3, i4⟩ := ih (by omega)
    obtain ⟨s1, s2, s3, s4⟩ := denseStep_fd m cb tt h yp rr f w.states w.ida.sqrteps
      w.ida.errwgt hmodel K (by omega) (forLoop (denseStep m cb tt h yp rr) K w) i1 i2 i3
    rw [forLoop_succ]
    refine ⟨s1, s2, s3, ?_⟩
    intro l j
    rw [s4 l j, i4 l j]
    by_cases hl : l < m.nStates
    · by_cases h1 : j = K
      · rw [if_pos ⟨h1, hl⟩, if_pos ⟨by omega, hl⟩]
      · rw [if_neg (fun x => h1 x.1)]
        by_cases h2 : j < K
        · rw [if_pos ⟨h2, hl⟩, if_pos ⟨by omega, hl⟩]
        · rw [if_neg (fun x => h2 x.1), if_neg (fun x => h2 (by have := x.1; omega))]
    · rw [if_neg (fun x => hl x.2), if_neg (fun x => hl x.2), if_neg (fun x => hl x.2)]

/-- C6: for callbacks that compute a right-hand side `f` of the states, a sparsity pattern and
coloring valid for `f`, a zero matrix at the start and `rr` the base residual `f(y) - yp` at
the start state, `jacobianOwnNumColoredIDA` and `jacobianOwnNumIDA` (same state, `yp`, `rr`,
step size, error weights, `Neq` and `cj`) both return and produce the same matrix: the
difference quotient in the entries `(l, j)` with `l, j < nStates` and 0 elsewhere, with `cj`
subtracted on the diagonal below `Neq`. -/
theorem colored_eq_dense (m : MODEL) (cb : Callbacks) (Neq : Int) (tt cj : ℚ) (yp rr : Vec)
    (w : JacState) (f : Vec → Vec) (hmodel : ComputesRHS m cb tt f)
    (hv : ValidColoring m f)
    (hrr : ∀ l, l < m.nStates → rr l = f w.states l - yp l)
    (hzero : ∀ l j, w.Jac l j = 0) :
    (jacobianOwnNumColoredIDA m cb Neq tt cj yp rr w).isFault = false ∧
    (jacobianOwnNumIDA m cb Neq tt cj yp rr w).isFault = false ∧
    (jacobianOwnNumColoredIDA m cb Neq tt cj yp rr w).state.Jac =
      (jacobianOwnNumIDA m cb Neq tt cj yp rr w).state.Jac ∧
    ∀ l j, (jacobianOwnNumIDA m cb Neq tt cj yp rr w).state.Jac l j =
      (if j < m.nStates ∧ l < m.nStates
        then fdEntry f w.ida.sqrteps w.ida.ida_mem.hh w.states yp rr w.ida.ida_mem.ewt l j
        else 0) - (if l = j ∧ (l : Int) < Neq then cj else 0) := by
  obtain ⟨e1, e2, e3, e4⟩ := jacEntry_spec w
  obtain ⟨-, -, -, c4⟩ := colorLoop_fd m cb tt w.ida.ida_mem.hh yp rr f hmodel hv (jacEntry w)
    m.jacA.sparsePattern.maxColors
  obtain ⟨-, -, -, d4⟩ := denseLoop_fd m cb tt w.ida.ida_mem.hh yp rr f hmodel (jacEntry w)
    m.nStates le_rfl
  rw [e1, e2, e3, e4] at c4 d4
  obtain ⟨hcols, hmax, hcolor, hrows, hdep, hshare⟩ := hv
  have hdense : ∀ l j, (jacOwnNumIDA m cb tt yp rr w).1.Jac l j =
      if j < m.nStates ∧ l < m.nStates
        then fdEntry f w.ida.sqrteps w.ida.ida_mem.hh w.states yp rr w.ida.ida_mem.ewt l j
        else 0 := by
    intro l j
    show (forLoop (denseStep m cb tt w.ida.ida_mem.hh yp rr) m.nStates (jacEntry w)).Jac l j
      = _
    rw [d4 l j, hzero]
  have hcolored : ∀ l j, (jacOwnNumColoredIDA m cb tt yp rr w).1.Jac l j =
      (jacOwnNumIDA m cb tt yp rr w).1.Jac l j := by
    intro l j
    rw [hdense l j]
    show (forLoop (colorStep m cb tt w.ida.ida_mem.hh yp rr) m.jacA.sparsePattern.maxColors
      (jacEntry w)).Jac l j = _
    rw [c4 l j, hzero]
    by_cases hj : j < m.nStates
    · by_cases hl : l ∈ rowsOf m.jacA.sparsePattern j
      · rw [if_pos ⟨⟨hj, (hcolor j hj).2⟩, hl⟩, if_pos ⟨hj, hrows j hj l hl⟩]
      · rw [if_neg (fun x => hl x.2)]
        by_cases hln : l < m.nStates
        · rw [if_pos ⟨hj, hln⟩]
          have hnd : f (Function.update w.states j (w.states j + perturbation w.ida.sqrteps
              w.ida.ida_mem.hh w.states yp w.ida.ida_mem.ewt j)) l = f w.states l := by
            by_contra hne
            exact hl (hdep j hj l hln ⟨_, _, hne⟩)
          unfold fdEntry
          rw [hnd, hrr l hln]
          ring
        · rw [if_neg (fun x => hln x.2)]
    · rw [if_neg (fun x => hj x.1.1), if_neg (fun x => hj x.1)]
  refine ⟨rfl, rfl, ?_, ?_⟩
  · show subtractCj Neq cj (jacOwnNumColoredIDA m cb tt yp rr w).1.Jac =
      subtractCj Neq cj (jacOwnNumIDA m cb tt yp rr w).1.Jac
    have : (jacOwnNumColoredIDA m cb tt yp rr w).1.Jac = (jacOwnNumIDA m cb tt yp rr w).1.Jac := by
      funext l j
      exact hcolored l j
    rw [this]
  · intro l j
    show subtractCj Neq cj (jacOwnNumIDA m cb tt yp rr w).1.Jac l j = _
    rw [subtractCj_apply, hdense l j]
    split_ifs <;> ring

theorem rowsOf_model2c (j : Nat) : rowsOf model2c.jacA.sparsePattern j = [j] := by
  cases j with
  | zero => rfl
  | succ k =>
    simp [rowsOf, colStart, model2c]
    rfl

theorem decay_computesRHS : ComputesRHS model2c decay 0 decayRHS := by
  refine ⟨?_, ?_⟩
  · intro y y' h l hl
    simp [decayRHS, h l hl]
  · intro s _ _
    refine ⟨rfl, ?_, ?_⟩
    · intro i hi
      have h2 : i ≠ 2 := by
        intro h; rw [h] at hi; exact absurd hi (by decide)
      have h3 : i ≠ 3 := by
        intro h; rw [h] at hi; exact absurd hi (by decide)
      simp [evalODE, Sim.call, decay, Outcome.state, h2, h3]
    · intro i hi
      have hi2 : i < 2 := hi
      interval_cases i <;>
        simp [evalODE, Sim.call, decay, Outcome.state, decayRHS, model2c, model2]

theorem decay_validColoring : ValidColoring model2c decayRHS := by
  refine ⟨rfl, by decide, ?_, ?_, ?_, ?_⟩
  · intro j _
    exact ⟨le_refl 1, le_refl 1⟩
  · intro j hj l hl
    rw [rowsOf_model2c] at hl
    simp only [List.mem_singleton] at hl
    rw [hl]; exact hj
  · intro j _ l _ ⟨y, v, hne⟩
    rw [rowsOf_model2c]
    simp only [List.mem_singleton]
    by_contra hlj
    apply hne
    simp [decayRHS, Function.update_noteq hlj]
  · intro j j' _ _ hjj _ l hl
    rw [rowsOf_model2c] at hl ⊢
    simp only [List.mem_singleton] at hl ⊢
    rw [hl]; exact hjj

/-- C6, at the decay model with its pattern (two columns in one color), states `1, 2`,
`yp = 0`, step 1, error weights 1, `sqrteps = 1/4` and `cj = 3`: the colored and the dense
function give the same matrix, with `-1 - 3` at `(0, 0)` and 0 at `(1, 0)`. -/
theorem colored_eq_dense_witness :
    ComputesRHS model2c decay 0 decayRHS ∧ ValidColoring model2c decayRHS ∧
    (jacobianOwnNumColoredIDA model2c decay 2 0 3 (fun _ => 0) decayBase jac0).state.Jac =
      (jacobianOwnNumIDA model2c decay 2 0 3 (fun _ => 0) decayBase jac0).state.Jac ∧
    (jacobianOwnNumIDA model2c decay 2 0 3 (fun _ => 0) decayBase jac0).state.Jac 0 0
      = -1 - 3 ∧
    (jacobianOwnNumIDA model2c decay 2 0 3 (fun _ => 0) decayBase jac0).state.Jac 1 0 = 0 := by
  have h := colored_eq_dense model2c decay 2 0 3 (fun _ => 0) decayBase jac0 decayRHS
    decay_computesRHS decay_validColoring
    (by
      intro l hl
      have hl2 : l < 2 := hl
      interval_cases l <;>
        simp [decayBase, decayRHS, jac0, sim0, data0, JacState.states])
    (fun _ _ => rfl)
  refine ⟨decay_computesRHS, decay_validColoring, h.2.2.1, ?_, ?_⟩
  · rw [h.2.2.2 0 0]
    norm_num [fdEntry, perturbation, decayRHS, decayBase, jac0, sim0, data0, ida0, mem0,
      JacState.states, model2c, model2]
  · rw [h.2.2.2 1 0]
    norm_num [fdEntry, perturbation, decayRHS, decayBase, jac0, sim0, data0, ida0, mem0,
      JacState.states, model2c, model2]

end IDA
